import Mathlib

/-! # Publisher-info store of the rewards component

A shallow embedding of `components/brave_rewards/browser/publisher_info_database.cc`:
the query builder of `GetPublisherActivityList`, the initialisation and
migration path (`Init`, `EnsureCurrentVersion`, `MigrateV1toV2`,
`MigrateV2toV3`) and the record repository operations.

Conventions of the embedding.
* C++ integers are `Int`; every narrowing the source performs
  (`static_cast<int>`, the `int` parameter of `BindInt`, `ColumnInt`) is an
  explicit wrap modulo `2^32` or `2^64`.
* `double` values are carried as bit patterns; the code never computes with them.
* `DCHECK` is compiled out (release build).
* The enumerators of `ledger::PUBLISHER_MONTH`, `ledger::PUBLISHER_EXCLUDE`,
  `ledger::PUBLISHER_EXCLUDE_FILTER` and `sql::InitStatus` are declared in headers
  that are not part of the listed sources; they are parameters (`Enums`).
-/

set_option autoImplicit false
set_option maxRecDepth 100000

namespace brave_rewards

/-! ## Constants and machine integers -/

/-- The constant `kCurrentVersionNumber`. -/
def kCurrentVersionNumber : Int := 3

/-- The constant `kCompatibleVersionNumber`. -/
def kCompatibleVersionNumber : Int := 1

/-- The static member `PublisherInfoDatabase::GetCurrentVersion`. -/
def GetCurrentVersion : Int := kCurrentVersionNumber

/-- Conversion of an integer value to a 32-bit `int` (two's complement wrap). -/
def toInt32 (v : Int) : Int := (v + 2147483648) % 4294967296 - 2147483648

/-- Conversion of an integer value to `int64_t` (two's complement wrap). -/
def toInt64 (v : Int) : Int :=
  (v + 9223372036854775808) % 18446744073709551616 - 9223372036854775808

/-- Conversion of an integer value to `uint32_t`. -/
def toUInt32 (v : Int) : Int := v % 4294967296

/-- Conversion of an integer value to `uint64_t`. -/
def toUInt64 (v : Int) : Int := v % 18446744073709551616

/-- The decimal rendering `std::to_string(int)`. -/
def to_string (n : Int) : String := toString n

/-- A `double`, carried as its bit pattern. -/
structure Double where
  bits : Nat
deriving DecidableEq, Repr

/-- Whether the bit pattern is a NaN: the eleven exponent bits all set and the
fraction not zero. -/
def Double.isNaN (d : Double) : Bool :=
  (d.bits / 4503599627370496) % 2048 == 2047 && d.bits % 4503599627370496 != 0

/-- Whether the bit pattern is the negative zero. -/
def Double.isNegZero (d : Double) : Bool := d.bits == 9223372036854775808

/-- The value a `DOUBLE DEFAULT 0 NOT NULL` column holds after an `INSERT OR REPLACE`
that binds `d` with `BindDouble`: the engine binds a NaN as NULL, and `REPLACE` puts
the column default 0 in the place of a NULL that `NOT NULL` refuses; the negative
zero is stored as the integer 0 and comes back as +0.0; every other value is kept. -/
def storedReal (d : Double) : Double :=
  if d.isNaN || d.isNegZero then { bits := 0 } else d

/-- Enumerator values that the translation unit takes from headers outside the
listed sources.  `ANY` is `ledger::PUBLISHER_MONTH::ANY`, `EXCLUDED` is
`ledger::PUBLISHER_EXCLUDE::EXCLUDED`, `FILTER_ALL` and
`FILTER_ALL_EXCEPT_EXCLUDED` belong to `ledger::PUBLISHER_EXCLUDE_FILTER`,
`INIT_OK` and `INIT_TOO_NEW` to `sql::InitStatus`. -/
structure Enums where
  ANY : Int
  EXCLUDED : Int
  FILTER_ALL : Int
  FILTER_ALL_EXCEPT_EXCLUDED : Int
  INIT_OK : Int
  INIT_TOO_NEW : Int
deriving DecidableEq, Repr

/-- The enumerator values as the upstream headers declare them
(`bat/ledger/publisher_info.h`, `sql/init_status.h`). -/
def upstreamEnums : Enums where
  ANY := -1
  EXCLUDED := 1
  FILTER_ALL := -1
  FILTER_ALL_EXCEPT_EXCLUDED := 3
  INIT_OK := 0
  INIT_TOO_NEW := 2

/-! ## Filtered query builder (`GetPublisherActivityList`, text and binds) -/

/-- The fields of `ledger::PublisherInfoFilter` that the query builder reads. -/
structure PublisherInfoFilter where
  id : String
  month : Int
  year : Int
  reconcile_stamp : Int
  min_duration : Int
  excluded : Int
  order_by : List (String × Bool)
deriving DecidableEq, Repr

/-- A value handed to one of the `sql::Statement::Bind*` calls; the constructor
records which call it was. -/
inductive BindValue where
  | string (s : String)
  | int (v : Int)
  | int64 (v : Int)
  | bool (b : Bool)
  | double (d : Double)
deriving DecidableEq, Repr

/-- The initial text of the query, up to `WHERE 1 = 1`. -/
def baseQuery : String :=
  "SELECT ai.publisher_id, ai.duration, ai.score, " ++
  "ai.percent, ai.weight, pi.verified, pi.excluded, " ++
  "ai.month, ai.year, pi.name, pi.url, pi.provider, " ++
  "pi.favIcon, ai.reconcile_stamp " ++
  "FROM activity_info AS ai " ++
  "INNER JOIN publisher_info AS pi " ++
  "ON ai.publisher_id = pi.publisher_id " ++
  "WHERE 1 = 1"

/-- One iteration of the loop over `filter.order_by`. -/
def appendOrderBy (query : String) (it : String × Bool) : String :=
  let query := query ++ (" ORDER BY " ++ it.1)
  query ++ (if it.2 then " ASC" else " DESC")

/-- The pagination block: `LIMIT` when `limit > 0`, then `OFFSET` when `start > 1`. -/
def appendLimit (query : String) (start limit : Int) : String :=
  if limit > 0 then
    let query := query ++ (" LIMIT " ++ to_string limit)
    if start > 1 then query ++ (" OFFSET " ++ to_string start) else query
  else query

/-- The predicates part of the text: the six consecutive `if` blocks, plus the
second exclusion block, each appending to `query`. -/
def appendPredicates (E : Enums) (filter : PublisherInfoFilter) (query : String) : String :=
  let query := if filter.id ≠ "" then query ++ " AND ai.publisher_id = ?" else query
  let query := if filter.month ≠ E.ANY then query ++ " AND ai.month = ?" else query
  let query := if filter.year > 0 then query ++ " AND ai.year = ?" else query
  let query := if filter.reconcile_stamp > 0 then query ++ " AND ai.reconcile_stamp = ?" else query
  let query := if filter.min_duration > 0 then query ++ " AND ai.duration >= ?" else query
  let query :=
    if filter.excluded ≠ E.FILTER_ALL ∧ filter.excluded ≠ E.FILTER_ALL_EXCEPT_EXCLUDED then
      query ++ " AND pi.excluded = ?"
    else query
  let query :=
    if filter.excluded = E.FILTER_ALL_EXCEPT_EXCLUDED then query ++ " AND pi.excluded != ?"
    else query
  query

/-- The value of `query` when the pagination block is reached: the predicate
blocks followed by the loop over the sort keys. -/
def queryBeforeLimit (E : Enums) (filter : PublisherInfoFilter) : String :=
  let query := appendPredicates E filter baseQuery
  filter.order_by.foldl appendOrderBy query

/-- The text handed to `GetUniqueStatement`: the value of `query` after the
predicate blocks, the sort-key loop and the pagination block. -/
def buildQuery (E : Enums) (start limit : Int) (filter : PublisherInfoFilter) : String :=
  appendLimit (queryBeforeLimit E filter) start limit

/-- The binder state: the running `column` counter and the `(slot, value)` pairs
bound so far, oldest first. -/
structure Binder where
  column : Nat
  bound : List (Nat × BindValue)
deriving DecidableEq, Repr

/-- One `info_sql.Bind*(column++, v)` call. -/
def Binder.bind (b : Binder) (v : BindValue) : Binder :=
  { column := b.column + 1, bound := b.bound ++ [(b.column, v)] }

/-- The bind blocks of `GetPublisherActivityList`, starting from `column = 0`. -/
def bindFilter (E : Enums) (filter : PublisherInfoFilter) : Binder :=
  let b : Binder := { column := 0, bound := [] }
  let b := if filter.id ≠ "" then b.bind (.string filter.id) else b
  let b := if filter.month ≠ E.ANY then b.bind (.int filter.month) else b
  let b := if filter.year > 0 then b.bind (.int filter.year) else b
  let b := if filter.reconcile_stamp > 0 then b.bind (.int64 filter.reconcile_stamp) else b
  let b := if filter.min_duration > 0 then b.bind (.int filter.min_duration) else b
  let b :=
    if filter.excluded ≠ E.FILTER_ALL ∧ filter.excluded ≠ E.FILTER_ALL_EXCEPT_EXCLUDED then
      b.bind (.int filter.excluded)
    else b
  let b :=
    if filter.excluded = E.FILTER_ALL_EXCEPT_EXCLUDED then b.bind (.int E.EXCLUDED) else b
  b

/-- Number of `?` characters of a statement text. -/
def placeholders (query : String) : Nat := query.toList.count '?'

/-- Number of positions of `text` at which `pat` starts. -/
def countOccurrences (pat : List Char) : List Char → Nat
  | [] => 0
  | c :: cs => (if pat.isPrefixOf (c :: cs) then 1 else 0) + countOccurrences pat cs

/-- Number of `ORDER BY` keywords of a statement text. -/
def orderByCount (query : String) : Nat :=
  countOccurrences " ORDER BY ".toList query.toList

/-- The exclusion predicate of the filter as the pair (clause, bound value), if any:
the two exclusion blocks of the builder read together. -/
def exclusionClause (E : Enums) (filter : PublisherInfoFilter) : List (String × BindValue) :=
  (if filter.excluded ≠ E.FILTER_ALL ∧ filter.excluded ≠ E.FILTER_ALL_EXCEPT_EXCLUDED then
    [(" AND pi.excluded = ?", BindValue.int filter.excluded)] else []) ++
  (if filter.excluded = E.FILTER_ALL_EXCEPT_EXCLUDED then
    [(" AND pi.excluded != ?", BindValue.int E.EXCLUDED)] else [])

/-- The (predicate clause, field value) pairs of the present fields other than the
exclusion mode, in the fixed order id, month, year, reconcile_stamp, min_duration. -/
def fieldClauses (E : Enums) (filter : PublisherInfoFilter) : List (String × BindValue) :=
  (if filter.id ≠ "" then [(" AND ai.publisher_id = ?", BindValue.string filter.id)] else []) ++
  (if filter.month ≠ E.ANY then [(" AND ai.month = ?", BindValue.int filter.month)] else []) ++
  (if filter.year > 0 then [(" AND ai.year = ?", BindValue.int filter.year)] else []) ++
  (if filter.reconcile_stamp > 0 then
    [(" AND ai.reconcile_stamp = ?", BindValue.int64 filter.reconcile_stamp)] else []) ++
  (if filter.min_duration > 0 then
    [(" AND ai.duration >= ?", BindValue.int filter.min_duration)] else [])

/-- The specification's reading of the builder: one (predicate clause, field value)
pair for each present optional field, in the fixed order id, month, year,
reconcile_stamp, min_duration, exclusion. -/
def specClauses (E : Enums) (filter : PublisherInfoFilter) : List (String × BindValue) :=
  fieldClauses E filter ++ exclusionClause E filter

/-- The specification's reading of the sort keys: a single trailing `ORDER BY`
clause listing the keys in the caller's order with their directions. -/
def specOrderBy (keys : List (String × Bool)) : String :=
  match keys with
  | [] => ""
  | _ :: _ =>
    " ORDER BY" ++
      String.intercalate "," (keys.map (fun it => " " ++ it.1 ++ (if it.2 then " ASC" else " DESC")))

/-! ## The store: tables, connection, environment -/

/-- A row of `publisher_info`. -/
structure PublisherRow where
  publisher_id : String
  verified : Bool
  excluded : Int
  name : String
  favIcon : String
  url : String
  provider : String
deriving DecidableEq, Repr

/-- A row of `contribution_info`. -/
structure ContributionRow where
  publisher_id : String
  probi : String
  date : Int
  category : Int
  month : Int
  year : Int
deriving DecidableEq, Repr

/-- A row of `activity_info` (or of `activity_info_old`).  A field whose column the
table does not have is not meaningful. -/
structure ActivityRow where
  publisher_id : String
  duration : Int
  visits : Int
  score : Double
  percent : Int
  weight : Double
  month : Int
  year : Int
  reconcile_stamp : Int
deriving DecidableEq, Repr

/-- A row of `media_publisher_info`. -/
structure MediaRow where
  media_key : String
  publisher_id : String
deriving DecidableEq, Repr

/-- A row of `recurring_donation`. -/
structure RecurringRow where
  publisher_id : String
  amount : Double
  added_date : Int
deriving DecidableEq, Repr

/-- The activity table together with the part of its schema the code depends on:
its column names and whether it declares
`CONSTRAINT activity_unique UNIQUE (publisher_id, month, year, reconcile_stamp)`.
Other constraints of a table created by an older build are not represented. -/
structure ActivityTable where
  columns : List String
  activity_unique : Bool
  rows : List ActivityRow
deriving DecidableEq, Repr

/-- The two values kept in the `meta` table by `sql::MetaTable`. -/
structure MetaTable where
  version : Int
  last_compatible_version : Int
deriving DecidableEq, Repr

/-- The content of the database file: each table is `none` when it does not exist.
`indexes` lists (index name, table name). -/
structure Store where
  metaTable : Option MetaTable
  publisher_info : Option (List PublisherRow)
  contribution_info : Option (List ContributionRow)
  activity_info : Option ActivityTable
  activity_info_old : Option ActivityTable
  media_publisher_info : Option (List MediaRow)
  recurring_donation : Option (List RecurringRow)
  indexes : List (String × String)
deriving DecidableEq, Repr

/-- The connection `db_` (an `sql::Database`) together with the file it reads and
writes.  `foreign_keys` is the connection's `PRAGMA foreign_keys` setting and
`transaction_nesting` the number of open `sql::Transaction`s. -/
structure Database where
  is_open : Bool
  foreign_keys : Bool
  transaction_nesting : Nat
  store : Store
deriving DecidableEq, Repr

/-- The object `PublisherInfoDatabase`: its connection and its `initialized_` flag. -/
structure PublisherInfoDatabase where
  db_ : Database
  initialized_ : Bool
deriving DecidableEq, Repr

/-- A row of the join `activity_info AS ai INNER JOIN publisher_info AS pi`. -/
structure JoinedRow where
  ai : ActivityRow
  pi : PublisherRow
deriving DecidableEq, Repr

/-- What the code cannot control: whether the file opens, whether a transaction
begins and commits, whether `sql::MetaTable::Init` succeeds, whether a statement
with a given text fails for a reason outside the model (I/O), and how the SQL
engine orders rows for one sort key (`none` when the key does not compile). -/
structure Env where
  open_ok : Bool
  begin_ok : Bool
  commit_ok : Bool
  meta_init_ok : Bool
  exec_ok : String → Bool
  order_rows : String → Bool → List JoinedRow → Option (List JoinedRow)

/-- An environment in which nothing fails and a sort key leaves the rows as they are. -/
def Env.ideal : Env where
  open_ok := true
  begin_ok := true
  commit_ok := true
  meta_init_ok := true
  exec_ok := fun _ => true
  order_rows := fun _ _ rows => some rows

/-- The records `ledger::PublisherInfo` exchanged with the callers: the fields this
translation unit reads or writes. -/
structure PublisherInfo where
  id : String
  duration : Int
  score : Double
  percent : Int
  weight : Double
  excluded : Int
  reconcile_stamp : Int
  verified : Bool
  name : String
  url : String
  provider : String
  favicon_url : String
  month : Int
  year : Int
deriving DecidableEq, Repr

/-- The record `brave_rewards::ContributionInfo`: the fields bound by
`InsertContributionInfo`. -/
structure ContributionInfo where
  publisher_key : String
  probi : String
  date : Int
  category : Int
  month : Int
  year : Int
deriving DecidableEq, Repr

/-- The record `brave_rewards::RecurringDonation`. -/
structure RecurringDonation where
  publisher_key : String
  amount : Double
  added_date : Int
deriving DecidableEq, Repr

/-- A value as SQLite stores and compares it. -/
inductive SqlValue where
  | integer (v : Int)
  | text (s : String)
  | real (d : Double)
deriving DecidableEq, Repr

/-- The stored value of a bound parameter: `BindInt` takes an `int`, `BindInt64`
an `int64_t`, `BindBool` stores 0 or 1. -/
def BindValue.toSql : BindValue → SqlValue
  | .string s => .text s
  | .int v => .integer (toInt32 v)
  | .int64 v => .integer (toInt64 v)
  | .bool b => .integer (if b then 1 else 0)
  | .double d => .real d

/-- An empty store: no table exists. -/
def Store.empty : Store where
  metaTable := none
  publisher_info := none
  contribution_info := none
  activity_info := none
  activity_info_old := none
  media_publisher_info := none
  recurring_donation := none
  indexes := []

/-- The columns of `activity_info` as `CreateActivityInfoTable` declares them. -/
def activityColumns : List String :=
  ["publisher_id", "duration", "visits", "score", "percent", "weight", "month", "year",
   "reconcile_stamp"]

/-- The call `sql::Database::DoesTableExist` for the tables of this store. -/
def Store.DoesTableExist (s : Store) (name : String) : Bool :=
  if name = "meta" then s.metaTable.isSome
  else if name = "publisher_info" then s.publisher_info.isSome
  else if name = "contribution_info" then s.contribution_info.isSome
  else if name = "activity_info" then s.activity_info.isSome
  else if name = "activity_info_old" then s.activity_info_old.isSome
  else if name = "media_publisher_info" then s.media_publisher_info.isSome
  else if name = "recurring_donation" then s.recurring_donation.isSome
  else false

/-- The call `sql::Database::DoesColumnExist`, used by the code on `activity_info` only. -/
def Store.DoesColumnExist (s : Store) (table column : String) : Bool :=
  if table = "activity_info" then
    match s.activity_info with
    | some t => t.columns.contains column
    | none => false
  else false

/-- Whether `publisher_info` has a row for `id` (the table must exist). -/
def Store.hasPublisher (s : Store) (id : String) : Bool :=
  match s.publisher_info with
  | some rows => rows.any (fun r => r.publisher_id == id)
  | none => false

/-- The foreign-key check of an insert into a table that references
`publisher_info (publisher_id)`: passes when enforcement is off or the parent row exists. -/
def Database.fkAllows (db : Database) (publisher_id : String) : Bool :=
  !db.foreign_keys || db.store.hasPublisher publisher_id

/-- The statement `sql` with the effect `effect` on the file: it fails when the
connection is not open, when the environment makes it fail or when the effect is
not defined, and then changes nothing. -/
def Database.run (env : Env) (sql : String) (effect : Database → Option Database)
    (db : Database) : Bool × Database :=
  if db.is_open && env.exec_ok sql then
    match effect db with
    | some db' => (true, db')
    | none => (false, db)
  else (false, db)

/-- The call `sql::Database::Execute` on a text of several statements: they run in
order and the first failure stops the run; earlier statements keep their effect. -/
def Database.runScript (env : Env) : List (String × (Database → Option Database)) →
    Database → Bool × Database
  | [], db => (true, db)
  | (sql, effect) :: rest, db =>
    match Database.run env sql effect db with
    | (true, db') => Database.runScript env rest db'
    | (false, db') => (false, db')

/-- Replace the store of a connection. -/
def Database.withStore (db : Database) (s : Store) : Database := { db with store := s }

/-! ## Schema manager -/

/-- The effect of `CREATE INDEX IF NOT EXISTS name ON table (publisher_id)`: an
error when the table does not exist, nothing when an index of that name exists. -/
def createIndexEffect (name table : String) (db : Database) : Option Database :=
  if db.store.DoesTableExist table then
    if db.store.indexes.any (fun i => i.1 == name) then some db
    else some (db.withStore { db.store with indexes := db.store.indexes ++ [(name, table)] })
  else none

/-- The indexes that remain when `table` is dropped. -/
def dropIndexesOf (table : String) (indexes : List (String × String)) : List (String × String) :=
  indexes.filter (fun i => i.2 != table)

/-- The text built by `CreateContributionInfoTable`. -/
def contributionInfoSql : String :=
  "CREATE TABLE " ++ "contribution_info" ++
  ("(" ++
  "publisher_id LONGVARCHAR," ++
  "probi TEXT \"0\"  NOT NULL," ++
  "date INTEGER NOT NULL," ++
  "category INTEGER NOT NULL," ++
  "month INTEGER NOT NULL," ++
  "year INTEGER NOT NULL," ++
  "CONSTRAINT fk_contribution_info_publisher_id" ++
  "    FOREIGN KEY (publisher_id)" ++
  "    REFERENCES publisher_info (publisher_id)" ++
  "    ON DELETE CASCADE)")

/-- The effect of the `CREATE TABLE contribution_info` statement: an error when the table
exists, else the empty table. -/
def createContributionInfoEffect (d : Database) : Option Database :=
  match d.store.contribution_info with
  | some _ => none
  | none => some (d.withStore { d.store with contribution_info := some [] })

/-- The method `PublisherInfoDatabase::CreateContributionInfoTable`. -/
def CreateContributionInfoTable (env : Env) (db : Database) : Bool × Database :=
  if db.store.DoesTableExist "contribution_info" then (true, db)
  else db.run env contributionInfoSql createContributionInfoEffect

/-- The statement of `CreateContributionInfoIndex`. -/
def contributionInfoIndexSql : String :=
  "CREATE INDEX IF NOT EXISTS contribution_info_publisher_id_index " ++
  "ON contribution_info (publisher_id)"

/-- The method `PublisherInfoDatabase::CreateContributionInfoIndex`. -/
def CreateContributionInfoIndex (env : Env) (db : Database) : Bool × Database :=
  db.run env contributionInfoIndexSql
    (createIndexEffect "contribution_info_publisher_id_index" "contribution_info")

/-- The text built by `CreatePublisherInfoTable`. -/
def publisherInfoSql : String :=
  "CREATE TABLE " ++ "publisher_info" ++
  ("(" ++
  "publisher_id LONGVARCHAR PRIMARY KEY NOT NULL UNIQUE," ++
  "verified BOOLEAN DEFAULT 0 NOT NULL," ++
  "excluded INTEGER DEFAULT 0 NOT NULL," ++
  "name TEXT NOT NULL," ++
  "favIcon TEXT NOT NULL," ++
  "url TEXT NOT NULL," ++
  "provider TEXT NOT NULL)")

/-- The effect of the `CREATE TABLE publisher_info` statement: an error when the table
exists, else the empty table. -/
def createPublisherInfoEffect (d : Database) : Option Database :=
  match d.store.publisher_info with
  | some _ => none
  | none => some (d.withStore { d.store with publisher_info := some [] })

/-- The method `PublisherInfoDatabase::CreatePublisherInfoTable`. -/
def CreatePublisherInfoTable (env : Env) (db : Database) : Bool × Database :=
  if db.store.DoesTableExist "publisher_info" then (true, db)
  else db.run env publisherInfoSql createPublisherInfoEffect

/-- The text built by `CreateActivityInfoTable`. -/
def activityInfoSql : String :=
  "CREATE TABLE " ++ "activity_info" ++
  ("(" ++
  "publisher_id LONGVARCHAR NOT NULL," ++
  "duration INTEGER DEFAULT 0 NOT NULL," ++
  "visits INTEGER DEFAULT 0 NOT NULL," ++
  "score DOUBLE DEFAULT 0 NOT NULL," ++
  "percent INTEGER DEFAULT 0 NOT NULL," ++
  "weight DOUBLE DEFAULT 0 NOT NULL," ++
  "month INTEGER NOT NULL," ++
  "year INTEGER NOT NULL," ++
  "reconcile_stamp INTEGER DEFAULT 0 NOT NULL," ++
  "CONSTRAINT activity_unique " ++
  "UNIQUE (publisher_id, month, year, reconcile_stamp) " ++
  "CONSTRAINT fk_activity_info_publisher_id" ++
  "    FOREIGN KEY (publisher_id)" ++
  "    REFERENCES publisher_info (publisher_id)" ++
  "    ON DELETE CASCADE)")

/-- The effect of the `CREATE TABLE activity_info` statement: an error when the table
exists, else the empty table. -/
def createActivityInfoEffect (d : Database) : Option Database :=
  match d.store.activity_info with
  | some _ => none
  | none =>
    some (d.withStore { d.store with
      activity_info := some { columns := activityColumns, activity_unique := true, rows := [] } })

/-- The method `PublisherInfoDatabase::CreateActivityInfoTable`. -/
def CreateActivityInfoTable (env : Env) (db : Database) : Bool × Database :=
  if db.store.DoesTableExist "activity_info" then (true, db)
  else db.run env activityInfoSql createActivityInfoEffect

/-- The statement of `CreateActivityInfoIndex`. -/
def activityInfoIndexSql : String :=
  "CREATE INDEX IF NOT EXISTS activity_info_publisher_id_index " ++
  "ON activity_info (publisher_id)"

/-- The method `PublisherInfoDatabase::CreateActivityInfoIndex`. -/
def CreateActivityInfoIndex (env : Env) (db : Database) : Bool × Database :=
  db.run env activityInfoIndexSql
    (createIndexEffect "activity_info_publisher_id_index" "activity_info")

/-- The text built by `CreateMediaPublisherInfoTable`. -/
def mediaPublisherInfoSql : String :=
  "CREATE TABLE " ++ "media_publisher_info" ++
  ("(" ++
  "media_key TEXT NOT NULL PRIMARY KEY UNIQUE," ++
  "publisher_id LONGVARCHAR NOT NULL," ++
  "CONSTRAINT fk_media_publisher_info_publisher_id" ++
  "    FOREIGN KEY (publisher_id)" ++
  "    REFERENCES publisher_info (publisher_id)" ++
  "    ON DELETE CASCADE)")

/-- The effect of the `CREATE TABLE media_publisher_info` statement: an error when the table
exists, else the empty table. -/
def createMediaPublisherInfoEffect (d : Database) : Option Database :=
  match d.store.media_publisher_info with
  | some _ => none
  | none => some (d.withStore { d.store with media_publisher_info := some [] })

/-- The method `PublisherInfoDatabase::CreateMediaPublisherInfoTable`. -/
def CreateMediaPublisherInfoTable (env : Env) (db : Database) : Bool × Database :=
  if db.store.DoesTableExist "media_publisher_info" then (true, db)
  else db.run env mediaPublisherInfoSql createMediaPublisherInfoEffect

/-- The text built by `CreateRecurringDonationTable`. -/
def recurringDonationSql : String :=
  "CREATE TABLE " ++ "recurring_donation" ++
  ("(" ++
  "publisher_id LONGVARCHAR NOT NULL PRIMARY KEY UNIQUE," ++
  "amount DOUBLE DEFAULT 0 NOT NULL," ++
  "added_date INTEGER DEFAULT 0 NOT NULL," ++
  "CONSTRAINT fk_recurring_donation_publisher_id" ++
  "    FOREIGN KEY (publisher_id)" ++
  "    REFERENCES publisher_info (publisher_id)" ++
  "    ON DELETE CASCADE)")

/-- The effect of the `CREATE TABLE recurring_donation` statement: an error when the table
exists, else the empty table. -/
def createRecurringDonationEffect (d : Database) : Option Database :=
  match d.store.recurring_donation with
  | some _ => none
  | none => some (d.withStore { d.store with recurring_donation := some [] })

/-- The method `PublisherInfoDatabase::CreateRecurringDonationTable`. -/
def CreateRecurringDonationTable (env : Env) (db : Database) : Bool × Database :=
  if db.store.DoesTableExist "recurring_donation" then (true, db)
  else db.run env recurringDonationSql createRecurringDonationEffect

/-- The statement of `CreateRecurringDonationIndex`. -/
def recurringDonationIndexSql : String :=
  "CREATE INDEX IF NOT EXISTS recurring_donation_publisher_id_index " ++
  "ON recurring_donation (publisher_id)"

/-- The method `PublisherInfoDatabase::CreateRecurringDonationIndex`. -/
def CreateRecurringDonationIndex (env : Env) (db : Database) : Bool × Database :=
  db.run env recurringDonationIndexSql
    (createIndexEffect "recurring_donation_publisher_id_index" "recurring_donation")

/-! ## The `meta` table (`sql::MetaTable`) -/

/-- The call `meta_table_.Init(&db_, version, compatible_version)`: the table is
created and filled when it is absent, left alone when it exists. -/
def meta_table_Init (env : Env) (version compatible_version : Int) (db : Database) :
    Bool × Database :=
  if env.meta_init_ok then
    match db.store.metaTable with
    | some _ => (true, db)
    | none =>
      (true, db.withStore { db.store with
        metaTable := some { version := version, last_compatible_version := compatible_version } })
  else (false, db)

/-- The call `meta_table_.GetVersionNumber()`; 0 when nothing is stored. -/
def GetVersionNumber (db : Database) : Int :=
  match db.store.metaTable with
  | some m => m.version
  | none => 0

/-- The call `meta_table_.GetCompatibleVersionNumber()`; 0 when nothing is stored. -/
def GetCompatibleVersionNumber (db : Database) : Int :=
  match db.store.metaTable with
  | some m => m.last_compatible_version
  | none => 0

/-- The statement by which `sql::MetaTable` stores a value. -/
def metaSetSql : String := "INSERT OR REPLACE INTO meta (key,value) VALUES (?,?)"

/-- The effect of storing `version` in the `meta` table. -/
def setVersionEffect (version : Int) (d : Database) : Option Database :=
  match d.store.metaTable with
  | some m => some (d.withStore { d.store with metaTable := some { m with version := version } })
  | none => none

/-- The call `meta_table_.SetVersionNumber(version)`; it returns nothing, a failed
write leaves the stored version as it was. -/
def SetVersionNumber (env : Env) (version : Int) (db : Database) : Database :=
  (db.run env metaSetSql (setVersionEffect version)).2

/-! ## Migration engine -/

/-- The effect of `ALTER TABLE activity_info ADD reconcile_stamp INTEGER DEFAULT 0 NOT NULL`. -/
def addReconcileStampEffect (db : Database) : Option Database :=
  match db.store.activity_info with
  | some t =>
    if t.columns.contains "reconcile_stamp" then none
    else
      some (db.withStore { db.store with
        activity_info := some { t with
          columns := t.columns ++ ["reconcile_stamp"]
          rows := t.rows.map (fun r => { r with reconcile_stamp := 0 }) } })
  | none => none

/-- The effect of `DROP TABLE contribution_info`. -/
def dropContributionInfoEffect (db : Database) : Option Database :=
  match db.store.contribution_info with
  | some _ =>
    some (db.withStore { db.store with
      contribution_info := none
      indexes := dropIndexesOf "contribution_info" db.store.indexes })
  | none => none

/-- The method `PublisherInfoDatabase::MigrateV1toV2`. -/
def MigrateV1toV2 (env : Env) (db : Database) : Bool × Database :=
  let sql : List (String × (Database → Option Database)) := []
  let sql :=
    if db.store.DoesTableExist "activity_info" then
      if !db.store.DoesColumnExist "activity_info" "reconcile_stamp" then
        sql ++ [(" ALTER TABLE " ++ "activity_info" ++ " ADD reconcile_stamp INTEGER DEFAULT 0 NOT NULL; ",
                 addReconcileStampEffect)]
      else sql
    else sql
  let sql :=
    if db.store.DoesTableExist "contribution_info" then
      sql ++ [(" DROP TABLE " ++ "contribution_info" ++ " ; ", dropContributionInfoEffect)]
    else sql
  match db.runScript env sql with
  | (false, db) => (false, db)
  | (true, db) =>
    match CreateContributionInfoTable env db with
    | (false, db) => (false, db)
    | (true, db) =>
      match CreateContributionInfoIndex env db with
      | (false, db) => (false, db)
      | (true, db) =>
        match CreateRecurringDonationTable env db with
        | (false, db) => (false, db)
        | (true, db) => CreateRecurringDonationIndex env db

/-- The effect of `ALTER TABLE activity_info RENAME TO activity_info_old`; an index
of the table follows it. -/
def renameActivityInfoEffect (db : Database) : Option Database :=
  match db.store.activity_info, db.store.activity_info_old with
  | some t, none =>
    some (db.withStore { db.store with
      activity_info := none
      activity_info_old := some t
      indexes := db.store.indexes.map
        (fun i => if i.2 = "activity_info" then (i.1, "activity_info_old") else i) })
  | _, _ => none

/-- The column list `columns` of `MigrateV2toV3`. -/
def migrateColumns : List String :=
  ["publisher_id", "duration", "score", "percent", "weight", "month", "year", "reconcile_stamp"]

/-- The key of the constraint `activity_unique`. -/
def activityKey (r : ActivityRow) : String × Int × Int × Int :=
  (r.publisher_id, r.month, r.year, r.reconcile_stamp)

/-- The effect of `PRAGMA foreign_keys=...`: SQLite ignores it inside a transaction. -/
def foreignKeysEffect (value : Bool) (db : Database) : Option Database :=
  if db.transaction_nesting = 0 then some { db with foreign_keys := value } else some db

/-- The effect of `INSERT INTO activity_info (columns) SELECT columns FROM activity_info_old`:
each old row is appended with the default `visits`; the statement fails as a whole
when a column is missing, when the result would break `activity_unique`, or when
foreign keys are enforced and a copied row has no publisher row. -/
def copyActivityEffect (db : Database) : Option Database :=
  match db.store.activity_info, db.store.activity_info_old with
  | some t, some old =>
    if migrateColumns.all (fun c => t.columns.contains c && old.columns.contains c) then
      let copied := old.rows.map (fun r => { r with visits := 0 })
      let rows := t.rows ++ copied
      if t.activity_unique && !decide ((rows.map activityKey).Nodup) then none
      else if !copied.all (fun r => db.fkAllows r.publisher_id) then none
      else some (db.withStore { db.store with activity_info := some { t with rows := rows } })
    else none
  | _, _ => none

/-- The effect of `UPDATE activity_info SET visits=5`. -/
def setVisitsEffect (db : Database) : Option Database :=
  match db.store.activity_info with
  | some t =>
    if t.columns.contains "visits" then
      some (db.withStore { db.store with
        activity_info := some { t with rows := t.rows.map (fun r => { r with visits := 5 }) } })
    else none
  | none => none

/-- The effect of `DROP TABLE activity_info_old`. -/
def dropActivityInfoOldEffect (db : Database) : Option Database :=
  match db.store.activity_info_old with
  | some _ =>
    some (db.withStore { db.store with
      activity_info_old := none
      indexes := dropIndexesOf "activity_info_old" db.store.indexes })
  | none => none

/-- The statements of the second `Execute` of `MigrateV2toV3`, in order. -/
def migrateV2toV3Script : List (String × (Database → Option Database)) :=
  let columns := "publisher_id, " ++ "duration, " ++ "score, " ++ "percent, " ++ "weight, " ++
    "month, " ++ "year, " ++ "reconcile_stamp"
  [("PRAGMA foreign_keys=off;", foreignKeysEffect false),
   ("INSERT INTO activity_info (" ++ columns ++ ") " ++ "SELECT " ++ columns ++ " " ++
      "FROM activity_info_old;", copyActivityEffect),
   ("UPDATE activity_info SET visits=5;", setVisitsEffect),
   ("DROP TABLE activity_info_old;", dropActivityInfoOldEffect),
   ("PRAGMA foreign_keys=on;", foreignKeysEffect true)]

/-- The method `PublisherInfoDatabase::MigrateV2toV3`. -/
def MigrateV2toV3 (env : Env) (db : Database) : Bool × Database :=
  if db.store.DoesTableExist "activity_info" then
    match db.run env "ALTER TABLE activity_info RENAME TO activity_info_old;"
        renameActivityInfoEffect with
    | (false, db) => (false, db)
    | (true, db) =>
      match CreateActivityInfoTable env db with
      | (false, db) => (false, db)
      | (true, db) =>
        match CreateActivityInfoIndex env db with
        | (false, db) => (false, db)
        | (true, db) => db.runScript env migrateV2toV3Script
  else (false, db)

/-- The method `PublisherInfoDatabase::EnsureCurrentVersion`; the result is the
`sql::InitStatus` it returns, as its integer value.  A failed step is only logged. -/
def EnsureCurrentVersion (E : Enums) (env : Env) (db : Database) : Int × Database :=
  if GetCompatibleVersionNumber db > GetCurrentVersion then (E.INIT_TOO_NEW, db)
  else
    let old_version := GetVersionNumber db
    let cur_version := GetCurrentVersion
    let db :=
      if old_version = 1 then
        let db := if cur_version < 3 then (MigrateV1toV2 env db).2 else db
        let db := if cur_version < 4 then (MigrateV2toV3 env db).2 else db
        SetVersionNumber env cur_version db
      else db
    let db :=
      if old_version = 2 then
        let db := if cur_version < 4 then (MigrateV2toV3 env db).2 else db
        SetVersionNumber env cur_version db
      else db
    (E.INIT_OK, db)

/-- The migration step registered for `v → v + 1`: `MigrateV1toV2` for 1,
`MigrateV2toV3` for 2, none for any other version. -/
def registeredStep (env : Env) (v : Int) : Option (Database → Bool × Database) :=
  if v = 1 then some (MigrateV1toV2 env)
  else if v = 2 then some (MigrateV2toV3 env)
  else none

/-- The migration rule as the specification words it: while the stored version is
below the target, apply the step registered for stored → stored + 1, in order,
without skipping one.  `fuel` bounds the number of steps. -/
def specApplySteps (env : Env) : Nat → Int → Int → Database → Database
  | 0, _, _, db => db
  | fuel + 1, stored, target, db =>
    if stored < target then
      match registeredStep env stored with
      | some step => specApplySteps env fuel (stored + 1) target (step db).2
      | none => db
    else db

/-! ## Opening the store -/

/-- The state a `sql::Transaction` leaves when it goes out of scope without a
commit: the file content of `saved`, the nesting one lower. -/
def rollbackTo (saved : Store) (db : Database) : Database :=
  { db with store := saved, transaction_nesting := db.transaction_nesting - 1 }

/-- The method `PublisherInfoDatabase::Init`.  The `bool` it returns on a version
status other than `INIT_OK` is that status converted to `bool`. -/
def Init (E : Enums) (env : Env) (self : PublisherInfoDatabase) : Bool × PublisherInfoDatabase :=
  if self.initialized_ then (true, self)
  else if !(env.open_ok && !self.db_.is_open) then (false, self)
  else
    let db : Database := { self.db_ with is_open := true }
    if !env.begin_ok then (false, { self with db_ := db })
    else
      let saved := db.store
      let db := { db with transaction_nesting := db.transaction_nesting + 1 }
      let fail (d : Database) (result : Bool) : Bool × PublisherInfoDatabase :=
        (result, { self with db_ := rollbackTo saved d })
      match meta_table_Init env GetCurrentVersion kCompatibleVersionNumber db with
      | (false, db) => fail db false
      | (true, db) =>
        match CreatePublisherInfoTable env db with
        | (false, db) => fail db false
        | (true, db) =>
        match CreateContributionInfoTable env db with
        | (false, db) => fail db false
        | (true, db) =>
        match CreateActivityInfoTable env db with
        | (false, db) => fail db false
        | (true, db) =>
        match CreateMediaPublisherInfoTable env db with
        | (false, db) => fail db false
        | (true, db) =>
        match CreateRecurringDonationTable env db with
        | (false, db) => fail db false
        | (true, db) =>
          let db := (CreateContributionInfoIndex env db).2
          let db := (CreateActivityInfoIndex env db).2
          let db := (CreateRecurringDonationIndex env db).2
          match EnsureCurrentVersion E env db with
          | (version_status, db) =>
            if version_status ≠ E.INIT_OK then fail db (decide (version_status ≠ 0))
            else if !env.commit_ok then fail db false
            else
              (true,
                { db_ := { db with transaction_nesting := db.transaction_nesting - 1 }
                  initialized_ := true })

/-! ## Record repository -/

/-- The statement of `InsertContributionInfo`. -/
def insertContributionSql : String :=
  "INSERT INTO contribution_info " ++ "(publisher_id, probi, date, " ++
  "category, month, year) " ++ "VALUES (?, ?, ?, ?, ?, ?)"

/-- The `contribution_info` row bound by `InsertContributionInfo`. -/
def contributionRowOf (info : ContributionInfo) : ContributionRow where
  publisher_id := info.publisher_key
  probi := info.probi
  date := toInt64 info.date
  category := toInt32 info.category
  month := toInt32 info.month
  year := toInt32 info.year

/-- The effect of `INSERT INTO contribution_info`: the row is appended; the statement
fails when foreign keys are enforced and the publisher row is missing. -/
def insertContributionEffect (info : ContributionInfo) (d : Database) : Option Database :=
  match d.store.contribution_info with
  | some rows =>
    if d.fkAllows info.publisher_key then
      some (d.withStore { d.store with contribution_info := some (rows ++ [contributionRowOf info]) })
    else none
  | none => none

/-- The method `PublisherInfoDatabase::InsertContributionInfo`. -/
def InsertContributionInfo (E : Enums) (env : Env) (info : ContributionInfo)
    (self : PublisherInfoDatabase) : Bool × PublisherInfoDatabase :=
  match Init E env self with
  | (false, self) => (false, self)
  | (true, self) =>
    let result := self.db_.run env insertContributionSql (insertContributionEffect info)
    (result.1, { self with db_ := result.2 })

/-- The rows removed by `ON DELETE CASCADE` when the `publisher_info` row of `id`
is deleted: those of the four tables that reference it. -/
def cascadeDelete (id : String) (s : Store) : Store :=
  { s with
    contribution_info := s.contribution_info.map (fun rows => rows.filter (fun r => r.publisher_id != id))
    activity_info := s.activity_info.map
      (fun t => { t with rows := t.rows.filter (fun r => r.publisher_id != id) })
    media_publisher_info :=
      s.media_publisher_info.map (fun rows => rows.filter (fun r => r.publisher_id != id))
    recurring_donation :=
      s.recurring_donation.map (fun rows => rows.filter (fun r => r.publisher_id != id)) }

/-- The `publisher_info` row bound by the two publisher statements; `excluded` goes
through `static_cast<int>` and `BindInt`. -/
def publisherRowOf (info : PublisherInfo) : PublisherRow where
  publisher_id := info.id
  verified := info.verified
  excluded := toInt32 info.excluded
  name := info.name
  favIcon := info.favicon_url
  url := info.url
  provider := info.provider

/-- The statement of `InsertOrUpdatePublisherInfo`. -/
def replacePublisherSql : String :=
  "INSERT OR REPLACE INTO publisher_info " ++ "(publisher_id, verified, excluded, " ++
  "name, url, provider, favIcon) " ++ "VALUES (?, ?, ?, ?, ?, ?, ?)"

/-- The effect of `INSERT OR REPLACE INTO publisher_info`: a row with the same key
is deleted first (and, when foreign keys are enforced, the rows that reference it
with it), then the new row is added. -/
def replacePublisherEffect (info : PublisherInfo) (d : Database) : Option Database :=
  match d.store.publisher_info with
  | some rows =>
    let s := if d.foreign_keys && d.store.hasPublisher info.id then cascadeDelete info.id d.store
             else d.store
    some (d.withStore { s with
      publisher_info := some (rows.filter (fun r => r.publisher_id != info.id) ++ [publisherRowOf info]) })
  | none => none

/-- The method `PublisherInfoDatabase::InsertOrUpdatePublisherInfo`. -/
def InsertOrUpdatePublisherInfo (E : Enums) (env : Env) (info : PublisherInfo)
    (self : PublisherInfoDatabase) : Bool × PublisherInfoDatabase :=
  match Init E env self with
  | (false, self) => (false, self)
  | (true, self) =>
    let result := self.db_.run env replacePublisherSql (replacePublisherEffect info)
    (result.1, { self with db_ := result.2 })

/-- The first statement of `InsertOrUpdateActivityInfo`. -/
def ignorePublisherSql : String :=
  "INSERT OR IGNORE INTO publisher_info " ++ "(publisher_id, verified, excluded, " ++
  "name, url, provider, favIcon) " ++ "VALUES (?, ?, ?, ?, ?, ?, ?)"

/-- The effect of `INSERT OR IGNORE INTO publisher_info`: nothing when a row with
the key exists. -/
def ignorePublisherEffect (info : PublisherInfo) (d : Database) : Option Database :=
  match d.store.publisher_info with
  | some rows =>
    if rows.any (fun r => r.publisher_id == info.id) then some d
    else some (d.withStore { d.store with publisher_info := some (rows ++ [publisherRowOf info]) })
  | none => none

/-- The second statement of `InsertOrUpdateActivityInfo`. -/
def replaceActivitySql : String :=
  "INSERT OR REPLACE INTO activity_info " ++ "(publisher_id, duration, score, percent, " ++
  "weight, month, year, reconcile_stamp) " ++ "VALUES (?, ?, ?, ?, ?, ?, ?, ?)"

/-- The `activity_info` row that the statement of `InsertOrUpdateActivityInfo` stores
for the values it binds: `duration` and `percent` go through `static_cast<int>`
before `BindInt64`; `score` and `weight` are bound with `BindDouble` and held as
`storedReal` says; `visits` is not named and takes the column default. -/
def activityRowOf (info : PublisherInfo) : ActivityRow where
  publisher_id := info.id
  duration := toInt64 (toInt32 info.duration)
  visits := 0
  score := storedReal info.score
  percent := toInt64 (toInt32 info.percent)
  weight := storedReal info.weight
  month := toInt32 info.month
  year := toInt32 info.year
  reconcile_stamp := toInt64 info.reconcile_stamp

/-- The effect of `INSERT OR REPLACE INTO activity_info`: under `activity_unique`
the rows with the same key are deleted first. -/
def replaceActivityEffect (info : PublisherInfo) (d : Database) : Option Database :=
  match d.store.activity_info with
  | some t =>
    if migrateColumns.all (fun c => t.columns.contains c) && d.fkAllows info.id then
      let row := activityRowOf info
      let kept := if t.activity_unique then t.rows.filter (fun r => activityKey r != activityKey row)
                  else t.rows
      some (d.withStore { d.store with activity_info := some { t with rows := kept ++ [row] } })
    else none
  | none => none

/-- The method `PublisherInfoDatabase::InsertOrUpdateActivityInfo`. -/
def InsertOrUpdateActivityInfo (E : Enums) (env : Env) (info : PublisherInfo)
    (self : PublisherInfoDatabase) : Bool × PublisherInfoDatabase :=
  match Init E env self with
  | (false, self) => (false, self)
  | (true, self) =>
    match self.db_.run env ignorePublisherSql (ignorePublisherEffect info) with
    | (false, db) => (false, { self with db_ := db })
    | (true, db) =>
      let result := db.run env replaceActivitySql (replaceActivityEffect info)
      (result.1, { self with db_ := result.2 })

/-- The statement of `InsertOrUpdateMediaPublisherInfo`. -/
def replaceMediaSql : String :=
  "INSERT OR REPLACE INTO media_publisher_info " ++ "(media_key, publisher_id) " ++
  "VALUES (?, ?)"

/-- The effect of `INSERT OR REPLACE INTO media_publisher_info`: a row with the same
media key is deleted first. -/
def replaceMediaEffect (media_key publisher_id : String) (d : Database) : Option Database :=
  match d.store.media_publisher_info with
  | some rows =>
    if d.fkAllows publisher_id then
      some (d.withStore { d.store with
        media_publisher_info := some (rows.filter (fun r => r.media_key != media_key) ++
          [{ media_key := media_key, publisher_id := publisher_id }]) })
    else none
  | none => none

/-- The method `PublisherInfoDatabase::InsertOrUpdateMediaPublisherInfo`. -/
def InsertOrUpdateMediaPublisherInfo (E : Enums) (env : Env) (media_key publisher_id : String)
    (self : PublisherInfoDatabase) : Bool × PublisherInfoDatabase :=
  match Init E env self with
  | (false, self) => (false, self)
  | (true, self) =>
    let result := self.db_.run env replaceMediaSql (replaceMediaEffect media_key publisher_id)
    (result.1, { self with db_ := result.2 })

/-- The statement of `InsertOrUpdateRecurringDonation`. -/
def replaceRecurringSql : String :=
  "INSERT OR REPLACE INTO recurring_donation " ++ "(publisher_id, amount, added_date) " ++
  "VALUES (?, ?, ?)"

/-- The `recurring_donation` row that the statement of
`InsertOrUpdateRecurringDonation` stores for the values it binds: `amount` is bound
with `BindDouble` and held as `storedReal` says, `added_date` with `BindInt64`. -/
def recurringRowOf (info : RecurringDonation) : RecurringRow where
  publisher_id := info.publisher_key
  amount := storedReal info.amount
  added_date := toInt64 info.added_date

/-- The effect of `INSERT OR REPLACE INTO recurring_donation`: a row with the same
publisher id is deleted first, then the row of the record is stored. -/
def replaceRecurringEffect (info : RecurringDonation) (d : Database) : Option Database :=
  match d.store.recurring_donation with
  | some rows =>
    if d.fkAllows info.publisher_key then
      some (d.withStore { d.store with
        recurring_donation := some (rows.filter (fun r => r.publisher_id != info.publisher_key) ++
          [recurringRowOf info]) })
    else none
  | none => none

/-- The method `PublisherInfoDatabase::InsertOrUpdateRecurringDonation`. -/
def InsertOrUpdateRecurringDonation (E : Enums) (env : Env) (info : RecurringDonation)
    (self : PublisherInfoDatabase) : Bool × PublisherInfoDatabase :=
  match Init E env self with
  | (false, self) => (false, self)
  | (true, self) =>
    let result := self.db_.run env replaceRecurringSql (replaceRecurringEffect info)
    (result.1, { self with db_ := result.2 })

/-- The statement of `RemoveRecurring`. -/
def removeRecurringSql : String := "DELETE FROM recurring_donation WHERE publisher_id = ?"

/-- The effect of `DELETE FROM recurring_donation WHERE publisher_id = ?`. -/
def removeRecurringEffect (publisher_key : String) (d : Database) : Option Database :=
  match d.store.recurring_donation with
  | some rows =>
    some (d.withStore { d.store with
      recurring_donation := some (rows.filter (fun r => r.publisher_id != publisher_key)) })
  | none => none

/-- The method `PublisherInfoDatabase::RemoveRecurring`. -/
def RemoveRecurring (E : Enums) (env : Env) (publisher_key : String)
    (self : PublisherInfoDatabase) : Bool × PublisherInfoDatabase :=
  match Init E env self with
  | (false, self) => (false, self)
  | (true, self) =>
    let result := self.db_.run env removeRecurringSql (removeRecurringEffect publisher_key)
    (result.1, { self with db_ := result.2 })

/-! ## Stepping the activity query -/

/-- The parameter bound to a slot, if any. -/
def paramAt (bound : List (Nat × BindValue)) (slot : Nat) : Option BindValue :=
  (bound.find? (fun b => b.1 == slot)).map Prod.snd

/-- The truth of one predicate of the statement on a joined row, given the parameter
of its placeholder.  An unbound placeholder is NULL and the comparison is not true. -/
def evalPredicate (clause : String) (param : Option BindValue) (r : JoinedRow) : Bool :=
  match param with
  | none => false
  | some p =>
    if clause = " AND ai.publisher_id = ?" then SqlValue.text r.ai.publisher_id == p.toSql
    else if clause = " AND ai.month = ?" then SqlValue.integer r.ai.month == p.toSql
    else if clause = " AND ai.year = ?" then SqlValue.integer r.ai.year == p.toSql
    else if clause = " AND ai.reconcile_stamp = ?" then
      SqlValue.integer r.ai.reconcile_stamp == p.toSql
    else if clause = " AND ai.duration >= ?" then
      match p.toSql with
      | .integer v => decide (v ≤ r.ai.duration)
      | _ => false
    else if clause = " AND pi.excluded = ?" then SqlValue.integer r.pi.excluded == p.toSql
    else if clause = " AND pi.excluded != ?" then SqlValue.integer r.pi.excluded != p.toSql
    else false

/-- The `WHERE` condition of the statement on a joined row: the N-th predicate of
the text is evaluated with the parameter bound to slot N. -/
def whereHolds (predicates : List String) (bound : List (Nat × BindValue)) (r : JoinedRow) : Bool :=
  predicates.enum.all (fun p => evalPredicate p.2 (paramAt bound p.1) r)

/-- The rows of `activity_info AS ai INNER JOIN publisher_info AS pi
ON ai.publisher_id = pi.publisher_id`, activity rows in storage order. -/
def joinRows (activity : List ActivityRow) (publishers : List PublisherRow) : List JoinedRow :=
  activity.flatMap (fun a =>
    (publishers.filter (fun p => p.publisher_id == a.publisher_id)).map (fun p => { ai := a, pi := p }))

/-- The rows kept by ` LIMIT limit` and ` OFFSET start` as the pagination block
appends them. -/
def applyLimit (start limit : Int) (rows : List JoinedRow) : List JoinedRow :=
  if limit > 0 then
    if start > 1 then (rows.drop start.toNat).take limit.toNat else rows.take limit.toNat
  else rows

/-- The order of two activity rows of one publisher in the index of the constraint
`activity_unique`: by month, then year, then reconcile stamp. -/
def keyLe (a b : ActivityRow) : Bool :=
  decide (a.month < b.month) ||
    (a.month == b.month &&
      (decide (a.year < b.year) ||
        (a.year == b.year && decide (a.reconcile_stamp ≤ b.reconcile_stamp))))

/-- Insertion of a row into a list sorted by `keyLe`. -/
def insertByKey (a : ActivityRow) : List ActivityRow → List ActivityRow
  | [] => [a]
  | b :: bs => if keyLe a b then a :: b :: bs else b :: insertByKey a bs

/-- The rows sorted by `keyLe`. -/
def sortByKey : List ActivityRow → List ActivityRow
  | [] => []
  | a :: rest => insertByKey a (sortByKey rest)

/-- The order in which the engine reads `activity_info` for the statement: the rows
in storage order, or, when the filter names a publisher id and the table declares
`activity_unique`, the rows of that id in the order of the index of the constraint,
which the engine walks for the predicate on `ai.publisher_id`. -/
def scanActivity (filter : PublisherInfoFilter) (t : ActivityTable) : List ActivityRow :=
  if filter.id ≠ "" ∧ t.activity_unique = true then
    sortByKey (t.rows.filter (fun r => r.publisher_id == filter.id))
  else t.rows

/-- The rows the statement steps through.  It compiles only when both tables exist,
`activity_info` has the selected columns and the text has at most one `ORDER BY`;
a statement that does not compile yields no row.  The predicates of the text are the
clauses of `specClauses` (the text is the base query followed by them), the
parameters are those of `bindFilter`; when no sort key is given the rows come in the
order of the engine's scan of `activity_info` (`scanActivity`). -/
def stepRows (E : Enums) (env : Env) (start limit : Int) (filter : PublisherInfoFilter)
    (db : Database) : List JoinedRow :=
  if db.is_open && env.exec_ok (buildQuery E start limit filter) then
    match db.store.activity_info, db.store.publisher_info with
    | some t, some publishers =>
      if migrateColumns.all (fun c => t.columns.contains c) then
        let predicates := (specClauses E filter).map Prod.fst
        let bound := (bindFilter E filter).bound
        let rows :=
          (joinRows (scanActivity filter t) publishers).filter (whereHolds predicates bound)
        match filter.order_by with
        | [] => applyLimit start limit rows
        | [key] =>
          match env.order_rows key.1 key.2 rows with
          | some sorted => applyLimit start limit sorted
          | none => []
        | _ :: _ :: _ => []
      else []
    | _, _ => []
  else []

/-- The body of the `while (info_sql.Step())` loop: the record built from one row.
`ColumnInt` narrows to `int`; `duration` and `reconcile_stamp` are unsigned 64-bit
fields and `percent` an unsigned 32-bit field of `ledger::PublisherInfo`. -/
def readRow (r : JoinedRow) : PublisherInfo where
  id := r.ai.publisher_id
  month := toInt32 r.ai.month
  year := toInt32 r.ai.year
  duration := toUInt64 r.ai.duration
  score := r.ai.score
  percent := toUInt32 r.ai.percent
  weight := r.ai.weight
  verified := r.pi.verified
  name := r.pi.name
  url := r.pi.url
  provider := r.pi.provider
  favicon_url := r.pi.favIcon
  reconcile_stamp := toUInt64 r.ai.reconcile_stamp
  excluded := toInt32 r.pi.excluded

/-- The method `PublisherInfoDatabase::GetPublisherActivityList`: the records are
appended to `list`; `return list` is `true` for the non-null pointer. -/
def GetPublisherActivityList (E : Enums) (env : Env) (start limit : Int)
    (filter : PublisherInfoFilter) (list : List PublisherInfo) (self : PublisherInfoDatabase) :
    Bool × List PublisherInfo × PublisherInfoDatabase :=
  match Init E env self with
  | (false, self) => (false, list, self)
  | (true, self) =>
    (true, list ++ (stepRows E env start limit filter self.db_).map readRow, self)

/-! ## The writes as one type -/

/-- A call of one of the six repository writes, with its arguments. -/
inductive Write where
  | publisherInfo (info : PublisherInfo)
  | activityInfo (info : PublisherInfo)
  | contributionInfo (info : ContributionInfo)
  | mediaPublisherInfo (media_key publisher_id : String)
  | recurringDonation (info : RecurringDonation)
  | removeRecurring (publisher_key : String)
deriving DecidableEq, Repr

/-- The method a `Write` stands for. -/
def Write.run (E : Enums) (env : Env) (w : Write) (self : PublisherInfoDatabase) :
    Bool × PublisherInfoDatabase :=
  match w with
  | .publisherInfo info => InsertOrUpdatePublisherInfo E env info self
  | .activityInfo info => InsertOrUpdateActivityInfo E env info self
  | .contributionInfo info => InsertContributionInfo E env info self
  | .mediaPublisherInfo media_key publisher_id =>
    InsertOrUpdateMediaPublisherInfo E env media_key publisher_id self
  | .recurringDonation info => InsertOrUpdateRecurringDonation E env info self
  | .removeRecurring publisher_key => RemoveRecurring E env publisher_key self

/-- The state after a sequence of writes, results ignored. -/
def runWrites (E : Enums) (env : Env) (ws : List Write) (self : PublisherInfoDatabase) :
    PublisherInfoDatabase :=
  ws.foldl (fun s w => (w.run E env s).2) self

/-- Whether a write is one of the four that write a dependent row. -/
def Write.isDependent : Write → Bool
  | .activityInfo _ => true
  | .contributionInfo _ => true
  | .mediaPublisherInfo _ _ => true
  | .recurringDonation _ => true
  | _ => false

/-- The publisher id of a write that adds a dependent row without touching
`publisher_info`: `InsertContributionInfo`, `InsertOrUpdateMediaPublisherInfo` and
`InsertOrUpdateRecurringDonation`. -/
def Write.bareDependentId : Write → Option String
  | .contributionInfo info => some info.publisher_key
  | .mediaPublisherInfo _ publisher_id => some publisher_id
  | .recurringDonation info => some info.publisher_key
  | _ => none

/-- The publisher ids of the dependent rows of a store. -/
def Store.dependentIds (s : Store) : List String :=
  (s.activity_info.elim [] (fun t => t.rows.map (fun r => r.publisher_id))) ++
  (s.contribution_info.elim [] (fun rows => rows.map (fun r => r.publisher_id))) ++
  (s.media_publisher_info.elim [] (fun rows => rows.map (fun r => r.publisher_id))) ++
  (s.recurring_donation.elim [] (fun rows => rows.map (fun r => r.publisher_id)))

/-- No orphan: every dependent row's publisher id has a `publisher_info` row. -/
def Store.noOrphans (s : Store) : Prop :=
  ∀ id ∈ s.dependentIds, s.hasPublisher id = true

instance (s : Store) : Decidable s.noOrphans := by
  unfold Store.noOrphans; infer_instance

/-! ## Example states -/

/-- A filter with no optional field set, with the upstream enumerators. -/
def emptyFilter : PublisherInfoFilter where
  id := ""
  month := -1
  year := 0
  reconcile_stamp := 0
  min_duration := 0
  excluded := -1
  order_by := []

/-- A closed connection on a file with the given content. -/
def closedOn (s : Store) : PublisherInfoDatabase where
  db_ := { is_open := false, foreign_keys := false, transaction_nesting := 0, store := s }
  initialized_ := false

/-- An open connection, inside the transaction of `Init`, on a file with the given content. -/
def openOn (s : Store) : Database where
  is_open := true
  foreign_keys := false
  transaction_nesting := 1
  store := s

/-- A file written by a newer build: version 4, compatible version 4. -/
def tooNewStore : Store :=
  { Store.empty with metaTable := some { version := 4, last_compatible_version := 4 } }

/-- A publisher row for `a.com` with empty metadata. -/
def publisherA : PublisherRow where
  publisher_id := "a.com"
  verified := false
  excluded := 0
  name := ""
  favIcon := ""
  url := ""
  provider := ""

/-- An activity row for `a.com`, March 2020, reconcile stamp 0, duration 10. -/
def activityA : ActivityRow where
  publisher_id := "a.com"
  duration := 10
  visits := 0
  score := { bits := 0 }
  percent := 0
  weight := { bits := 0 }
  month := 3
  year := 2020
  reconcile_stamp := 0

/-- A file at version 1: `activity_info` without `reconcile_stamp` and `visits`, one
activity row and one contribution row for `a.com`. -/
def version1Store : Store :=
  { Store.empty with
    metaTable := some { version := 1, last_compatible_version := 1 }
    publisher_info := some [publisherA]
    contribution_info := some [{ publisher_id := "a.com", probi := "1", date := 7,
                                 category := 2, month := 3, year := 2020 }]
    activity_info := some
      { columns := ["publisher_id", "duration", "score", "percent", "weight", "category",
                    "month", "year"]
        activity_unique := false
        rows := [activityA] } }

/-- A file at version 2 that has no `activity_info` table. -/
def version2StoreWithoutActivity : Store :=
  { Store.empty with metaTable := some { version := 2, last_compatible_version := 1 } }

/-- The file content `Init` creates on an empty file. -/
def freshStore : Store where
  metaTable := some { version := 3, last_compatible_version := 1 }
  publisher_info := some []
  contribution_info := some []
  activity_info := some { columns := activityColumns, activity_unique := true, rows := [] }
  activity_info_old := none
  media_publisher_info := some []
  recurring_donation := some []
  indexes := [("contribution_info_publisher_id_index", "contribution_info"),
              ("activity_info_publisher_id_index", "activity_info"),
              ("recurring_donation_publisher_id_index", "recurring_donation")]

/-- An initialized handle on a file with the given content, foreign keys not enforced. -/
def readyOn (s : Store) : PublisherInfoDatabase where
  db_ := { is_open := true, foreign_keys := false, transaction_nesting := 0, store := s }
  initialized_ := true

/-- A publisher record for `a.com`. -/
def recordA : PublisherInfo where
  id := "a.com"
  duration := 120
  score := { bits := 0 }
  percent := 50
  weight := { bits := 0 }
  excluded := 0
  reconcile_stamp := 1000
  verified := false
  name := "A"
  url := "https://a.com"
  provider := ""
  favicon_url := ""
  month := 3
  year := 2020

/-- A contribution record for `a.com`. -/
def contributionA : ContributionInfo where
  publisher_key := "a.com"
  probi := "1000000000000000000"
  date := 1546300800
  category := 8
  month := 3
  year := 2020

/-- An activity row for `b.com` with the period and reconcile stamp of `recordA`. -/
def activityB : ActivityRow where
  publisher_id := "b.com"
  duration := 30
  visits := 0
  score := { bits := 0 }
  percent := 10
  weight := { bits := 0 }
  month := 3
  year := 2020
  reconcile_stamp := 1000

/-- The fresh schema holding the publisher `b.com` and one activity row of it. -/
def storeWithB : Store :=
  { freshStore with
    publisher_info := some [{ publisherA with publisher_id := "b.com" }]
    activity_info := some { columns := activityColumns, activity_unique := true, rows := [activityB] } }

/-- The fresh schema holding one activity row of `a.com` (reconcile stamp 5) and no
publisher row. -/
def storeWithOrphan : Store :=
  { freshStore with
    activity_info := some { columns := activityColumns, activity_unique := true,
                            rows := [{ activityA with reconcile_stamp := 5 }] } }

/-- The filter on the id, month, year and reconcile stamp of a record, nothing else set. -/
def keyFilter (E : Enums) (info : PublisherInfo) : PublisherInfoFilter where
  id := info.id
  month := info.month
  year := info.year
  reconcile_stamp := info.reconcile_stamp
  min_duration := 0
  excluded := E.FILTER_ALL
  order_by := []

/-! ## Predicates used in the statements -/

/-- A database operation that leaves the `meta` table and the open state alone. -/
def KeepsMeta (f : Database → Bool × Database) : Prop :=
  ∀ db, (f db).2.store.metaTable = db.store.metaTable ∧ (f db).2.is_open = db.is_open

/-- An effect of a statement that leaves the `meta` table and the open state alone. -/
def EffectKeepsMeta (effect : Database → Option Database) : Prop :=
  ∀ d d', effect d = some d' → d'.store.metaTable = d.store.metaTable ∧ d'.is_open = d.is_open

/-! ## The steps of `Init`, named -/

/-- The five table creations of `Init`, in the order of its condition
`!CreatePublisherInfoTable() || ... || !CreateRecurringDonationTable()`; the first
failure ends the chain. -/
def createAllTables (env : Env) (db : Database) : Bool × Database :=
  match CreatePublisherInfoTable env db with
  | (false, db) => (false, db)
  | (true, db) =>
    match CreateContributionInfoTable env db with
    | (false, db) => (false, db)
    | (true, db) =>
      match CreateActivityInfoTable env db with
      | (false, db) => (false, db)
      | (true, db) =>
        match CreateMediaPublisherInfoTable env db with
        | (false, db) => (false, db)
        | (true, db) => CreateRecurringDonationTable env db

/-- The three index creations of `Init`; their results are not looked at. -/
def createAllIndexes (env : Env) (db : Database) : Database :=
  let db := (CreateContributionInfoIndex env db).2
  let db := (CreateActivityInfoIndex env db).2
  (CreateRecurringDonationIndex env db).2

/-- The connection as `Init` has it once `Open` and `Begin` have succeeded. -/
def initBegun (self : PublisherInfoDatabase) : Database :=
  { self.db_ with is_open := true, transaction_nesting := self.db_.transaction_nesting + 1 }

/-- The meta-table initialization of `Init`: its result and the state it leaves. -/
def initMeta (env : Env) (self : PublisherInfoDatabase) : Bool × Database :=
  meta_table_Init env GetCurrentVersion kCompatibleVersionNumber (initBegun self)

/-- The table creations of `Init`: their joint result and the state they leave. -/
def initTables (env : Env) (self : PublisherInfoDatabase) : Bool × Database :=
  createAllTables env (initMeta env self).2

/-- The version check of `Init`: the status and the state `EnsureCurrentVersion`
leaves, run after the index creations. -/
def initVersionCheck (E : Enums) (env : Env) (self : PublisherInfoDatabase) : Int × Database :=
  EnsureCurrentVersion E env (createAllIndexes env (initTables env self).2)

/-- Every step that `Init` checks succeeds: the open, the begin of the transaction,
the meta-table initialization, the five table creations, the version check and the
commit.  The index creations are not among them. -/
def initSucceeds (E : Enums) (env : Env) (self : PublisherInfoDatabase) : Bool :=
  (env.open_ok && !self.db_.is_open) && env.begin_ok && (initMeta env self).1 &&
    (initTables env self).1 && decide ((initVersionCheck E env self).1 = E.INIT_OK) &&
    env.commit_ok

/-- An environment in which only the commit of a transaction fails. -/
def Env.commitFails : Env := { Env.ideal with commit_ok := false }

/-- An environment in which only the begin of a transaction fails. -/
def Env.beginFails : Env := { Env.ideal with begin_ok := false }

/-- An engine whose sort returns the rows it was given and no other. -/
def Env.sortKeepsRows (env : Env) : Prop :=
  ∀ key asc rows sorted, env.order_rows key asc rows = some sorted → ∀ r ∈ sorted, r ∈ rows

/-- A value that fits the C++ type `int`. -/
def fitsInt32 (v : Int) : Prop := -2147483648 ≤ v ∧ v < 2147483648

instance (v : Int) : Decidable (fitsInt32 v) := by
  unfold fitsInt32; infer_instance

/-- The joined row of an activity row: the row paired with the first publisher row
of its publisher id, if there is one. -/
def joinOne (publishers : List PublisherRow) (a : ActivityRow) : Option JoinedRow :=
  (publishers.find? (fun p => p.publisher_id == a.publisher_id)).map (fun p => { ai := a, pi := p })

/-! ## Deleting a publisher row under the declared foreign keys -/

/-- The foreign-key clause that the `CREATE TABLE` texts of `contribution_info`,
`activity_info`, `media_publisher_info` and `recurring_donation` end with. -/
def cascadeClause : String :=
  "    FOREIGN KEY (publisher_id)" ++
  "    REFERENCES publisher_info (publisher_id)" ++
  "    ON DELETE CASCADE)"

/-- Whether a `CREATE TABLE` text declares the cascading foreign key on
`publisher_info (publisher_id)`, once. -/
def declaresCascade (sql : String) : Bool :=
  countOccurrences cascadeClause.toList sql.toList == 1

/-- The effect of deleting the `publisher_info` row of `id` under the schema above:
the row is removed and, when the connection enforces foreign keys and the row exists,
`ON DELETE CASCADE` removes the rows that reference it.  No method of the class issues
a `DELETE` on `publisher_info`; the deletion is the first half of the
`INSERT OR REPLACE INTO publisher_info` of `InsertOrUpdatePublisherInfo`
(`replacePublisherEffect` is this effect followed by the insertion of the new row). -/
def deletePublisherEffect (id : String) (d : Database) : Option Database :=
  match d.store.publisher_info with
  | some rows =>
    let s := if d.foreign_keys && d.store.hasPublisher id then cascadeDelete id d.store
             else d.store
    some (d.withStore { s with
      publisher_info := some (rows.filter (fun r => r.publisher_id != id)) })
  | none => none

/-- The insertion half of `INSERT OR REPLACE INTO publisher_info`. -/
def appendPublisherRow (info : PublisherInfo) (d : Database) : Database :=
  d.withStore { d.store with
    publisher_info := d.store.publisher_info.map (fun rows => rows ++ [publisherRowOf info]) }

/-- The connection after `InsertOrUpdateActivityInfo (recordA)` on an empty file, with
nothing failing: the schema, the publisher row of `a.com` and one activity row. -/
def writtenOnce : Database :=
  (InsertOrUpdateActivityInfo upstreamEnums Env.ideal recordA (closedOn Store.empty)).2.db_

/-- The same connection with `PRAGMA foreign_keys` on. -/
def Database.enforcing (d : Database) : Database := { d with foreign_keys := true }

/-- A filter on March 2020 that leaves excluded publishers out. -/
def marchFilter : PublisherInfoFilter :=
  { emptyFilter with month := 3, year := 2020, excluded := upstreamEnums.FILTER_ALL_EXCEPT_EXCLUDED }

/-- The fresh schema holding the publisher `b.com` with an activity row of March 2020
and one of April 2020. -/
def storeWithTwoMonths : Store :=
  { storeWithB with
    activity_info := some { columns := activityColumns, activity_unique := true,
                            rows := [activityB, { activityB with month := 4 }] } }

/-- A database operation that leaves the rows of an existing `publisher_info` table as
they are. -/
def KeepsPublishers (f : Database → Bool × Database) : Prop :=
  ∀ db rows, db.store.publisher_info = some rows → (f db).2.store.publisher_info = some rows

/-- A statement effect that leaves the rows of an existing `publisher_info` table as
they are. -/
def EffectKeepsPublishers (effect : Database → Option Database) : Prop :=
  ∀ d d' rows, effect d = some d' → d.store.publisher_info = some rows →
    d'.store.publisher_info = some rows

/-! ## Reading media publishers and recurring donations -/

/-- The query of `GetMediaPublisherInfo`. -/
def mediaPublisherQuery : String :=
  "SELECT pi.publisher_id, pi.name, pi.url, pi.favIcon, " ++
  "pi.provider, pi.verified, pi.excluded " ++
  "FROM media_publisher_info as mpi " ++
  "INNER JOIN publisher_info AS pi ON mpi.publisher_id = pi.publisher_id " ++
  "WHERE mpi.media_key=?"

/-- The rows the statement of `GetMediaPublisherInfo` steps through: the publisher
rows joined to the `media_publisher_info` rows of the key.  No row when the
statement cannot run. -/
def mediaRows (env : Env) (media_key : String) (db : Database) : List PublisherRow :=
  if db.is_open && env.exec_ok mediaPublisherQuery then
    match db.store.media_publisher_info, db.store.publisher_info with
    | some media, some publishers =>
      (media.filter (fun m => m.media_key == media_key)).flatMap
        (fun m => publishers.filter (fun p => p.publisher_id == m.publisher_id))
    | _, _ => []
  else []

/-- The record `GetMediaPublisherInfo` fills in from a row.  `blank` is the
default-constructed `ledger::PublisherInfo`, whose constructor is not in the sources;
`ColumnInt` narrows `excluded` to `int`. -/
def readMediaRow (blank : PublisherInfo) (p : PublisherRow) : PublisherInfo :=
  { blank with
    id := p.publisher_id
    name := p.name
    url := p.url
    favicon_url := p.favIcon
    provider := p.provider
    verified := p.verified
    excluded := toInt32 p.excluded }

/-- The method `PublisherInfoDatabase::GetMediaPublisherInfo`: the record of the
first row (`if (info_sql.Step())`), or no record. -/
def GetMediaPublisherInfo (E : Enums) (env : Env) (blank : PublisherInfo) (media_key : String)
    (self : PublisherInfoDatabase) : Option PublisherInfo × PublisherInfoDatabase :=
  match Init E env self with
  | (false, self) => (none, self)
  | (true, self) => ((mediaRows env media_key self.db_).head?.map (readMediaRow blank), self)

/-- The query of `GetRecurringDonations`. -/
def recurringDonationsQuery : String :=
  "SELECT pi.publisher_id, pi.name, pi.url, pi.favIcon, " ++
  "rd.amount, rd.added_date, pi.verified, pi.provider " ++
  "FROM recurring_donation as rd " ++
  "INNER JOIN publisher_info AS pi ON rd.publisher_id = pi.publisher_id "

/-- The rows the statement of `GetRecurringDonations` steps through: each
`recurring_donation` row with the publisher rows of its id, in the order of the
`recurring_donation` rows. -/
def recurringRows (env : Env) (db : Database) : List (RecurringRow × PublisherRow) :=
  if db.is_open && env.exec_ok recurringDonationsQuery then
    match db.store.recurring_donation, db.store.publisher_info with
    | some donations, some publishers =>
      donations.flatMap
        (fun rd => (publishers.filter (fun p => p.publisher_id == rd.publisher_id)).map
          (fun p => (rd, p)))
    | _, _ => []
  else []

/-- The record `GetRecurringDonations` builds from a row: the constructor call
`ledger::PublisherInfo publisher(id, ledger::PUBLISHER_MONTH::ANY, -1)` sets id, month
and year as in `readRow`, the fields not assigned keep the values of `blank`;
`reconcile_stamp` is an unsigned 64-bit field read with `ColumnInt64`. -/
def readRecurringRow (E : Enums) (blank : PublisherInfo) (r : RecurringRow × PublisherRow) :
    PublisherInfo :=
  { blank with
    id := r.2.publisher_id
    month := E.ANY
    year := -1
    name := r.2.name
    url := r.2.url
    favicon_url := r.2.favIcon
    weight := r.1.amount
    reconcile_stamp := toUInt64 r.1.added_date
    verified := r.2.verified
    provider := r.2.provider }

/-- The method `PublisherInfoDatabase::GetRecurringDonations`: the records are
appended to `list`, which is left as it is when `Init` fails. -/
def GetRecurringDonations (E : Enums) (env : Env) (blank : PublisherInfo)
    (list : List PublisherInfo) (self : PublisherInfoDatabase) :
    List PublisherInfo × PublisherInfoDatabase :=
  match Init E env self with
  | (false, self) => (list, self)
  | (true, self) => (list ++ (recurringRows env self.db_).map (readRecurringRow E blank), self)

/-- Whether a write is one of the two that change `recurring_donation`. -/
def Write.isRecurring : Write → Bool
  | .recurringDonation _ => true
  | .removeRecurring _ => true
  | _ => false

/-- The publisher id a write on `recurring_donation` names. -/
def Write.recurringKey : Write → Option String
  | .recurringDonation info => some info.publisher_key
  | .removeRecurring publisher_key => some publisher_key
  | _ => none

/-! ## Imported statistics (`BraveProfileWriter::UpdateStats`) -/

/-- The three `uint64_t` counters of the profile's `PrefService` that `UpdateStats`
reads and writes, under the names of their pref keys. -/
structure Prefs where
  kAdsBlocked : Int
  kTrackersBlocked : Int
  kHttpsUpgrades : Int
deriving DecidableEq, Repr

/-- The imported counts `BraveStats`.  The header that declares the struct is not in
the sources: a field holds the mathematical value of its integer type, and
`uint64_t{...}` and the mixed addition convert it to 64 unsigned bits. -/
structure BraveStats where
  adblock_count : Int
  trackingProtection_count : Int
  httpsEverywhere_count : Int
deriving DecidableEq, Repr

/-- The method `BraveProfileWriter::UpdateStats`: the three counters are read first,
then each is raised by the imported count when it is below that count. -/
def BraveProfileWriter.UpdateStats (stats : BraveStats) (prefs : Prefs) : Prefs :=
  let ads_blocked := prefs.kAdsBlocked
  let trackers_blocked := prefs.kTrackersBlocked
  let https_upgrades := prefs.kHttpsUpgrades
  let prefs :=
    if ads_blocked < toUInt64 stats.adblock_count then
      { prefs with kAdsBlocked := toUInt64 (ads_blocked + stats.adblock_count) }
    else prefs
  let prefs :=
    if trackers_blocked < toUInt64 stats.trackingProtection_count then
      { prefs with kTrackersBlocked := toUInt64 (trackers_blocked + stats.trackingProtection_count) }
    else prefs
  let prefs :=
    if https_upgrades < toUInt64 stats.httpsEverywhere_count then
      { prefs with kHttpsUpgrades := toUInt64 (https_upgrades + stats.httpsEverywhere_count) }
    else prefs
  prefs

/-- The fresh schema holding the publisher `a.com` and a recurring donation to it. -/
def storeWithDonation : Store :=
  { freshStore with
    publisher_info := some [publisherA]
    recurring_donation := some [{ publisher_id := "a.com", amount := { bits := 5 }, added_date := 7 }] }

/-- A file at version 2: `activity_info` with `reconcile_stamp` and without `visits`,
holding one row of `a.com`, whose publisher row exists. -/
def version2Store : Store :=
  { Store.empty with
    metaTable := some { version := 2, last_compatible_version := 1 }
    publisher_info := some [publisherA]
    contribution_info := some []
    recurring_donation := some []
    activity_info := some
      { columns := ["publisher_id", "duration", "score", "percent", "weight", "category",
                    "month", "year", "reconcile_stamp"]
        activity_unique := false
        rows := [{ activityA with reconcile_stamp := 1000 }] } }

/-- The fresh schema holding the publisher `a.com` and one activity row of it with the
key of `recordA` and visits = 5, as `MigrateV2toV3` leaves it. -/
def storeWithVisits : Store :=
  { freshStore with
    publisher_info := some [publisherA]
    activity_info := some { columns := activityColumns, activity_unique := true,
                            rows := [{ activityA with reconcile_stamp := 1000, visits := 5 }] } }

/-- The fresh schema holding the publisher `a.com` and two activity rows of it, of
reconcile stamps 0 and 1000. -/
def storeWithTwoStamps : Store :=
  { freshStore with
    publisher_info := some [publisherA]
    activity_info := some { columns := activityColumns, activity_unique := true,
                            rows := [activityA, { activityA with reconcile_stamp := 1000 }] } }

/-- The fresh schema holding the publisher `a.com` with one row of it in each of the
four dependent tables. -/
def storeWithDependents : Store :=
  { freshStore with
    publisher_info := some [publisherA]
    contribution_info := some [contributionRowOf contributionA]
    activity_info := some { columns := activityColumns, activity_unique := true,
                            rows := [activityA] }
    media_publisher_info := some [{ media_key := "youtube_x", publisher_id := "a.com" }]
    recurring_donation := some [{ publisher_id := "a.com", amount := { bits := 5 }, added_date := 7 }] }

/-- The fresh schema holding the publisher `a.com` and nothing else. -/
def storeWithA : Store := { freshStore with publisher_info := some [publisherA] }

/-- A publisher record for `b.com`, verified. -/
def recordB : PublisherInfo :=
  { recordA with id := "b.com", name := "B", url := "https://b.com", verified := true }

/-- A recurring donation to `a.com`. -/
def donationA : RecurringDonation where
  publisher_key := "a.com"
  amount := { bits := 5 }
  added_date := 7

/-- A database operation that does not drop `activity_info`. -/
def KeepsActivityTable (f : Database → Bool × Database) : Prop :=
  ∀ db, db.store.activity_info.isSome = true → (f db).2.store.activity_info.isSome = true

/-- A statement effect that does not drop `activity_info`. -/
def EffectKeepsActivityTable (effect : Database → Option Database) : Prop :=
  ∀ d d', effect d = some d' → d.store.activity_info.isSome = true →
    d'.store.activity_info.isSome = true

/-- An initialized handle on an open connection whose file has the `publisher_info`
and `media_publisher_info` tables. -/
def PublisherInfoDatabase.mediaReady (self : PublisherInfoDatabase) : Prop :=
  self.initialized_ = true ∧ self.db_.is_open = true ∧
  self.db_.store.publisher_info.isSome = true ∧
  self.db_.store.media_publisher_info.isSome = true

/-! ## Values a stored row carries unchanged -/

/-- Whether a value is one a C++ `int64_t` holds. -/
def fitsInt64 (v : Int) : Prop := -9223372036854775808 ≤ v ∧ v < 9223372036854775808

instance (v : Int) : Decidable (fitsInt64 v) := by
  unfold fitsInt64; infer_instance

/-- The activity records whose values the stored row carries as given: `duration` and
`percent` survive `static_cast<int>`, month and year are `int` values, the reconcile
stamp an `int64_t` value, and `score` and `weight` are neither NaN nor the negative
zero. -/
def PublisherInfo.storedAsGiven (R : PublisherInfo) : Prop :=
  fitsInt32 R.duration ∧ fitsInt32 R.percent ∧ fitsInt32 R.month ∧ fitsInt32 R.year ∧
  fitsInt64 R.reconcile_stamp ∧ storedReal R.score = R.score ∧ storedReal R.weight = R.weight

instance (R : PublisherInfo) : Decidable R.storedAsGiven := by
  unfold PublisherInfo.storedAsGiven; infer_instance

/-- A quiet NaN (exponent bits all set, top fraction bit set). -/
def quietNaN : Double := { bits := 9221120237041090560 }

/-- The negative zero (sign bit alone). -/
def negativeZero : Double := { bits := 9223372036854775808 }

/-- A database operation that, inside a transaction, leaves the connection's
foreign-key setting and transaction nesting as they are. -/
def KeepsConnection (f : Database → Bool × Database) : Prop :=
  ∀ db, 1 ≤ db.transaction_nesting →
    (f db).2.foreign_keys = db.foreign_keys ∧
    (f db).2.transaction_nesting = db.transaction_nesting

/-- A statement effect that, inside a transaction, leaves the connection's
foreign-key setting and transaction nesting as they are. -/
def EffectKeepsConnection (effect : Database → Option Database) : Prop :=
  ∀ d d', effect d = some d' → 1 ≤ d.transaction_nesting →
    d'.foreign_keys = d.foreign_keys ∧ d'.transaction_nesting = d.transaction_nesting

/-- The rows of the four tables that reference `publisher_info`: `activity_info`,
`contribution_info`, `media_publisher_info` and `recurring_donation`, in that order;
a table that does not exist has no row. -/
def Store.dependentRows (s : Store) :
    List ActivityRow × List ContributionRow × List MediaRow × List RecurringRow :=
  (s.activity_info.elim [] (fun t => t.rows), s.contribution_info.elim [] id,
   s.media_publisher_info.elim [] id, s.recurring_donation.elim [] id)

/-- A database operation that leaves the rows of the four dependent tables as they are. -/
def KeepsDependents (f : Database → Bool × Database) : Prop :=
  ∀ db, (f db).2.store.dependentRows = db.store.dependentRows

/-- A statement effect that leaves the rows of the four dependent tables as they are. -/
def EffectKeepsDependents (effect : Database → Option Database) : Prop :=
  ∀ d d', effect d = some d' → d'.store.dependentRows = d.store.dependentRows

/-- No migration is due when `Init` runs on the handle: the handle is initialized, or
the version stored in the file is neither 1 nor 2. -/
def PublisherInfoDatabase.noMigrationDue (self : PublisherInfoDatabase) : Prop :=
  self.initialized_ = true ∨ (GetVersionNumber self.db_ ≠ 1 ∧ GetVersionNumber self.db_ ≠ 2)

instance (self : PublisherInfoDatabase) : Decidable self.noMigrationDue := by
  unfold PublisherInfoDatabase.noMigrationDue; infer_instance

/-! # Theorems -/

/-! ## Query builder -/

theorem placeholders_append (a b : String) :
    placeholders (a ++ b) = placeholders a + placeholders b := by
  simp [placeholders, String.toList, String.data_append]

theorem digitChar_ne_question (d : Nat) (h : d < 10) : Nat.digitChar d ≠ '?' := by
  interval_cases d <;> decide

theorem toDigitsCore_no_question (fuel : Nat) : ∀ (n : Nat) (ds : List Char),
    '?' ∉ ds → '?' ∉ Nat.toDigitsCore 10 fuel n ds := by
  induction fuel with
  | zero => intro n ds h; simpa [Nat.toDigitsCore] using h
  | succ k ih =>
    intro n ds h
    have hd : '?' ∉ Nat.digitChar (n % 10) :: ds := by
      simp only [List.mem_cons, not_or]
      exact ⟨fun e => digitChar_ne_question _ (Nat.mod_lt _ (by decide)) e.symm, h⟩
    simp only [Nat.toDigitsCore]
    split
    · exact hd
    · exact ih _ _ hd

theorem repr_no_question (n : Nat) : '?' ∉ (Nat.repr n).toList := by
  simp only [Nat.repr, String.toList, List.asString]
  exact toDigitsCore_no_question _ _ _ (by simp)

theorem placeholders_to_string (n : Int) : placeholders (to_string n) = 0 := by
  unfold placeholders to_string
  rw [List.count_eq_zero]
  cases n with
  | ofNat m => exact repr_no_question m
  | negSucc m =>
    show '?' ∉ ("-" ++ Nat.repr (m + 1)).toList
    simp only [String.toList, String.data_append, List.mem_append, not_or]
    exact ⟨by decide, repr_no_question _⟩

theorem placeholders_appendLimit (q : String) (start limit : Int) :
    placeholders (appendLimit q start limit) = placeholders q := by
  have h1 : placeholders " LIMIT " = 0 := by decide
  have h2 : placeholders " OFFSET " = 0 := by decide
  unfold appendLimit
  split_ifs <;> simp [placeholders_append, placeholders_to_string, h1, h2]

theorem placeholders_orderBy (keys : List (String × Bool)) :
    ∀ (q : String), (∀ it ∈ keys, '?' ∉ it.1.toList) →
      placeholders (keys.foldl appendOrderBy q) = placeholders q := by
  induction keys with
  | nil => intro q _; rfl
  | cons k ks ih =>
    intro q h
    have hk : placeholders k.1 = 0 := by
      unfold placeholders; rw [List.count_eq_zero]; exact h k (List.mem_cons_self _ _)
    have h1 : placeholders " ORDER BY " = 0 := by decide
    have h2 : placeholders " ASC" = 0 := by decide
    have h3 : placeholders " DESC" = 0 := by decide
    rw [List.foldl_cons, ih _ (fun it hit => h it (List.mem_cons_of_mem _ hit))]
    unfold appendOrderBy
    cases k.2 <;> simp [placeholders_append, hk, h1, h2, h3]

theorem appendPredicates_eq (E : Enums) (f : PublisherInfoFilter) (q : String) :
    appendPredicates E f q = q ++ String.join ((specClauses E f).map Prod.fst) := by
  unfold appendPredicates specClauses fieldClauses exclusionClause
  split_ifs <;> simp [String.join, String.append_assoc]

theorem bindFilter_eq (E : Enums) (f : PublisherInfoFilter) :
    (bindFilter E f).bound = ((specClauses E f).map Prod.snd).enum := by
  unfold bindFilter specClauses fieldClauses exclusionClause
  split_ifs <;> simp [Binder.bind, List.enum, List.enumFrom]

theorem specClauses_one_placeholder (E : Enums) (f : PublisherInfoFilter) :
    ∀ c ∈ specClauses E f, placeholders c.1 = 1 := by
  intro c hc
  unfold specClauses fieldClauses exclusionClause at hc
  simp only [List.mem_append] at hc
  rcases hc with ((((h | h) | h) | h) | h) | h | h <;>
    (split at h <;> simp at h) <;> (subst h; dsimp only; decide)

theorem join_cons (a : String) (l : List String) :
    String.join (a :: l) = a ++ String.join l := by
  apply String.ext
  simp [String.data_join, String.data_append]

theorem placeholders_join (cs : List (String × BindValue))
    (h : ∀ c ∈ cs, placeholders c.1 = 1) :
    placeholders (String.join (cs.map Prod.fst)) = cs.length := by
  induction cs with
  | nil => decide
  | cons c cs ih =>
    have hj : String.join ((c :: cs).map Prod.fst) = c.1 ++ String.join (cs.map Prod.fst) := by
      rw [List.map_cons, join_cons]
    rw [hj, placeholders_append, h c (List.mem_cons_self _ _),
      ih (fun x hx => h x (List.mem_cons_of_mem _ hx))]
    simp [Nat.add_comm]


/-- C1, the claim as stated fails: a sort key is copied into the text unchecked, so
the filter whose only content is the sort key `?` yields a text with one `?`
placeholder and no bound parameter. -/
theorem placeholder_without_bind_for_question_sort_key :
    placeholders (buildQuery upstreamEnums 0 0 { emptyFilter with order_by := [("?", true)] })
      = 1 ∧
    (bindFilter upstreamEnums { emptyFilter with order_by := [("?", true)] }).bound.length
      = 0 := by
  decide

/-- C1 (amended): for every filter whose sort keys contain no `?`, the number of
`?` placeholders of the built text equals the number of bound parameters; the text
is the base query followed by the predicates of the present fields in the fixed
order id, month, year, reconcile_stamp, min_duration, exclusion (then the sort keys
and the pagination); each predicate has one placeholder; and the parameter bound to
slot N is the value of the field of the N-th predicate. -/
theorem bound_parameters_mirror_predicates (E : Enums) (start limit : Int)
    (f : PublisherInfoFilter) (h : ∀ it ∈ f.order_by, '?' ∉ it.1.toList) :
    placeholders (buildQuery E start limit f) = (bindFilter E f).bound.length ∧
    buildQuery E start limit f =
      appendLimit (f.order_by.foldl appendOrderBy
        (baseQuery ++ String.join ((specClauses E f).map Prod.fst))) start limit ∧
    (∀ c ∈ specClauses E f, placeholders c.1 = 1) ∧
    (bindFilter E f).bound = ((specClauses E f).map Prod.snd).enum := by
  have hb : placeholders baseQuery = 0 := by decide
  refine ⟨?_, ?_, specClauses_one_placeholder E f, bindFilter_eq E f⟩
  · rw [bindFilter_eq]
    unfold buildQuery queryBeforeLimit
    simp only [placeholders_appendLimit]
    rw [placeholders_orderBy _ _ h, appendPredicates_eq, placeholders_append, hb,
      placeholders_join _ (specClauses_one_placeholder E f)]
    simp [List.enum]
  · unfold buildQuery queryBeforeLimit
    simp only [appendPredicates_eq]

/-- C1 (amended), instance: a filter on id and minimum duration, sorted by percent. -/
theorem bound_parameters_mirror_predicates_witness :
    (∀ it ∈ [("ai.percent", false)], '?' ∉ (it : String × Bool).1.toList) ∧
    placeholders (buildQuery upstreamEnums 3 10
      { id := "a.com", month := -1, year := 0, reconcile_stamp := 0, min_duration := 9,
        excluded := 3, order_by := [("ai.percent", false)] }) = 3 :=
  ⟨by decide,
   (bound_parameters_mirror_predicates upstreamEnums 3 10
      { id := "a.com", month := -1, year := 0, reconcile_stamp := 0, min_duration := 9,
        excluded := 3, order_by := [("ai.percent", false)] } (by decide)).1.trans (by decide)⟩

/-- C2, evaluation at the failing input: with the two sort keys
(`ai.percent`, descending) and (`ai.duration`, ascending) the loop appends one
`ORDER BY` per key, so the text holds two `ORDER BY` keywords and differs from the
text with the single clause ` ORDER BY ai.percent DESC, ai.duration ASC`. -/
theorem two_sort_keys_give_two_order_by :
    buildQuery upstreamEnums 0 0
      { emptyFilter with order_by := [("ai.percent", false), ("ai.duration", true)] }
      = baseQuery ++ " ORDER BY ai.percent DESC ORDER BY ai.duration ASC" ∧
    orderByCount (buildQuery upstreamEnums 0 0
      { emptyFilter with order_by := [("ai.percent", false), ("ai.duration", true)] }) = 2 ∧
    buildQuery upstreamEnums 0 0
      { emptyFilter with order_by := [("ai.percent", false), ("ai.duration", true)] }
      ≠ baseQuery ++ specOrderBy [("ai.percent", false), ("ai.duration", true)] := by
  decide

/-- C3: for every `start` and every `limit > 0` the built text is the text before
pagination followed by ` LIMIT <limit>` and then, exactly when `start > 1`, by
` OFFSET <start>`; for `start ≤ 1` nothing follows the `LIMIT`. -/
theorem limit_then_offset_iff_start_gt_one (E : Enums) (start limit : Int)
    (f : PublisherInfoFilter) (h : 0 < limit) :
    buildQuery E start limit f =
      queryBeforeLimit E f ++ (" LIMIT " ++ to_string limit) ++
        (if 1 < start then " OFFSET " ++ to_string start else "") := by
  unfold buildQuery appendLimit
  by_cases hs : 1 < start
  · simp [h, hs]
  · simp [h, hs]

/-- C3, instances: `start = 1` gives no `OFFSET`, `start = 2` gives ` OFFSET 2`. -/
theorem limit_then_offset_iff_start_gt_one_witness :
    (0 : Int) < 10 ∧
    buildQuery upstreamEnums 1 10 emptyFilter = baseQuery ++ " LIMIT 10" ∧
    buildQuery upstreamEnums 2 10 emptyFilter = baseQuery ++ " LIMIT 10 OFFSET 2" :=
  ⟨by decide,
   (limit_then_offset_iff_start_gt_one upstreamEnums 1 10 _ (by decide)).trans (by decide),
   (limit_then_offset_iff_start_gt_one upstreamEnums 2 10 _ (by decide)).trans (by decide)⟩

/-- C4: the exclusion mode contributes at most one predicate on `pi.excluded`, after
the predicates of the other fields: none for `FILTER_ALL`, `pi.excluded != ?` bound
to `PUBLISHER_EXCLUDE::EXCLUDED` for `FILTER_ALL_EXCEPT_EXCLUDED`, and
`pi.excluded = ?` bound to the filter's own exclusion value for every other mode;
no other appended predicate mentions `pi.excluded`.  The two named modes are
distinct enumerators. -/
theorem exclusion_mode_predicate (E : Enums) (f : PublisherInfoFilter) (q : String)
    (h : E.FILTER_ALL ≠ E.FILTER_ALL_EXCEPT_EXCLUDED) :
    appendPredicates E f q =
      q ++ String.join ((fieldClauses E f).map Prod.fst) ++
        String.join ((exclusionClause E f).map Prod.fst) ∧
    (bindFilter E f).bound =
      ((fieldClauses E f).map Prod.snd ++ (exclusionClause E f).map Prod.snd).enum ∧
    (∀ c ∈ fieldClauses E f, countOccurrences "pi.excluded".toList c.1.toList = 0) ∧
    exclusionClause E f =
      (if f.excluded = E.FILTER_ALL then []
       else if f.excluded = E.FILTER_ALL_EXCEPT_EXCLUDED then
         [(" AND pi.excluded != ?", BindValue.int E.EXCLUDED)]
       else [(" AND pi.excluded = ?", BindValue.int f.excluded)]) := by
  refine ⟨?_, ?_, ?_, ?_⟩
  · rw [appendPredicates_eq, specClauses, List.map_append]
    apply String.ext
    simp [String.data_join, String.data_append]
  · rw [bindFilter_eq, specClauses, List.map_append]
  · intro c hc
    unfold fieldClauses at hc
    simp only [List.mem_append] at hc
    rcases hc with (((h | h) | h) | h) | h <;>
      (split at h <;> simp at h) <;> (subst h; dsimp only; decide)
  · unfold exclusionClause
    by_cases h1 : f.excluded = E.FILTER_ALL
    · have h2 : ¬ f.excluded = E.FILTER_ALL_EXCEPT_EXCLUDED := fun e => h (h1.symm.trans e)
      simp [h1, h2, h]
    · by_cases h2 : f.excluded = E.FILTER_ALL_EXCEPT_EXCLUDED
      · simp [h2, h.symm]
      · simp [h1, h2]

/-- C4, instances with the upstream enumerators: mode `FILTER_ALL` (-1) adds no
predicate, `FILTER_ALL_EXCEPT_EXCLUDED` (3) adds `!=` bound to `EXCLUDED` (1), mode 2
adds `=` bound to 2. -/
theorem exclusion_mode_predicate_witness :
    upstreamEnums.FILTER_ALL ≠ upstreamEnums.FILTER_ALL_EXCEPT_EXCLUDED ∧
    exclusionClause upstreamEnums emptyFilter = [] ∧
    exclusionClause upstreamEnums { emptyFilter with excluded := 3 }
      = [(" AND pi.excluded != ?", BindValue.int 1)] ∧
    exclusionClause upstreamEnums { emptyFilter with excluded := 2 }
      = [(" AND pi.excluded = ?", BindValue.int 2)] :=
  ⟨by decide,
   (exclusion_mode_predicate upstreamEnums _ "" (by decide)).2.2.2.trans (by decide),
   (exclusion_mode_predicate upstreamEnums _ "" (by decide)).2.2.2.trans (by decide),
   (exclusion_mode_predicate upstreamEnums _ "" (by decide)).2.2.2.trans (by decide)⟩

/-! ## Opening and migration -/

/-- C5, evaluation at the failing input: a closed store whose `meta` table records
compatible version 4 (above the current version 3), opened in an environment where
nothing fails.  `Init` returns `true` — the status `INIT_TOO_NEW` converted to
`bool` — although nothing is committed (the file content is the one before the
call) and `initialized_` stays `false`. -/
theorem Init_reports_success_on_too_new_store :
    Init upstreamEnums Env.ideal (closedOn tooNewStore) =
      (true,
        { db_ := { is_open := true, foreign_keys := false, transaction_nesting := 0,
                   store := tooNewStore },
          initialized_ := false }) := by
  decide

/-- C6, evaluation at the failing input: a store at version 1 whose `activity_info`
has the version-1 columns and one row.  With `cur_version = 3` the guard
`cur_version < 3` of the first step is false, so `EnsureCurrentVersion` calls
`MigrateV2toV3` alone and then stores version 3.  The result differs from applying
the steps 1 → 2 and 2 → 3 in order: the activity row stays behind in
`activity_info_old` and `activity_info` is empty, where the ordered steps carry the
row over. -/
theorem EnsureCurrentVersion_skips_MigrateV1toV2 :
    EnsureCurrentVersion upstreamEnums Env.ideal (openOn version1Store) =
      (upstreamEnums.INIT_OK,
        SetVersionNumber Env.ideal 3 (MigrateV2toV3 Env.ideal (openOn version1Store)).2) ∧
    (EnsureCurrentVersion upstreamEnums Env.ideal (openOn version1Store)).2.store.activity_info
      = some { columns := activityColumns, activity_unique := true, rows := [] } ∧
    (EnsureCurrentVersion upstreamEnums Env.ideal (openOn version1Store)).2.store.recurring_donation
      = none ∧
    (SetVersionNumber Env.ideal 3
        (specApplySteps Env.ideal 2 1 3 (openOn version1Store))).store.activity_info
      = some { columns := activityColumns, activity_unique := true,
               rows := [{ activityA with visits := 5 }] } ∧
    (SetVersionNumber Env.ideal 3
        (specApplySteps Env.ideal 2 1 3 (openOn version1Store))).store.recurring_donation
      = some [] := by
  decide

theorem run_keepsMeta (env : Env) (sql : String) (effect : Database → Option Database)
    (h : EffectKeepsMeta effect) : KeepsMeta (Database.run env sql effect) := by
  intro db
  unfold Database.run
  split
  · cases he : effect db with
    | none => simp
    | some d' => simpa using h db d' he
  · simp

theorem runScript_keepsMeta (env : Env) (script : List (String × (Database → Option Database)))
    (h : ∀ p ∈ script, EffectKeepsMeta p.2) : KeepsMeta (Database.runScript env script) := by
  induction script with
  | nil => intro db; simp [Database.runScript]
  | cons p rest ih =>
    intro db
    obtain ⟨sql, effect⟩ := p
    have h1 := run_keepsMeta env sql effect (h (sql, effect) (List.mem_cons_self _ _)) db
    have h2 := ih (fun q hq => h q (List.mem_cons_of_mem _ hq))
    simp only [Database.runScript]
    cases hr : Database.run env sql effect db with
    | mk ok d =>
      rw [hr] at h1
      cases ok
      · simpa using h1
      · have := h2 d
        simp only at this ⊢
        exact ⟨this.1.trans h1.1, this.2.trans h1.2⟩

theorem createIndexEffect_keepsMeta (name table : String) :
    EffectKeepsMeta (createIndexEffect name table) := by
  intro d d' h
  unfold createIndexEffect at h
  split at h
  · split at h <;> (simp at h; subst h; simp [Database.withStore])
  · simp at h

theorem CreateContributionInfoTable_keepsMeta (env : Env) :
    KeepsMeta (CreateContributionInfoTable env) := by
  intro db
  unfold CreateContributionInfoTable
  split
  · simp
  · apply run_keepsMeta
    intro d d' h
    unfold createContributionInfoEffect at h
    split at h <;> simp at h
    subst h; simp [Database.withStore]

theorem CreateContributionInfoIndex_keepsMeta (env : Env) :
    KeepsMeta (CreateContributionInfoIndex env) :=
  run_keepsMeta env _ _ (createIndexEffect_keepsMeta _ _)

theorem CreateActivityInfoTable_keepsMeta (env : Env) :
    KeepsMeta (CreateActivityInfoTable env) := by
  intro db
  unfold CreateActivityInfoTable
  split
  · simp
  · apply run_keepsMeta
    intro d d' h
    unfold createActivityInfoEffect at h
    split at h <;> simp at h
    subst h; simp [Database.withStore]

theorem CreateActivityInfoIndex_keepsMeta (env : Env) :
    KeepsMeta (CreateActivityInfoIndex env) :=
  run_keepsMeta env _ _ (createIndexEffect_keepsMeta _ _)

theorem CreateRecurringDonationTable_keepsMeta (env : Env) :
    KeepsMeta (CreateRecurringDonationTable env) := by
  intro db
  unfold CreateRecurringDonationTable
  split
  · simp
  · apply run_keepsMeta
    intro d d' h
    unfold createRecurringDonationEffect at h
    split at h <;> simp at h
    subst h; simp [Database.withStore]

theorem CreateRecurringDonationIndex_keepsMeta (env : Env) :
    KeepsMeta (CreateRecurringDonationIndex env) :=
  run_keepsMeta env _ _ (createIndexEffect_keepsMeta _ _)

theorem CreatePublisherInfoTable_keepsMeta (env : Env) :
    KeepsMeta (CreatePublisherInfoTable env) := by
  intro db
  unfold CreatePublisherInfoTable
  split
  · simp
  · apply run_keepsMeta
    intro d d' h
    unfold createPublisherInfoEffect at h
    split at h <;> simp at h
    subst h; simp [Database.withStore]

theorem CreateMediaPublisherInfoTable_keepsMeta (env : Env) :
    KeepsMeta (CreateMediaPublisherInfoTable env) := by
  intro db
  unfold CreateMediaPublisherInfoTable
  split
  · simp
  · apply run_keepsMeta
    intro d d' h
    unfold createMediaPublisherInfoEffect at h
    split at h <;> simp at h
    subst h; simp [Database.withStore]

/-- Sequencing: when the first operation keeps the `meta` table, so does the
combination that runs the second only after a success of the first. -/
theorem keepsMeta_andThen (f g : Database → Bool × Database) (hf : KeepsMeta f)
    (hg : KeepsMeta g) :
    KeepsMeta (fun db => match f db with
      | (false, d) => (false, d)
      | (true, d) => g d) := by
  intro db
  have h1 := hf db
  dsimp only
  cases hr : f db with
  | mk ok d =>
    rw [hr] at h1
    cases ok
    · simpa using h1
    · have := hg d
      simp only at this ⊢
      exact ⟨this.1.trans h1.1, this.2.trans h1.2⟩

theorem addReconcileStampEffect_keepsMeta : EffectKeepsMeta addReconcileStampEffect := by
  intro d d' h
  unfold addReconcileStampEffect at h
  split at h
  · split at h <;> simp at h
    subst h; simp [Database.withStore]
  · simp at h

theorem dropContributionInfoEffect_keepsMeta : EffectKeepsMeta dropContributionInfoEffect := by
  intro d d' h
  unfold dropContributionInfoEffect at h
  split at h <;> simp at h
  subst h; simp [Database.withStore]

theorem MigrateV1toV2_keepsMeta (env : Env) : KeepsMeta (MigrateV1toV2 env) := by
  intro db
  have hscript : ∀ script : List (String × (Database → Option Database)),
      (∀ p ∈ script, EffectKeepsMeta p.2) →
      ((match db.runScript env script with
        | (false, db) => (false, db)
        | (true, db) =>
          match CreateContributionInfoTable env db with
          | (false, db) => (false, db)
          | (true, db) =>
            match CreateContributionInfoIndex env db with
            | (false, db) => (false, db)
            | (true, db) =>
              match CreateRecurringDonationTable env db with
              | (false, db) => (false, db)
              | (true, db) => CreateRecurringDonationIndex env db).2.store.metaTable
          = db.store.metaTable ∧
       (match db.runScript env script with
        | (false, db) => (false, db)
        | (true, db) =>
          match CreateContributionInfoTable env db with
          | (false, db) => (false, db)
          | (true, db) =>
            match CreateContributionInfoIndex env db with
            | (false, db) => (false, db)
            | (true, db) =>
              match CreateRecurringDonationTable env db with
              | (false, db) => (false, db)
              | (true, db) => CreateRecurringDonationIndex env db).2.is_open = db.is_open) := by
    intro script hs
    exact keepsMeta_andThen _ _ (runScript_keepsMeta env script hs)
      (keepsMeta_andThen _ _ (CreateContributionInfoTable_keepsMeta env)
        (keepsMeta_andThen _ _ (CreateContributionInfoIndex_keepsMeta env)
          (keepsMeta_andThen _ _ (CreateRecurringDonationTable_keepsMeta env)
            (CreateRecurringDonationIndex_keepsMeta env)))) db
  unfold MigrateV1toV2
  apply hscript
  intro p hp
  split_ifs at hp <;> simp at hp
  all_goals first
    | (rcases hp with rfl | rfl
       · exact addReconcileStampEffect_keepsMeta
       · exact dropContributionInfoEffect_keepsMeta)
    | (subst hp; exact addReconcileStampEffect_keepsMeta)
    | (subst hp; exact dropContributionInfoEffect_keepsMeta)

theorem migrateV2toV3Script_keepsMeta : ∀ p ∈ migrateV2toV3Script, EffectKeepsMeta p.2 := by
  have hfk : ∀ b, EffectKeepsMeta (foreignKeysEffect b) := by
    intro b d d' h
    unfold foreignKeysEffect at h
    split at h <;> (simp at h; subst h; simp)
  have hcopy : EffectKeepsMeta copyActivityEffect := by
    intro d d' h
    unfold copyActivityEffect at h
    split at h
    · split at h
      · dsimp only at h
        split at h
        · simp at h
        · split at h <;> simp at h
          subst h; simp [Database.withStore]
      · simp at h
    · simp at h
  have hvisits : EffectKeepsMeta setVisitsEffect := by
    intro d d' h
    unfold setVisitsEffect at h
    split at h
    · split at h <;> simp at h
      subst h; simp [Database.withStore]
    · simp at h
  have hdrop : EffectKeepsMeta dropActivityInfoOldEffect := by
    intro d d' h
    unfold dropActivityInfoOldEffect at h
    split at h <;> simp at h
    subst h; simp [Database.withStore]
  intro p hp
  simp only [migrateV2toV3Script, List.mem_cons, List.mem_singleton, List.not_mem_nil,
    or_false] at hp
  rcases hp with rfl | rfl | rfl | rfl | rfl
  · exact hfk false
  · exact hcopy
  · exact hvisits
  · exact hdrop
  · exact hfk true

theorem renameActivityInfoEffect_keepsMeta : EffectKeepsMeta renameActivityInfoEffect := by
  intro d d' h
  unfold renameActivityInfoEffect at h
  split at h <;> simp at h
  subst h; simp [Database.withStore]

theorem MigrateV2toV3_keepsMeta (env : Env) : KeepsMeta (MigrateV2toV3 env) := by
  intro db
  unfold MigrateV2toV3
  split
  · exact keepsMeta_andThen _ _ (run_keepsMeta env _ _ renameActivityInfoEffect_keepsMeta)
      (keepsMeta_andThen _ _ (CreateActivityInfoTable_keepsMeta env)
        (keepsMeta_andThen _ _ (CreateActivityInfoIndex_keepsMeta env)
          (runScript_keepsMeta env _ migrateV2toV3Script_keepsMeta))) db
  · simp

theorem SetVersionNumber_version (env : Env) (v : Int) (db : Database) (m : MetaTable)
    (hopen : db.is_open = true) (hexec : env.exec_ok metaSetSql = true)
    (hm : db.store.metaTable = some m) :
    GetVersionNumber (SetVersionNumber env v db) = v := by
  simp [SetVersionNumber, setVersionEffect, Database.run, hopen, hexec, hm, GetVersionNumber,
    Database.withStore]

/-- C7, the claim as stated fails: on a store at version 2 without an
`activity_info` table `MigrateV2toV3` fails, and `EnsureCurrentVersion` still
advances the stored version from 2 to 3. -/
theorem version_advances_after_failed_step :
    (MigrateV2toV3 Env.ideal (openOn version2StoreWithoutActivity)).1 = false ∧
    GetVersionNumber (openOn version2StoreWithoutActivity) = 2 ∧
    GetVersionNumber
      (EnsureCurrentVersion upstreamEnums Env.ideal (openOn version2StoreWithoutActivity)).2 = 3 := by
  decide

/-- C7 (amended): whenever the store is not too new and the stored version is 1 or
2, `EnsureCurrentVersion` returns `INIT_OK` and the stored version afterwards is the
current version 3, whatever `MigrateV1toV2` and `MigrateV2toV3` return (their
failure is only logged); this holds in every environment in which the write of the
version itself succeeds. -/
theorem version_set_whatever_steps_return (E : Enums) (env : Env) (db : Database)
    (hopen : db.is_open = true) (hexec : env.exec_ok metaSetSql = true)
    (hcompat : GetCompatibleVersionNumber db ≤ GetCurrentVersion)
    (hv : GetVersionNumber db = 1 ∨ GetVersionNumber db = 2) :
    (EnsureCurrentVersion E env db).1 = E.INIT_OK ∧
    GetVersionNumber (EnsureCurrentVersion E env db).2 = GetCurrentVersion := by
  obtain ⟨m, hm⟩ : ∃ m, db.store.metaTable = some m := by
    cases h : db.store.metaTable with
    | none => simp [GetVersionNumber, h] at hv
    | some m => exact ⟨m, rfl⟩
  have h3 := MigrateV2toV3_keepsMeta env db
  unfold EnsureCurrentVersion
  rw [if_neg (not_lt.mpr hcompat)]
  refine ⟨rfl, ?_⟩
  rcases hv with hv | hv
  · simp only [hv, GetCurrentVersion, kCurrentVersionNumber]
    norm_num
    exact SetVersionNumber_version env 3 _ m (h3.2.trans hopen) hexec (h3.1.trans hm)
  · simp only [hv, GetCurrentVersion, kCurrentVersionNumber]
    norm_num
    exact SetVersionNumber_version env 3 _ m (h3.2.trans hopen) hexec (h3.1.trans hm)

/-- C7 (amended), instance: the version-2 store without `activity_info`. -/
theorem version_set_whatever_steps_return_witness :
    (openOn version2StoreWithoutActivity).is_open = true ∧
    Env.ideal.exec_ok metaSetSql = true ∧
    GetCompatibleVersionNumber (openOn version2StoreWithoutActivity) ≤ GetCurrentVersion ∧
    (GetVersionNumber (openOn version2StoreWithoutActivity) = 1 ∨
      GetVersionNumber (openOn version2StoreWithoutActivity) = 2) ∧
    GetVersionNumber
      (EnsureCurrentVersion upstreamEnums Env.ideal (openOn version2StoreWithoutActivity)).2
        = GetCurrentVersion :=
  ⟨by decide, by decide, by decide, by decide,
   (version_set_whatever_steps_return upstreamEnums Env.ideal
      (openOn version2StoreWithoutActivity) (by decide) (by decide) (by decide) (by decide)).2⟩


/-! ## Lazy initialisation by the repository operations -/

theorem run_ok (env : Env) (sql : String) (effect : Database → Option Database) (db : Database)
    (hopen : db.is_open = true) (hx : env.exec_ok sql = true) (he : (effect db).isSome = true) :
    (Database.run env sql effect db).1 = true := by
  unfold Database.run
  cases h : effect db with
  | none => simp [h] at he
  | some d => simp [hopen, hx]

theorem CreatePublisherInfoTable_ok (env : Env) (db : Database) (hopen : db.is_open = true)
    (hx : ∀ sql, env.exec_ok sql = true) : (CreatePublisherInfoTable env db).1 = true := by
  unfold CreatePublisherInfoTable
  split
  · rfl
  · rename_i h
    apply run_ok _ _ _ _ hopen (hx _)
    unfold createPublisherInfoEffect
    cases ht : db.store.publisher_info with
    | none => rfl
    | some rows => simp [Store.DoesTableExist, ht] at h

theorem CreateContributionInfoTable_ok (env : Env) (db : Database) (hopen : db.is_open = true)
    (hx : ∀ sql, env.exec_ok sql = true) : (CreateContributionInfoTable env db).1 = true := by
  unfold CreateContributionInfoTable
  split
  · rfl
  · rename_i h
    apply run_ok _ _ _ _ hopen (hx _)
    unfold createContributionInfoEffect
    cases ht : db.store.contribution_info with
    | none => rfl
    | some rows => simp [Store.DoesTableExist, ht] at h

theorem CreateActivityInfoTable_ok (env : Env) (db : Database) (hopen : db.is_open = true)
    (hx : ∀ sql, env.exec_ok sql = true) : (CreateActivityInfoTable env db).1 = true := by
  unfold CreateActivityInfoTable
  split
  · rfl
  · rename_i h
    apply run_ok _ _ _ _ hopen (hx _)
    unfold createActivityInfoEffect
    cases ht : db.store.activity_info with
    | none => rfl
    | some rows => simp [Store.DoesTableExist, ht] at h

theorem CreateMediaPublisherInfoTable_ok (env : Env) (db : Database) (hopen : db.is_open = true)
    (hx : ∀ sql, env.exec_ok sql = true) : (CreateMediaPublisherInfoTable env db).1 = true := by
  unfold CreateMediaPublisherInfoTable
  split
  · rfl
  · rename_i h
    apply run_ok _ _ _ _ hopen (hx _)
    unfold createMediaPublisherInfoEffect
    cases ht : db.store.media_publisher_info with
    | none => rfl
    | some rows => simp [Store.DoesTableExist, ht] at h

theorem CreateRecurringDonationTable_ok (env : Env) (db : Database) (hopen : db.is_open = true)
    (hx : ∀ sql, env.exec_ok sql = true) : (CreateRecurringDonationTable env db).1 = true := by
  unfold CreateRecurringDonationTable
  split
  · rfl
  · rename_i h
    apply run_ok _ _ _ _ hopen (hx _)
    unfold createRecurringDonationEffect
    cases ht : db.store.recurring_donation with
    | none => rfl
    | some rows => simp [Store.DoesTableExist, ht] at h

theorem EnsureCurrentVersion_keepsOpen (E : Enums) (env : Env) (db : Database) :
    (EnsureCurrentVersion E env db).2.is_open = db.is_open := by
  have hset : ∀ v d, (SetVersionNumber env v d).is_open = d.is_open := by
    intro v d
    unfold SetVersionNumber Database.run setVersionEffect
    cases d.store.metaTable <;> (split <;> simp [Database.withStore])
  unfold EnsureCurrentVersion
  split
  · rfl
  · dsimp only
    split_ifs <;>
      simp [hset, (MigrateV2toV3_keepsMeta env _).2, (MigrateV1toV2_keepsMeta env _).2]

theorem EnsureCurrentVersion_ok (E : Enums) (env : Env) (db : Database)
    (hcompat : GetCompatibleVersionNumber db ≤ GetCurrentVersion) :
    (EnsureCurrentVersion E env db).1 = E.INIT_OK := by
  unfold EnsureCurrentVersion
  rw [if_neg (not_lt.mpr hcompat)]

theorem pair_of_fst_true {α : Type} (p : Bool × α) (h : p.1 = true) : p = (true, p.2) := by
  obtain ⟨b, a⟩ := p
  simp at h
  subst h
  rfl

theorem meta_table_Init_compat (env : Env) (db : Database)
    (hcompat : GetCompatibleVersionNumber db ≤ GetCurrentVersion) :
    GetCompatibleVersionNumber
      (meta_table_Init env GetCurrentVersion kCompatibleVersionNumber db).2 ≤ GetCurrentVersion := by
  unfold meta_table_Init
  split
  · cases h : db.store.metaTable with
    | none =>
      simp [GetCompatibleVersionNumber, Database.withStore, kCompatibleVersionNumber,
        GetCurrentVersion, kCurrentVersionNumber]
    | some m => simpa using hcompat
  · simpa using hcompat

theorem meta_table_Init_keepsOpen (env : Env) (v c : Int) (db : Database) :
    (meta_table_Init env v c db).2.is_open = db.is_open := by
  unfold meta_table_Init
  split
  · cases db.store.metaTable <;> simp [Database.withStore]
  · rfl

theorem compat_of_keepsMeta (d d' : Database) (h : d'.store.metaTable = d.store.metaTable) :
    GetCompatibleVersionNumber d' = GetCompatibleVersionNumber d := by
  simp [GetCompatibleVersionNumber, h]

/-- In an environment where nothing fails, `Init` on a closed, uninitialized handle
whose file is not too new returns `true` and leaves the handle open and initialized. -/
theorem Init_succeeds (E : Enums) (env : Env) (self : PublisherInfoDatabase)
    (hinit : self.initialized_ = false) (hclosed : self.db_.is_open = false)
    (ho : env.open_ok = true) (hb : env.begin_ok = true) (hm : env.meta_init_ok = true)
    (hc : env.commit_ok = true) (hx : ∀ sql, env.exec_ok sql = true)
    (hcompat : GetCompatibleVersionNumber self.db_ ≤ GetCurrentVersion) :
    (Init E env self).1 = true ∧ (Init E env self).2.initialized_ = true ∧
      (Init E env self).2.db_.is_open = true := by
  unfold Init
  simp only [hinit, hclosed, ho, hb, Bool.false_eq_true, if_false, Bool.not_false, Bool.and_self,
    Bool.not_true]
  generalize hd0 : ({ is_open := true, foreign_keys := self.db_.foreign_keys, transaction_nesting := self.db_.transaction_nesting + 1, store := self.db_.store } : Database) = d0
  have hopen0 : d0.is_open = true := by subst hd0; rfl
  have hc0 : GetCompatibleVersionNumber d0 ≤ GetCurrentVersion := by
    subst hd0; exact hcompat
  -- the meta table
  have hm1 : (meta_table_Init env GetCurrentVersion kCompatibleVersionNumber d0).1 = true := by
    unfold meta_table_Init; rw [if_pos hm]; cases d0.store.metaTable <;> rfl
  have hc1 := meta_table_Init_compat env d0 hc0
  have hopen1 := (meta_table_Init_keepsOpen env GetCurrentVersion kCompatibleVersionNumber d0).trans
    hopen0
  rw [pair_of_fst_true _ hm1]
  generalize (meta_table_Init env GetCurrentVersion kCompatibleVersionNumber d0).2 = d1
    at hc1 hopen1 ⊢
  dsimp only
  -- the five tables
  have k2 := CreatePublisherInfoTable_keepsMeta env d1
  rw [pair_of_fst_true _ (CreatePublisherInfoTable_ok env d1 hopen1 hx)]
  generalize (CreatePublisherInfoTable env d1).2 = d2 at k2 ⊢
  dsimp only
  have hopen2 := k2.2.trans hopen1
  have k3 := CreateContributionInfoTable_keepsMeta env d2
  rw [pair_of_fst_true _ (CreateContributionInfoTable_ok env d2 hopen2 hx)]
  generalize (CreateContributionInfoTable env d2).2 = d3 at k3 ⊢
  dsimp only
  have hopen3 := k3.2.trans hopen2
  have k4 := CreateActivityInfoTable_keepsMeta env d3
  rw [pair_of_fst_true _ (CreateActivityInfoTable_ok env d3 hopen3 hx)]
  generalize (CreateActivityInfoTable env d3).2 = d4 at k4 ⊢
  dsimp only
  have hopen4 := k4.2.trans hopen3
  have k5 := CreateMediaPublisherInfoTable_keepsMeta env d4
  rw [pair_of_fst_true _ (CreateMediaPublisherInfoTable_ok env d4 hopen4 hx)]
  generalize (CreateMediaPublisherInfoTable env d4).2 = d5 at k5 ⊢
  dsimp only
  have hopen5 := k5.2.trans hopen4
  have k6 := CreateRecurringDonationTable_keepsMeta env d5
  rw [pair_of_fst_true _ (CreateRecurringDonationTable_ok env d5 hopen5 hx)]
  generalize (CreateRecurringDonationTable env d5).2 = d6 at k6 ⊢
  dsimp only
  have hopen6 := k6.2.trans hopen5
  -- the three indexes
  have k7 := CreateContributionInfoIndex_keepsMeta env d6
  have k8 := CreateActivityInfoIndex_keepsMeta env (CreateContributionInfoIndex env d6).2
  have k9 := CreateRecurringDonationIndex_keepsMeta env
    (CreateActivityInfoIndex env (CreateContributionInfoIndex env d6).2).2
  generalize (CreateRecurringDonationIndex env
    (CreateActivityInfoIndex env (CreateContributionInfoIndex env d6).2).2).2 = d9 at k9 ⊢
  have hmeta9 : d9.store.metaTable = d1.store.metaTable :=
    k9.1.trans (k8.1.trans (k7.1.trans (k6.1.trans (k5.1.trans (k4.1.trans (k3.1.trans k2.1))))))
  have hopen9 : d9.is_open = true := k9.2.trans (k8.2.trans (k7.2.trans hopen6))
  have hc9 : GetCompatibleVersionNumber d9 ≤ GetCurrentVersion := by
    rw [compat_of_keepsMeta _ _ hmeta9]; exact hc1
  -- the version check
  have hv := EnsureCurrentVersion_ok E env d9 hc9
  have hvo := (EnsureCurrentVersion_keepsOpen E env d9).trans hopen9
  cases hr : EnsureCurrentVersion E env d9 with
  | mk status d10 =>
    rw [hr] at hv hvo
    simp only at hv hvo
    simp [hv, hc, hvo]

theorem run_keepsOpen (env : Env) (sql : String) (effect : Database → Option Database)
    (db : Database) (h : ∀ d d', effect d = some d' → d'.is_open = d.is_open) :
    (Database.run env sql effect db).2.is_open = db.is_open := by
  unfold Database.run
  split
  · cases he : effect db with
    | none => rfl
    | some d' => exact h db d' he
  · rfl

theorem replacePublisherEffect_keepsOpen (info : PublisherInfo) :
    ∀ d d', replacePublisherEffect info d = some d' → d'.is_open = d.is_open := by
  intro d d' h
  unfold replacePublisherEffect at h
  split at h <;> simp at h
  subst h; simp [Database.withStore]

theorem ignorePublisherEffect_keepsOpen (info : PublisherInfo) :
    ∀ d d', ignorePublisherEffect info d = some d' → d'.is_open = d.is_open := by
  intro d d' h
  unfold ignorePublisherEffect at h
  split at h
  · split at h <;> (simp at h; subst h; simp [Database.withStore])
  · simp at h

theorem replaceActivityEffect_keepsOpen (info : PublisherInfo) :
    ∀ d d', replaceActivityEffect info d = some d' → d'.is_open = d.is_open := by
  intro d d' h
  unfold replaceActivityEffect at h
  split at h
  · split at h <;> simp at h
    subst h; simp [Database.withStore]
  · simp at h

theorem insertContributionEffect_keepsOpen (info : ContributionInfo) :
    ∀ d d', insertContributionEffect info d = some d' → d'.is_open = d.is_open := by
  intro d d' h
  unfold insertContributionEffect at h
  split at h
  · split at h <;> simp at h
    subst h; simp [Database.withStore]
  · simp at h

theorem replaceMediaEffect_keepsOpen (media_key publisher_id : String) :
    ∀ d d', replaceMediaEffect media_key publisher_id d = some d' → d'.is_open = d.is_open := by
  intro d d' h
  unfold replaceMediaEffect at h
  split at h
  · split at h <;> simp at h
    subst h; simp [Database.withStore]
  · simp at h

theorem replaceRecurringEffect_keepsOpen (info : RecurringDonation) :
    ∀ d d', replaceRecurringEffect info d = some d' → d'.is_open = d.is_open := by
  intro d d' h
  unfold replaceRecurringEffect at h
  split at h
  · split at h <;> simp at h
    subst h; simp [Database.withStore]
  · simp at h

theorem removeRecurringEffect_keepsOpen (publisher_key : String) :
    ∀ d d', removeRecurringEffect publisher_key d = some d' → d'.is_open = d.is_open := by
  intro d d' h
  unfold removeRecurringEffect at h
  split at h <;> simp at h
  subst h; simp [Database.withStore]

/-- What a write does once its `Init` call has returned `true` with state `s`. -/
theorem Write_run_of_Init_true (E : Enums) (env : Env) (w : Write)
    (self s : PublisherInfoDatabase) (h : Init E env self = (true, s)) :
    (w.run E env self).2.initialized_ = s.initialized_ ∧
    (w.run E env self).2.db_.is_open = s.db_.is_open := by
  cases w with
  | publisherInfo info =>
    simp only [Write.run, InsertOrUpdatePublisherInfo, h]
    exact ⟨trivial, run_keepsOpen _ _ _ _ (replacePublisherEffect_keepsOpen info)⟩
  | activityInfo info =>
    simp only [Write.run, InsertOrUpdateActivityInfo, h]
    have h1 := run_keepsOpen env ignorePublisherSql _ s.db_ (ignorePublisherEffect_keepsOpen info)
    cases hr : Database.run env ignorePublisherSql (ignorePublisherEffect info) s.db_ with
    | mk ok d =>
      rw [hr] at h1
      cases ok
      · exact ⟨rfl, h1⟩
      · exact ⟨rfl, (run_keepsOpen _ _ _ _ (replaceActivityEffect_keepsOpen info)).trans h1⟩
  | contributionInfo info =>
    simp only [Write.run, InsertContributionInfo, h]
    exact ⟨trivial, run_keepsOpen _ _ _ _ (insertContributionEffect_keepsOpen info)⟩
  | mediaPublisherInfo media_key publisher_id =>
    simp only [Write.run, InsertOrUpdateMediaPublisherInfo, h]
    exact ⟨trivial, run_keepsOpen _ _ _ _ (replaceMediaEffect_keepsOpen media_key publisher_id)⟩
  | recurringDonation info =>
    simp only [Write.run, InsertOrUpdateRecurringDonation, h]
    exact ⟨trivial, run_keepsOpen _ _ _ _ (replaceRecurringEffect_keepsOpen info)⟩
  | removeRecurring publisher_key =>
    simp only [Write.run, RemoveRecurring, h]
    exact ⟨trivial, run_keepsOpen _ _ _ _ (removeRecurringEffect_keepsOpen publisher_key)⟩

/-- C8, the claim as stated fails: `InsertOrUpdatePublisherInfo` on a closed,
uninitialized handle over an empty file returns `true`; its `Init` call has opened
the file, created the schema and set `initialized_`, and the row is stored. -/
theorem write_initializes_uninitialized_store :
    (closedOn Store.empty).initialized_ = false ∧
    InsertOrUpdatePublisherInfo upstreamEnums Env.ideal recordA (closedOn Store.empty) =
      (true, readyOn { freshStore with publisher_info := some [publisherRowOf recordA] }) := by
  decide

/-- C8 (amended): every repository write first calls `Init`.  On a handle that has
not been initialized the write returns failure, having done nothing beyond that
`Init` call, whenever the `Init` call returns `false`; and when nothing fails and the
file is not too new, that `Init` call opens the file and sets `initialized_` (lazy
initialisation), so that the write leaves the handle open and initialized. -/
theorem write_runs_Init_first (E : Enums) (env : Env) (w : Write) (self : PublisherInfoDatabase)
    (hinit : self.initialized_ = false) :
    ((Init E env self).1 = false → w.run E env self = (false, (Init E env self).2)) ∧
    (self.db_.is_open = false → env.open_ok = true → env.begin_ok = true →
      env.meta_init_ok = true → env.commit_ok = true → (∀ sql, env.exec_ok sql = true) →
      GetCompatibleVersionNumber self.db_ ≤ GetCurrentVersion →
      (w.run E env self).2.initialized_ = true ∧ (w.run E env self).2.db_.is_open = true) := by
  constructor
  · intro h
    cases hr : Init E env self with
    | mk ok s =>
      rw [hr] at h
      simp only at h
      subst h
      cases w <;>
        simp [Write.run, InsertOrUpdatePublisherInfo, InsertOrUpdateActivityInfo,
          InsertContributionInfo, InsertOrUpdateMediaPublisherInfo,
          InsertOrUpdateRecurringDonation, RemoveRecurring, hr]
  · intro hclosed ho hb hm hc hx hcompat
    have hI := Init_succeeds E env self hinit hclosed ho hb hm hc hx hcompat
    have hW := Write_run_of_Init_true E env w self (Init E env self).2
      (pair_of_fst_true _ hI.1)
    exact ⟨hW.1.trans hI.2.1, hW.2.trans hI.2.2⟩

/-- C8 (amended), instance: the six writes on a closed handle over an empty file. -/
theorem write_runs_Init_first_witness :
    (closedOn Store.empty).initialized_ = false ∧
    ((RemoveRecurring upstreamEnums Env.ideal "b.com" (closedOn Store.empty)).2.initialized_ = true ∧
     (RemoveRecurring upstreamEnums Env.ideal "b.com" (closedOn Store.empty)).2.db_.is_open = true) :=
  ⟨by decide,
   (write_runs_Init_first upstreamEnums Env.ideal (.removeRecurring "b.com")
      (closedOn Store.empty) (by decide)).2 (by decide) (by decide) (by decide) (by decide)
      (by decide) (fun _ => rfl) (by decide)⟩

/-! ## Referential invariant -/

theorem noOrphans_iff (s : Store) :
    s.noOrphans ↔
      (∀ t, s.activity_info = some t → ∀ r ∈ t.rows, s.hasPublisher r.publisher_id = true) ∧
      (∀ rows, s.contribution_info = some rows →
        ∀ r ∈ rows, s.hasPublisher r.publisher_id = true) ∧
      (∀ rows, s.media_publisher_info = some rows →
        ∀ r ∈ rows, s.hasPublisher r.publisher_id = true) ∧
      (∀ rows, s.recurring_donation = some rows →
        ∀ r ∈ rows, s.hasPublisher r.publisher_id = true) := by
  unfold Store.noOrphans Store.dependentIds
  constructor
  · intro h
    refine ⟨?_, ?_, ?_, ?_⟩
    · intro t ht r hr
      apply h; simp [ht]; exact Or.inl ⟨r, hr, rfl⟩
    · intro rows ht r hr
      apply h; simp [ht]; exact Or.inr (Or.inl ⟨r, hr, rfl⟩)
    · intro rows ht r hr
      apply h; simp [ht]; exact Or.inr (Or.inr (Or.inl ⟨r, hr, rfl⟩))
    · intro rows ht r hr
      apply h; simp [ht]; exact Or.inr (Or.inr (Or.inr ⟨r, hr, rfl⟩))
  · rintro ⟨h1, h2, h3, h4⟩ id hid
    simp only [List.mem_append] at hid
    rcases hid with ((hid | hid) | hid) | hid
    · cases ht : s.activity_info with
      | none => simp [ht] at hid
      | some t =>
        simp [ht] at hid
        obtain ⟨r, hr, rfl⟩ := hid
        exact h1 t ht r hr
    · cases ht : s.contribution_info with
      | none => simp [ht] at hid
      | some t =>
        simp [ht] at hid
        obtain ⟨r, hr, rfl⟩ := hid
        exact h2 t ht r hr
    · cases ht : s.media_publisher_info with
      | none => simp [ht] at hid
      | some t =>
        simp [ht] at hid
        obtain ⟨r, hr, rfl⟩ := hid
        exact h3 t ht r hr
    · cases ht : s.recurring_donation with
      | none => simp [ht] at hid
      | some t =>
        simp [ht] at hid
        obtain ⟨r, hr, rfl⟩ := hid
        exact h4 t ht r hr

theorem fkAllows_hasPublisher (d : Database) (id : String) (h : d.fkAllows id = true)
    (hc : d.foreign_keys = true ∨ d.store.hasPublisher id = true) :
    d.store.hasPublisher id = true := by
  rcases hc with hc | hc
  · simpa [Database.fkAllows, hc] using h
  · exact hc

theorem insertContributionEffect_noOrphans (info : ContributionInfo) (d d' : Database)
    (h : insertContributionEffect info d = some d') (h0 : d.store.noOrphans)
    (hc : d.foreign_keys = true ∨ d.store.hasPublisher info.publisher_key = true) :
    d'.store.noOrphans := by
  unfold insertContributionEffect at h
  split at h
  · rename_i rows hrows
    split at h <;> simp at h
    rename_i hfk
    have hp := fkAllows_hasPublisher d _ hfk hc
    subst h
    rw [noOrphans_iff] at h0 ⊢
    obtain ⟨h1, h2, h3, h4⟩ := h0
    refine ⟨?_, ?_, ?_, ?_⟩
    · intro t ht r hr; exact h1 t ht r hr
    · intro rows' ht r hr
      simp [Database.withStore] at ht
      subst ht
      simp only [List.mem_append, List.mem_singleton] at hr
      rcases hr with hr | rfl
      · exact h2 rows hrows r hr
      · exact hp
    · intro t ht r hr; exact h3 t ht r hr
    · intro t ht r hr; exact h4 t ht r hr
  · simp at h

theorem replaceMediaEffect_noOrphans (media_key publisher_id : String) (d d' : Database)
    (h : replaceMediaEffect media_key publisher_id d = some d') (h0 : d.store.noOrphans)
    (hc : d.foreign_keys = true ∨ d.store.hasPublisher publisher_id = true) :
    d'.store.noOrphans := by
  unfold replaceMediaEffect at h
  split at h
  · rename_i rows hrows
    split at h <;> simp at h
    rename_i hfk
    have hp := fkAllows_hasPublisher d _ hfk hc
    subst h
    rw [noOrphans_iff] at h0 ⊢
    obtain ⟨h1, h2, h3, h4⟩ := h0
    refine ⟨?_, ?_, ?_, ?_⟩
    · intro t ht r hr; exact h1 t ht r hr
    · intro t ht r hr; exact h2 t ht r hr
    · intro rows' ht r hr
      simp [Database.withStore] at ht
      subst ht
      simp only [List.mem_append, List.mem_singleton, List.mem_filter] at hr
      rcases hr with hr | rfl
      · exact h3 rows hrows r hr.1
      · exact hp
    · intro t ht r hr; exact h4 t ht r hr
  · simp at h

theorem replaceRecurringEffect_noOrphans (info : RecurringDonation) (d d' : Database)
    (h : replaceRecurringEffect info d = some d') (h0 : d.store.noOrphans)
    (hc : d.foreign_keys = true ∨ d.store.hasPublisher info.publisher_key = true) :
    d'.store.noOrphans := by
  unfold replaceRecurringEffect at h
  split at h
  · rename_i rows hrows
    split at h <;> simp at h
    rename_i hfk
    have hp := fkAllows_hasPublisher d _ hfk hc
    subst h
    rw [noOrphans_iff] at h0 ⊢
    obtain ⟨h1, h2, h3, h4⟩ := h0
    refine ⟨?_, ?_, ?_, ?_⟩
    · intro t ht r hr; exact h1 t ht r hr
    · intro t ht r hr; exact h2 t ht r hr
    · intro t ht r hr; exact h3 t ht r hr
    · intro rows' ht r hr
      simp [Database.withStore] at ht
      subst ht
      simp only [List.mem_append, List.mem_singleton, List.mem_filter] at hr
      rcases hr with hr | rfl
      · exact h4 rows hrows r hr.1
      · exact hp
  · simp at h

theorem ignorePublisherEffect_spec (info : PublisherInfo) (d d' : Database)
    (h : ignorePublisherEffect info d = some d') :
    d'.store.hasPublisher info.id = true ∧
    (∀ id, d.store.hasPublisher id = true → d'.store.hasPublisher id = true) ∧
    d'.store.activity_info = d.store.activity_info ∧
    d'.store.contribution_info = d.store.contribution_info ∧
    d'.store.media_publisher_info = d.store.media_publisher_info ∧
    d'.store.recurring_donation = d.store.recurring_donation ∧
    d'.foreign_keys = d.foreign_keys := by
  unfold ignorePublisherEffect at h
  split at h
  · rename_i rows hrows
    split at h
    · rename_i hany
      simp at h
      subst h
      refine ⟨?_, fun _ hid => hid, rfl, rfl, rfl, rfl, rfl⟩
      simp only [Store.hasPublisher, hrows]
      exact hany
    · simp at h
      subst h
      refine ⟨?_, ?_, rfl, rfl, rfl, rfl, rfl⟩
      · simp [Store.hasPublisher, Database.withStore, publisherRowOf]
      · intro id hid
        simp only [Store.hasPublisher, hrows] at hid
        simp only [Store.hasPublisher, Database.withStore, List.any_append, hid, Bool.true_or]
  · simp at h

theorem replaceActivityEffect_noOrphans (info : PublisherInfo) (d d' : Database)
    (h : replaceActivityEffect info d = some d') (h0 : d.store.noOrphans)
    (hp : d.store.hasPublisher info.id = true) :
    d'.store.noOrphans := by
  unfold replaceActivityEffect at h
  split at h
  · rename_i t htab
    split at h <;> simp at h
    subst h
    rw [noOrphans_iff] at h0 ⊢
    obtain ⟨h1, h2, h3, h4⟩ := h0
    refine ⟨?_, ?_, ?_, ?_⟩
    · intro t' ht r hr
      simp [Database.withStore] at ht
      subst ht
      simp only [List.mem_append, List.mem_singleton] at hr
      rcases hr with hr | rfl
      · have hmem : r ∈ t.rows := by
          split at hr
          · exact (List.mem_filter.mp hr).1
          · exact hr
        exact h1 t htab r hmem
      · exact hp
    · intro t ht r hr; exact h2 t ht r hr
    · intro t ht r hr; exact h3 t ht r hr
    · intro t ht r hr; exact h4 t ht r hr
  · simp at h

theorem noOrphans_of_same_dependents (s s' : Store) (h0 : s.noOrphans)
    (hpub : ∀ id, s.hasPublisher id = true → s'.hasPublisher id = true)
    (ha : s'.activity_info = s.activity_info) (hc : s'.contribution_info = s.contribution_info)
    (hm : s'.media_publisher_info = s.media_publisher_info)
    (hr : s'.recurring_donation = s.recurring_donation) : s'.noOrphans := by
  rw [noOrphans_iff] at h0 ⊢
  obtain ⟨h1, h2, h3, h4⟩ := h0
  rw [ha, hc, hm, hr]
  exact ⟨fun t ht r hr => hpub _ (h1 t ht r hr), fun t ht r hr => hpub _ (h2 t ht r hr),
    fun t ht r hr => hpub _ (h3 t ht r hr), fun t ht r hr => hpub _ (h4 t ht r hr)⟩

theorem run_cases (env : Env) (sql : String) (effect : Database → Option Database)
    (db : Database) :
    ((Database.run env sql effect db).1 = true ∧
      effect db = some (Database.run env sql effect db).2) ∨
    ((Database.run env sql effect db).1 = false ∧ (Database.run env sql effect db).2 = db) := by
  unfold Database.run
  split
  · cases effect db <;> simp
  · simp

theorem Init_of_initialized (E : Enums) (env : Env) (self : PublisherInfoDatabase)
    (h : self.initialized_ = true) : Init E env self = (true, self) := by
  unfold Init
  simp [h]

/-- One dependent write on an initialized handle keeps the store free of orphans,
provided a write that does not upsert the publisher finds the publisher row or
enforced foreign keys. -/
theorem Write_run_noOrphans (E : Enums) (env : Env) (w : Write) (self : PublisherInfoDatabase)
    (hinit : self.initialized_ = true) (hdep : w.isDependent = true)
    (h0 : self.db_.store.noOrphans)
    (hc : ∀ id, w.bareDependentId = some id →
      self.db_.foreign_keys = true ∨ self.db_.store.hasPublisher id = true) :
    (w.run E env self).2.initialized_ = true ∧ (w.run E env self).2.db_.store.noOrphans := by
  have hI := Init_of_initialized E env self hinit
  cases w with
  | publisherInfo info => simp [Write.isDependent] at hdep
  | removeRecurring k => simp [Write.isDependent] at hdep
  | contributionInfo info =>
    simp only [Write.run, InsertContributionInfo, hI]
    refine ⟨hinit, ?_⟩
    rcases run_cases env insertContributionSql (insertContributionEffect info) self.db_ with
      ⟨_, he⟩ | ⟨_, he⟩
    · exact insertContributionEffect_noOrphans info _ _ he h0 (hc _ rfl)
    · rw [he]; exact h0
  | mediaPublisherInfo media_key publisher_id =>
    simp only [Write.run, InsertOrUpdateMediaPublisherInfo, hI]
    refine ⟨hinit, ?_⟩
    rcases run_cases env replaceMediaSql (replaceMediaEffect media_key publisher_id) self.db_ with
      ⟨_, he⟩ | ⟨_, he⟩
    · exact replaceMediaEffect_noOrphans _ _ _ _ he h0 (hc _ rfl)
    · rw [he]; exact h0
  | recurringDonation info =>
    simp only [Write.run, InsertOrUpdateRecurringDonation, hI]
    refine ⟨hinit, ?_⟩
    rcases run_cases env replaceRecurringSql (replaceRecurringEffect info) self.db_ with
      ⟨_, he⟩ | ⟨_, he⟩
    · exact replaceRecurringEffect_noOrphans info _ _ he h0 (hc _ rfl)
    · rw [he]; exact h0
  | activityInfo info =>
    simp only [Write.run, InsertOrUpdateActivityInfo, hI]
    rcases run_cases env ignorePublisherSql (ignorePublisherEffect info) self.db_ with
      ⟨hok, he⟩ | ⟨hok, he⟩
    · obtain ⟨hp, hmono, ha, hcn, hm, hr, _⟩ := ignorePublisherEffect_spec info _ _ he
      have h1 := noOrphans_of_same_dependents _ _ h0 hmono ha hcn hm hr
      rw [pair_of_fst_true _ hok]
      dsimp only
      refine ⟨hinit, ?_⟩
      rcases run_cases env replaceActivitySql (replaceActivityEffect info)
          (Database.run env ignorePublisherSql (ignorePublisherEffect info) self.db_).2 with
        ⟨_, he2⟩ | ⟨_, he2⟩
      · exact replaceActivityEffect_noOrphans info _ _ he2 h1 hp
      · rw [he2]; exact h1
    · have hpair : Database.run env ignorePublisherSql (ignorePublisherEffect info) self.db_
          = (false, self.db_) := Prod.ext hok he
      rw [hpair]
      exact ⟨hinit, h0⟩

theorem runWrites_cons (E : Enums) (env : Env) (w : Write) (ws : List Write)
    (self : PublisherInfoDatabase) :
    runWrites E env (w :: ws) self = runWrites E env ws (w.run E env self).2 := rfl

theorem runWrites_noOrphans (E : Enums) (env : Env) : ∀ (ws : List Write)
    (self : PublisherInfoDatabase), self.initialized_ = true →
    (∀ w ∈ ws, w.isDependent = true) → self.db_.store.noOrphans →
    (∀ pre w post id, ws = pre ++ w :: post → w.bareDependentId = some id →
      (runWrites E env pre self).db_.foreign_keys = true ∨
      (runWrites E env pre self).db_.store.hasPublisher id = true) →
    (runWrites E env ws self).db_.store.noOrphans := by
  intro ws
  induction ws with
  | nil => intro self _ _ h0 _; exact h0
  | cons w ws ih =>
    intro self hinit hdep h0 hc
    have hstep := Write_run_noOrphans E env w self hinit (hdep w (List.mem_cons_self _ _)) h0
      (fun id hid => hc [] w ws id rfl hid)
    rw [runWrites_cons]
    apply ih _ hstep.1 (fun x hx => hdep x (List.mem_cons_of_mem _ hx)) hstep.2
    intro pre x post id hws hid
    have := hc (w :: pre) x post id (by rw [hws]; rfl) hid
    rwa [runWrites_cons] at this

theorem replaceActivityEffect_hasPublisher (info : PublisherInfo) (d d' : Database)
    (h : replaceActivityEffect info d = some d') (id : String) :
    d'.store.hasPublisher id = d.store.hasPublisher id := by
  unfold replaceActivityEffect at h
  split at h
  · split at h <;> simp at h
    subst h; rfl
  · simp at h

/-- C9, the claim as stated fails: on an initialized store with the fresh schema and
no row at all, `InsertContributionInfo` for `a.com` succeeds, leaves
`publisher_info` empty (it upserts no publisher row) and so leaves a contribution
row whose publisher has no `publisher_info` row. -/
theorem contribution_write_creates_orphan :
    (readyOn freshStore).db_.store.noOrphans ∧
    (InsertContributionInfo upstreamEnums Env.ideal contributionA (readyOn freshStore)).1 = true ∧
    (InsertContributionInfo upstreamEnums Env.ideal contributionA
      (readyOn freshStore)).2.db_.store.publisher_info = some [] ∧
    ¬ (InsertContributionInfo upstreamEnums Env.ideal contributionA
      (readyOn freshStore)).2.db_.store.noOrphans := by
  decide

/-- C9 (amended): on an initialized store, `InsertOrUpdateActivityInfo` upserts
(insert-or-ignore) the `publisher_info` row of its publisher before it writes the
activity row, so after a successful call that publisher has a row; the other three
dependent writes write the dependent row only.  Starting from a store with no
orphans, after any sequence of the four dependent writes in which each
`InsertContributionInfo`, `InsertOrUpdateMediaPublisherInfo` and
`InsertOrUpdateRecurringDonation` runs when its publisher already has a
`publisher_info` row or the connection enforces foreign keys, every dependent row's
publisher id has a `publisher_info` row. -/
theorem dependent_writes_keep_no_orphans (E : Enums) (env : Env) (ws : List Write)
    (self : PublisherInfoDatabase) (hinit : self.initialized_ = true)
    (hdep : ∀ w ∈ ws, w.isDependent = true) (h0 : self.db_.store.noOrphans)
    (hc : ∀ pre w post id, ws = pre ++ w :: post → w.bareDependentId = some id →
      (runWrites E env pre self).db_.foreign_keys = true ∨
      (runWrites E env pre self).db_.store.hasPublisher id = true) :
    (runWrites E env ws self).db_.store.noOrphans ∧
    (∀ info, (InsertOrUpdateActivityInfo E env info self).1 = true →
      (InsertOrUpdateActivityInfo E env info self).2.db_.store.hasPublisher info.id = true) := by
  refine ⟨runWrites_noOrphans E env ws self hinit hdep h0 hc, ?_⟩
  intro info
  simp only [InsertOrUpdateActivityInfo, Init_of_initialized E env self hinit]
  rcases run_cases env ignorePublisherSql (ignorePublisherEffect info) self.db_ with
    ⟨hok, he⟩ | ⟨hok, he⟩
  · have hp := (ignorePublisherEffect_spec info _ _ he).1
    rw [pair_of_fst_true _ hok]
    dsimp only
    intro hres
    rcases run_cases env replaceActivitySql (replaceActivityEffect info)
        (Database.run env ignorePublisherSql (ignorePublisherEffect info) self.db_).2 with
      ⟨_, he2⟩ | ⟨hf, _⟩
    · rw [replaceActivityEffect_hasPublisher info _ _ he2]; exact hp
    · rw [hf] at hres; simp at hres
  · have hpair : Database.run env ignorePublisherSql (ignorePublisherEffect info) self.db_
        = (false, self.db_) := Prod.ext hok he
    rw [hpair]
    simp

/-- C9 (amended), instance: an activity write for `a.com` followed by a contribution
write for `a.com`, on the fresh schema without enforced foreign keys. -/
theorem dependent_writes_keep_no_orphans_witness :
    (readyOn freshStore).initialized_ = true ∧
    (readyOn freshStore).db_.store.noOrphans ∧
    (runWrites upstreamEnums Env.ideal [.activityInfo recordA, .contributionInfo contributionA]
      (readyOn freshStore)).db_.store.noOrphans :=
  ⟨by decide, by decide,
   (dependent_writes_keep_no_orphans upstreamEnums Env.ideal
      [.activityInfo recordA, .contributionInfo contributionA] (readyOn freshStore)
      (by decide) (by decide) (by decide)
      (by
        intro pre w post id hws hid
        match pre, hws with
        | [], h =>
          simp only [List.nil_append, List.cons.injEq] at h
          obtain ⟨rfl, _⟩ := h
          simp [Write.bareDependentId] at hid
        | [p], h =>
          simp only [List.cons_append, List.nil_append, List.cons.injEq] at h
          obtain ⟨rfl, rfl, _⟩ := h
          simp only [Write.bareDependentId, Option.some.injEq] at hid
          subst hid
          right
          decide
        | _ :: _ :: _ :: _, h => simp at h
        | [_, _], h => simp at h)).1⟩

/-! ## Round trip of an activity record -/

theorem paramAt_enumFrom (vals : List BindValue) : ∀ (k j : Nat),
    paramAt (vals.enumFrom k) j = if j < k then none else vals[j - k]? := by
  induction vals with
  | nil => intro k j; simp [paramAt]
  | cons v vs ih =>
    intro k j
    have ih' := ih (k + 1) j
    simp only [paramAt] at ih' ⊢
    simp only [List.enumFrom_cons, List.find?_cons]
    by_cases hkj : k = j
    · subst hkj
      simp
    · have hne : ((k, v).1 == j) = false := by simpa using hkj
      rw [hne]
      simp only
      rw [ih']
      by_cases hlt : j < k
      · have : j < k + 1 := by omega
        simp [hlt, this]
      · have h1 : ¬ j < k + 1 := by omega
        have h2 : j - k = (j - (k + 1)) + 1 := by omega
        simp only [hlt, h1, if_false]
        rw [h2, List.getElem?_cons_succ]

theorem whereHolds_aux (r : JoinedRow) (cs : List (String × BindValue)) :
    ∀ (pre : List BindValue),
      ((cs.map Prod.fst).enumFrom pre.length).all
        (fun p => evalPredicate p.2 ((pre ++ cs.map Prod.snd)[p.1]?) r) =
      cs.all (fun c => evalPredicate c.1 (some c.2) r) := by
  induction cs with
  | nil => intro pre; simp
  | cons c cs ih =>
    intro pre
    have := ih (pre ++ [c.2])
    simp only [List.length_append, List.length_singleton, List.append_assoc,
      List.singleton_append] at this
    have hget : (pre ++ c.2 :: cs.map Prod.snd)[pre.length]? = some c.2 := by
      rw [List.getElem?_append_right (Nat.le_refl _)]
      simp
    simp only [List.map_cons, List.enumFrom_cons, List.all_cons, this, hget]

theorem whereHolds_enum (r : JoinedRow) (cs : List (String × BindValue)) :
    whereHolds (cs.map Prod.fst) ((cs.map Prod.snd).enum) r =
      cs.all (fun c => evalPredicate c.1 (some c.2) r) := by
  have h := whereHolds_aux r cs []
  simp only [List.length_nil, List.nil_append] at h
  rw [← h]
  unfold whereHolds
  simp only [List.enum]
  congr 1
  funext p
  rw [paramAt_enumFrom]
  simp

/-- The `WHERE` condition of the built statement, read on the clauses of the filter. -/
theorem whereHolds_filter (E : Enums) (f : PublisherInfoFilter) (r : JoinedRow) :
    whereHolds ((specClauses E f).map Prod.fst) (bindFilter E f).bound r =
      (specClauses E f).all (fun c => evalPredicate c.1 (some c.2) r) := by
  rw [bindFilter_eq, whereHolds_enum]

theorem evalPredicate_id (p : BindValue) (r : JoinedRow) :
    evalPredicate " AND ai.publisher_id = ?" (some p) r
      = (SqlValue.text r.ai.publisher_id == p.toSql) := rfl

theorem evalPredicate_month (p : BindValue) (r : JoinedRow) :
    evalPredicate " AND ai.month = ?" (some p) r = (SqlValue.integer r.ai.month == p.toSql) := rfl

theorem evalPredicate_year (p : BindValue) (r : JoinedRow) :
    evalPredicate " AND ai.year = ?" (some p) r = (SqlValue.integer r.ai.year == p.toSql) := rfl

theorem evalPredicate_stamp (p : BindValue) (r : JoinedRow) :
    evalPredicate " AND ai.reconcile_stamp = ?" (some p) r
      = (SqlValue.integer r.ai.reconcile_stamp == p.toSql) := rfl

theorem evalPredicate_duration (p : BindValue) (r : JoinedRow) :
    evalPredicate " AND ai.duration >= ?" (some p) r
      = (match p.toSql with
         | .integer v => decide (v ≤ r.ai.duration)
         | _ => false) := rfl

theorem evalPredicate_excluded (p : BindValue) (r : JoinedRow) :
    evalPredicate " AND pi.excluded = ?" (some p) r
      = (SqlValue.integer r.pi.excluded == p.toSql) := rfl

theorem evalPredicate_not_excluded (p : BindValue) (r : JoinedRow) :
    evalPredicate " AND pi.excluded != ?" (some p) r
      = (SqlValue.integer r.pi.excluded != p.toSql) := rfl

theorem specClauses_keyFilter (E : Enums) (R : PublisherInfo)
    (hE : E.FILTER_ALL ≠ E.FILTER_ALL_EXCEPT_EXCLUDED) (hid : R.id ≠ "") :
    specClauses E (keyFilter E R) =
      (" AND ai.publisher_id = ?", BindValue.string R.id) ::
      ((if R.month ≠ E.ANY then [(" AND ai.month = ?", BindValue.int R.month)] else []) ++
       ((if R.year > 0 then [(" AND ai.year = ?", BindValue.int R.year)] else []) ++
        (if R.reconcile_stamp > 0 then
          [(" AND ai.reconcile_stamp = ?", BindValue.int64 R.reconcile_stamp)] else []))) := by
  simp [specClauses, fieldClauses, exclusionClause, keyFilter, hE, hid]

theorem whereHolds_keyFilter_id (E : Enums) (R : PublisherInfo) (r : JoinedRow)
    (hE : E.FILTER_ALL ≠ E.FILTER_ALL_EXCEPT_EXCLUDED) (hid : R.id ≠ "")
    (h : whereHolds ((specClauses E (keyFilter E R)).map Prod.fst)
      (bindFilter E (keyFilter E R)).bound r = true) :
    r.ai.publisher_id = R.id := by
  rw [whereHolds_filter, specClauses_keyFilter E R hE hid] at h
  simp only [List.all_cons, Bool.and_eq_true] at h
  have h1 := h.1
  rw [evalPredicate_id] at h1
  simpa [BindValue.toSql] using h1

theorem whereHolds_keyFilter_self (E : Enums) (R : PublisherInfo) (p : PublisherRow)
    (hE : E.FILTER_ALL ≠ E.FILTER_ALL_EXCEPT_EXCLUDED) (hid : R.id ≠ "") :
    whereHolds ((specClauses E (keyFilter E R)).map Prod.fst)
      (bindFilter E (keyFilter E R)).bound { ai := activityRowOf R, pi := p } = true := by
  rw [whereHolds_filter, specClauses_keyFilter E R hE hid]
  simp only [List.all_append, List.all_cons, Bool.and_eq_true]
  refine ⟨?_, ?_, ?_, ?_⟩
  · rw [evalPredicate_id]; simp [BindValue.toSql, activityRowOf]
  · split
    · simp only [List.all_cons, List.all_nil, Bool.and_true]
      rw [evalPredicate_month]; simp [BindValue.toSql, activityRowOf]
    · rfl
  · split
    · simp only [List.all_cons, List.all_nil, Bool.and_true]
      rw [evalPredicate_year]; simp [BindValue.toSql, activityRowOf]
    · rfl
  · split
    · simp only [List.all_cons, List.all_nil, Bool.and_true]
      rw [evalPredicate_stamp]; simp [BindValue.toSql, activityRowOf]
    · rfl

theorem mem_insertByKey (a x : ActivityRow) :
    ∀ l : List ActivityRow, x ∈ insertByKey a l ↔ x = a ∨ x ∈ l := by
  intro l
  induction l with
  | nil => simp [insertByKey]
  | cons b bs ih =>
    unfold insertByKey
    split
    · simp
    · simp only [List.mem_cons, ih]
      tauto

theorem mem_sortByKey (x : ActivityRow) : ∀ l : List ActivityRow, x ∈ sortByKey l ↔ x ∈ l := by
  intro l
  induction l with
  | nil => simp [sortByKey]
  | cons a rest ih =>
    simp only [sortByKey, mem_insertByKey, ih, List.mem_cons]

/-- The scan reads rows of the table only. -/
theorem mem_scanActivity (f : PublisherInfoFilter) (t : ActivityTable) (x : ActivityRow)
    (h : x ∈ scanActivity f t) : x ∈ t.rows := by
  unfold scanActivity at h
  split at h
  · rw [mem_sortByKey] at h
    exact (List.mem_filter.mp h).1
  · exact h

/-- Without an id in the filter the scan is the table in storage order. -/
theorem scanActivity_unset (f : PublisherInfoFilter) (t : ActivityTable) (h : f.id = "") :
    scanActivity f t = t.rows := by
  unfold scanActivity
  rw [if_neg]
  intro hc
  exact hc.1 h

theorem readRow_of_record (R : PublisherInfo)
    (hd : 0 ≤ R.duration ∧ R.duration < 2147483648)
    (hp : 0 ≤ R.percent ∧ R.percent < 4294967296)
    (hs : 0 ≤ R.reconcile_stamp ∧ R.reconcile_stamp < 18446744073709551616)
    (hm : -2147483648 ≤ R.month ∧ R.month < 2147483648)
    (hy : -2147483648 ≤ R.year ∧ R.year < 2147483648)
    (he : -2147483648 ≤ R.excluded ∧ R.excluded < 2147483648)
    (hsc : storedReal R.score = R.score) (hwt : storedReal R.weight = R.weight) :
    readRow { ai := activityRowOf R, pi := publisherRowOf R } = R := by
  obtain ⟨id, duration, score, percent, weight, excluded, reconcile_stamp, verified, name, url,
    provider, favicon_url, month, year⟩ := R
  simp only at hd hp hs hm hy he hsc hwt
  simp only [readRow, activityRowOf, publisherRowOf, PublisherInfo.mk.injEq, true_and, and_true,
    hsc, hwt]
  unfold toUInt64 toUInt32 toInt64 toInt32
  refine ⟨?_, ?_, ?_, ?_, ?_, ?_⟩ <;> omega

theorem mem_joinRows (activity : List ActivityRow) (publishers : List PublisherRow)
    (x : JoinedRow) (h : x ∈ joinRows activity publishers) : x.ai ∈ activity := by
  unfold joinRows at h
  simp only [List.mem_flatMap, List.mem_map, List.mem_filter] at h
  obtain ⟨a, ha, p, _, rfl⟩ := h
  exact ha

theorem joinRows_append (xs ys : List ActivityRow) (publishers : List PublisherRow) :
    joinRows (xs ++ ys) publishers = joinRows xs publishers ++ joinRows ys publishers := by
  simp [joinRows, List.flatMap_append]

theorem joinRows_single_new (a : ActivityRow) (rows : List PublisherRow) (p : PublisherRow)
    (hrows : rows.any (fun r => r.publisher_id == a.publisher_id) = false)
    (hp : p.publisher_id = a.publisher_id) :
    joinRows [a] (rows ++ [p]) = [{ ai := a, pi := p }] := by
  have hnone : rows.filter (fun r => r.publisher_id == a.publisher_id) = [] := by
    rw [List.filter_eq_nil_iff]
    intro r hr hmatch
    have : rows.any (fun r => r.publisher_id == a.publisher_id) = true :=
      List.any_eq_true.mpr ⟨r, hr, hmatch⟩
    rw [hrows] at this
    exact Bool.false_ne_true this
  simp [joinRows, List.filter_append, hnone, hp]

/-- The store after a successful `InsertOrUpdateActivityInfo` for a publisher that
had no `publisher_info` row: the publisher row and the activity row of the record are
appended, the rows with the same `activity_unique` key are gone. -/
theorem InsertOrUpdateActivityInfo_new_publisher (E : Enums) (env : Env) (R : PublisherInfo)
    (self : PublisherInfoDatabase) (hinit : self.initialized_ = true)
    (hnew : self.db_.store.hasPublisher R.id = false)
    (hwrite : (InsertOrUpdateActivityInfo E env R self).1 = true) :
    ∃ rows t, self.db_.store.publisher_info = some rows ∧
      self.db_.store.activity_info = some t ∧
      rows.any (fun r => r.publisher_id == R.id) = false ∧
      migrateColumns.all (fun c => t.columns.contains c) = true ∧
      self.db_.is_open = true ∧
      (InsertOrUpdateActivityInfo E env R self).2 =
        { self with db_ := { self.db_ with store := { self.db_.store with
            publisher_info := some (rows ++ [publisherRowOf R])
            activity_info := some { t with
              rows := (if t.activity_unique then
                  t.rows.filter (fun r => activityKey r != activityKey (activityRowOf R))
                else t.rows) ++ [activityRowOf R] } } } } := by
  have hI := Init_of_initialized E env self hinit
  simp only [InsertOrUpdateActivityInfo, hI] at hwrite ⊢
  have hopen : self.db_.is_open = true := by
    by_contra hc
    simp [Database.run, hc] at hwrite
  rcases run_cases env ignorePublisherSql (ignorePublisherEffect R) self.db_ with
    ⟨hok, he⟩ | ⟨hok, he⟩
  · rw [pair_of_fst_true _ hok] at hwrite ⊢
    dsimp only at hwrite ⊢
    -- the publisher statement
    cases hpub : self.db_.store.publisher_info with
    | none => simp [ignorePublisherEffect, hpub] at he
    | some rows =>
      have hany : rows.any (fun r => r.publisher_id == R.id) = false := by
        simpa [Store.hasPublisher, hpub] using hnew
      have he' : (Database.run env ignorePublisherSql (ignorePublisherEffect R) self.db_).2 =
          self.db_.withStore { self.db_.store with
            publisher_info := some (rows ++ [publisherRowOf R]) } := by
        have : ignorePublisherEffect R self.db_ = some (self.db_.withStore
            { self.db_.store with publisher_info := some (rows ++ [publisherRowOf R]) }) := by
          simp only [ignorePublisherEffect, hpub, hany]
          simp
        rw [this] at he
        exact (Option.some.inj he).symm
      rw [he'] at hwrite ⊢
      -- the activity statement
      have hfk : Database.fkAllows (self.db_.withStore { self.db_.store with
          publisher_info := some (rows ++ [publisherRowOf R]) }) R.id = true := by
        simp [Database.fkAllows, Database.withStore, Store.hasPublisher, publisherRowOf]
      have hcases := run_cases env replaceActivitySql (replaceActivityEffect R)
          (self.db_.withStore { self.db_.store with
            publisher_info := some (rows ++ [publisherRowOf R]) })
      generalize Database.run env replaceActivitySql (replaceActivityEffect R)
          (self.db_.withStore { self.db_.store with
            publisher_info := some (rows ++ [publisherRowOf R]) }) = res at hcases hwrite ⊢
      rcases hcases with ⟨_, he2⟩ | ⟨hf, _⟩
      · cases hact : self.db_.store.activity_info with
        | none => simp [replaceActivityEffect, Database.withStore, hact] at he2
        | some t =>
          unfold replaceActivityEffect at he2
          simp only [Database.withStore, hact] at he2 hfk
          cases hcols : migrateColumns.all (fun c => t.columns.contains c) with
          | false =>
            rw [hcols] at he2
            simp at he2
          | true =>
            refine ⟨rows, t, rfl, rfl, hany, hcols, hopen, ?_⟩
            rw [hcols, hfk] at he2
            simp only [Bool.and_self, if_true] at he2
            rw [← Option.some.inj he2]
      · rw [hf] at hwrite
        simp at hwrite
  · have hpair : Database.run env ignorePublisherSql (ignorePublisherEffect R) self.db_
        = (false, self.db_) := Prod.ext hok he
    rw [hpair] at hwrite
    simp at hwrite

theorem GetPublisherActivityList_of_initialized (E : Enums) (env : Env) (start limit : Int)
    (f : PublisherInfoFilter) (list : List PublisherInfo) (self : PublisherInfoDatabase)
    (h : self.initialized_ = true) :
    GetPublisherActivityList E env start limit f list self =
      (true, list ++ (stepRows E env start limit f self.db_).map readRow, self) := by
  unfold GetPublisherActivityList
  rw [Init_of_initialized E env self h]

/-- C10, the claim as stated fails.  (1) A record with duration 2^31 comes back with
duration 2^64 - 2^31: `static_cast<int>` narrows the value before `BindInt64`.
(2) A record with the empty id, written to a store that holds another publisher's
row for the same period, comes back together with that row: the empty id counts as
"no id" in the filter.  (3) A record with reconcile stamp 0, written to a store that
holds an activity row of the same publisher without its publisher row, comes back
together with that row: the stamp 0 counts as "no stamp" in the filter.  (4) A
record whose score is a NaN comes back with score 0, and one whose weight is the
negative zero with weight +0: the engine stores neither value. -/
theorem round_trip_breaks_on_wide_duration_or_unset_key :
    (GetPublisherActivityList upstreamEnums Env.ideal 0 0
        (keyFilter upstreamEnums { recordA with duration := 2147483648 }) []
        (InsertOrUpdateActivityInfo upstreamEnums Env.ideal
          { recordA with duration := 2147483648 } (readyOn freshStore)).2).2.1
      = [{ recordA with duration := 18446744071562067968 }] ∧
    (readyOn storeWithB).db_.store.hasPublisher "" = false ∧
    ((GetPublisherActivityList upstreamEnums Env.ideal 0 0
        (keyFilter upstreamEnums { recordA with id := "" }) []
        (InsertOrUpdateActivityInfo upstreamEnums Env.ideal
          { recordA with id := "" } (readyOn storeWithB)).2).2.1).length = 2 ∧
    (readyOn storeWithOrphan).db_.store.hasPublisher "a.com" = false ∧
    ((GetPublisherActivityList upstreamEnums Env.ideal 0 0
        (keyFilter upstreamEnums { recordA with reconcile_stamp := 0 }) []
        (InsertOrUpdateActivityInfo upstreamEnums Env.ideal
          { recordA with reconcile_stamp := 0 } (readyOn storeWithOrphan)).2).2.1).length = 2 ∧
    ((GetPublisherActivityList upstreamEnums Env.ideal 0 0
        (keyFilter upstreamEnums { recordA with score := quietNaN }) []
        (InsertOrUpdateActivityInfo upstreamEnums Env.ideal
          { recordA with score := quietNaN } (readyOn freshStore)).2).2.1.map
        (fun rec => rec.score)) = [{ bits := 0 }] ∧
    ((GetPublisherActivityList upstreamEnums Env.ideal 0 0
        (keyFilter upstreamEnums { recordA with weight := negativeZero }) []
        (InsertOrUpdateActivityInfo upstreamEnums Env.ideal
          { recordA with weight := negativeZero } (readyOn freshStore)).2).2.1.map
        (fun rec => rec.weight)) = [{ bits := 0 }] := by
  decide

/-- C10 (amended): for every activity record R with a non-empty id, a duration
below 2^31 (the other integer fields anywhere in the range of their types) and a
score and a weight that are neither NaN nor the negative zero, written successfully
by `InsertOrUpdateActivityInfo` to an initialized store that has no orphans and no
publisher row for R.id, `GetPublisherActivityList` filtered on R's id, month, year
and reconcile stamp (nothing else set, no sort key, no limit) returns exactly one
record, and that record equals R in every field. -/
theorem activity_round_trip (E : Enums) (env : Env) (R : PublisherInfo)
    (self : PublisherInfoDatabase)
    (hE : E.FILTER_ALL ≠ E.FILTER_ALL_EXCEPT_EXCLUDED)
    (hinit : self.initialized_ = true) (h0 : self.db_.store.noOrphans)
    (hnew : self.db_.store.hasPublisher R.id = false)
    (hwrite : (InsertOrUpdateActivityInfo E env R self).1 = true)
    (hquery : env.exec_ok (buildQuery E 0 0 (keyFilter E R)) = true)
    (hid : R.id ≠ "")
    (hd : 0 ≤ R.duration ∧ R.duration < 2147483648)
    (hp : 0 ≤ R.percent ∧ R.percent < 4294967296)
    (hs : 0 ≤ R.reconcile_stamp ∧ R.reconcile_stamp < 18446744073709551616)
    (hm : -2147483648 ≤ R.month ∧ R.month < 2147483648)
    (hy : -2147483648 ≤ R.year ∧ R.year < 2147483648)
    (he : -2147483648 ≤ R.excluded ∧ R.excluded < 2147483648)
    (hsc : storedReal R.score = R.score) (hwt : storedReal R.weight = R.weight) :
    GetPublisherActivityList E env 0 0 (keyFilter E R) []
        (InsertOrUpdateActivityInfo E env R self).2 =
      (true, [R], (InsertOrUpdateActivityInfo E env R self).2) := by
  obtain ⟨rows, t, hpub, hact, hany, hcols, hopen, hstate⟩ :=
    InsertOrUpdateActivityInfo_new_publisher E env R self hinit hnew hwrite
  rw [hstate]
  -- no activity row of the old table carries the id of R
  have hold : ∀ a ∈ t.rows, a.publisher_id ≠ R.id := by
    intro a ha heq
    have := ((noOrphans_iff _).mp h0).1 t hact a ha
    rw [heq, hnew] at this
    exact Bool.false_ne_true this
  generalize hkept : (if t.activity_unique then
      t.rows.filter (fun r => activityKey r != activityKey (activityRowOf R))
    else t.rows) = kept
  have hkeptold : ∀ a ∈ kept, a.publisher_id ≠ R.id := by
    intro a ha
    apply hold
    subst hkept
    split at ha
    · exact (List.mem_filter.mp ha).1
    · exact ha
  have hrows : stepRows E env 0 0 (keyFilter E R)
      { self.db_ with store := { self.db_.store with
          publisher_info := some (rows ++ [publisherRowOf R])
          activity_info := some { t with rows := kept ++ [activityRowOf R] } } } =
      [{ ai := activityRowOf R, pi := publisherRowOf R }] := by
    unfold stepRows
    simp only [hopen, hquery, Bool.and_self, if_true, hcols]
    have hord : (keyFilter E R).order_by = [] := rfl
    rw [hord]
    simp only [applyLimit, lt_self_iff_false, gt_iff_lt, if_false]
    have h1 : (joinRows kept (rows ++ [publisherRowOf R])).filter
        (whereHolds ((specClauses E (keyFilter E R)).map Prod.fst)
          (bindFilter E (keyFilter E R)).bound) = [] := by
      rw [List.filter_eq_nil_iff]
      intro x hx hw
      exact hkeptold x.ai (mem_joinRows _ _ x hx) (whereHolds_keyFilter_id E R x hE hid hw)
    have h2 : joinRows [activityRowOf R] (rows ++ [publisherRowOf R]) =
        [{ ai := activityRowOf R, pi := publisherRowOf R }] :=
      joinRows_single_new _ _ _ hany rfl
    unfold scanActivity
    split
    · -- the engine walks the index of the constraint for the id of R
      have hnone : kept.filter (fun r => r.publisher_id == (keyFilter E R).id) = [] := by
        rw [List.filter_eq_nil_iff]
        intro a ha
        simpa [keyFilter] using hkeptold a ha
      have hf : (kept ++ [activityRowOf R]).filter
          (fun r => r.publisher_id == (keyFilter E R).id) = [activityRowOf R] := by
        rw [List.filter_append, hnone]
        simp [keyFilter, activityRowOf]
      dsimp only
      rw [hf]
      simp only [sortByKey, insertByKey]
      rw [h2]
      simp [whereHolds_keyFilter_self E R _ hE hid]
    · dsimp only
      rw [joinRows_append, List.filter_append, h1, h2]
      simp [whereHolds_keyFilter_self E R _ hE hid]
  rw [GetPublisherActivityList_of_initialized]
  · simp only [hrows, List.map_cons, List.map_nil, List.nil_append,
      readRow_of_record R hd hp hs hm hy he hsc hwt]
  · exact hinit

/-- C10 (amended), instance: `recordA` on the fresh schema. -/
theorem activity_round_trip_witness :
    (GetPublisherActivityList upstreamEnums Env.ideal 0 0 (keyFilter upstreamEnums recordA) []
        (InsertOrUpdateActivityInfo upstreamEnums Env.ideal recordA (readyOn freshStore)).2).2.1
      = [recordA] :=
  congrArg (fun x => x.2.1)
    (activity_round_trip upstreamEnums Env.ideal recordA (readyOn freshStore)
      (by decide) (by decide) (by decide) (by decide) (by decide) (by decide) (by decide)
      (by decide) (by decide) (by decide) (by decide) (by decide) (by decide) (by decide)
      (by decide))

/-! ## A store that is too new, in general -/

theorem EnsureCurrentVersion_too_new (E : Enums) (env : Env) (db : Database)
    (h : GetCompatibleVersionNumber db > GetCurrentVersion) :
    EnsureCurrentVersion E env db = (E.INIT_TOO_NEW, db) := by
  unfold EnsureCurrentVersion
  rw [if_pos h]

theorem meta_table_Init_too_new (env : Env) (db : Database)
    (h : GetCompatibleVersionNumber db > GetCurrentVersion) :
    (meta_table_Init env GetCurrentVersion kCompatibleVersionNumber db).2.store.metaTable
      = db.store.metaTable := by
  unfold meta_table_Init
  split
  · cases hm : db.store.metaTable with
    | none =>
      simp [GetCompatibleVersionNumber, hm, GetCurrentVersion, kCurrentVersionNumber] at h
    | some m => simp [hm]
  · rfl

/-- Whatever fails or does not fail, `Init` on an uninitialized handle whose file
records a compatible version above the current one commits nothing and leaves the
handle uninitialized (the enumerators `INIT_TOO_NEW` and `INIT_OK` being distinct). -/
theorem Init_too_new_commits_nothing (E : Enums) (env : Env) (self : PublisherInfoDatabase)
    (hE : E.INIT_TOO_NEW ≠ E.INIT_OK) (hinit : self.initialized_ = false)
    (hnew : GetCompatibleVersionNumber self.db_ > GetCurrentVersion) :
    (Init E env self).2.initialized_ = false ∧
    (Init E env self).2.db_.store = self.db_.store := by
  unfold Init
  simp only [hinit, Bool.false_eq_true, if_false]
  split
  · exact ⟨hinit, rfl⟩
  split
  · exact ⟨rfl, rfl⟩
  generalize hd0 : ({ is_open := true, foreign_keys := self.db_.foreign_keys, transaction_nesting := self.db_.transaction_nesting + 1, store := self.db_.store } : Database) = d0
  have hm0 : d0.store.metaTable = self.db_.store.metaTable := by subst hd0; rfl
  have hm1 := (meta_table_Init_too_new env d0
    (by rw [compat_of_keepsMeta _ _ hm0]; exact hnew)).trans hm0
  cases h1 : meta_table_Init env GetCurrentVersion kCompatibleVersionNumber d0 with
  | mk ok1 d1 =>
  rw [h1] at hm1
  cases ok1
  · exact ⟨rfl, rfl⟩
  dsimp only at hm1 ⊢
  have k2 := (CreatePublisherInfoTable_keepsMeta env d1).1
  cases h2 : CreatePublisherInfoTable env d1 with
  | mk ok2 d2 =>
  rw [h2] at k2
  cases ok2
  · exact ⟨rfl, rfl⟩
  dsimp only at k2 ⊢
  have k3 := (CreateContributionInfoTable_keepsMeta env d2).1
  cases h3 : CreateContributionInfoTable env d2 with
  | mk ok3 d3 =>
  rw [h3] at k3
  cases ok3
  · exact ⟨rfl, rfl⟩
  dsimp only at k3 ⊢
  have k4 := (CreateActivityInfoTable_keepsMeta env d3).1
  cases h4 : CreateActivityInfoTable env d3 with
  | mk ok4 d4 =>
  rw [h4] at k4
  cases ok4
  · exact ⟨rfl, rfl⟩
  dsimp only at k4 ⊢
  have k5 := (CreateMediaPublisherInfoTable_keepsMeta env d4).1
  cases h5 : CreateMediaPublisherInfoTable env d4 with
  | mk ok5 d5 =>
  rw [h5] at k5
  cases ok5
  · exact ⟨rfl, rfl⟩
  dsimp only at k5 ⊢
  have k6 := (CreateRecurringDonationTable_keepsMeta env d5).1
  cases h6 : CreateRecurringDonationTable env d5 with
  | mk ok6 d6 =>
  rw [h6] at k6
  cases ok6
  · exact ⟨rfl, rfl⟩
  dsimp only at k6 ⊢
  have k7 := (CreateContributionInfoIndex_keepsMeta env d6).1
  have k8 := (CreateActivityInfoIndex_keepsMeta env (CreateContributionInfoIndex env d6).2).1
  have k9 := (CreateRecurringDonationIndex_keepsMeta env
    (CreateActivityInfoIndex env (CreateContributionInfoIndex env d6).2).2).1
  generalize (CreateRecurringDonationIndex env
    (CreateActivityInfoIndex env (CreateContributionInfoIndex env d6).2).2).2 = d9 at k9 ⊢
  have hmeta9 : d9.store.metaTable = self.db_.store.metaTable :=
    k9.trans (k8.trans (k7.trans (k6.trans (k5.trans (k4.trans (k3.trans (k2.trans hm1)))))))
  rw [EnsureCurrentVersion_too_new E env d9 (by rw [compat_of_keepsMeta _ _ hmeta9]; exact hnew)]
  simp [hE, rollbackTo]

/-- When nothing fails, `Init` on a closed, uninitialized handle whose file records a
compatible version above the current one returns `true`, for every assignment of
the enumerators in which `INIT_TOO_NEW` is neither `INIT_OK` nor 0. -/
theorem Init_too_new_returns_true (E : Enums) (env : Env) (self : PublisherInfoDatabase)
    (hE : E.INIT_TOO_NEW ≠ E.INIT_OK) (hE0 : E.INIT_TOO_NEW ≠ 0)
    (hinit : self.initialized_ = false) (hclosed : self.db_.is_open = false)
    (ho : env.open_ok = true) (hb : env.begin_ok = true) (hm : env.meta_init_ok = true)
    (hx : ∀ sql, env.exec_ok sql = true)
    (hnew : GetCompatibleVersionNumber self.db_ > GetCurrentVersion) :
    (Init E env self).1 = true := by
  unfold Init
  simp only [hinit, hclosed, ho, hb, Bool.false_eq_true, if_false, Bool.not_false, Bool.and_self,
    Bool.not_true]
  generalize hd0 : ({ is_open := true, foreign_keys := self.db_.foreign_keys, transaction_nesting := self.db_.transaction_nesting + 1, store := self.db_.store } : Database) = d0
  have hopen0 : d0.is_open = true := by subst hd0; rfl
  have hm0 : d0.store.metaTable = self.db_.store.metaTable := by subst hd0; rfl
  have hm1 := (meta_table_Init_too_new env d0
    (by rw [compat_of_keepsMeta _ _ hm0]; exact hnew)).trans hm0
  have hok1 : (meta_table_Init env GetCurrentVersion kCompatibleVersionNumber d0).1 = true := by
    unfold meta_table_Init; rw [if_pos hm]; cases d0.store.metaTable <;> rfl
  have hopen1 := (meta_table_Init_keepsOpen env GetCurrentVersion kCompatibleVersionNumber d0).trans
    hopen0
  rw [pair_of_fst_true _ hok1]
  generalize (meta_table_Init env GetCurrentVersion kCompatibleVersionNumber d0).2 = d1
    at hm1 hopen1 ⊢
  dsimp only
  have k2 := CreatePublisherInfoTable_keepsMeta env d1
  rw [pair_of_fst_true _ (CreatePublisherInfoTable_ok env d1 hopen1 hx)]
  generalize (CreatePublisherInfoTable env d1).2 = d2 at k2 ⊢
  dsimp only
  have hopen2 := k2.2.trans hopen1
  have k3 := CreateContributionInfoTable_keepsMeta env d2
  rw [pair_of_fst_true _ (CreateContributionInfoTable_ok env d2 hopen2 hx)]
  generalize (CreateContributionInfoTable env d2).2 = d3 at k3 ⊢
  dsimp only
  have hopen3 := k3.2.trans hopen2
  have k4 := CreateActivityInfoTable_keepsMeta env d3
  rw [pair_of_fst_true _ (CreateActivityInfoTable_ok env d3 hopen3 hx)]
  generalize (CreateActivityInfoTable env d3).2 = d4 at k4 ⊢
  dsimp only
  have hopen4 := k4.2.trans hopen3
  have k5 := CreateMediaPublisherInfoTable_keepsMeta env d4
  rw [pair_of_fst_true _ (CreateMediaPublisherInfoTable_ok env d4 hopen4 hx)]
  generalize (CreateMediaPublisherInfoTable env d4).2 = d5 at k5 ⊢
  dsimp only
  have hopen5 := k5.2.trans hopen4
  have k6 := CreateRecurringDonationTable_keepsMeta env d5
  rw [pair_of_fst_true _ (CreateRecurringDonationTable_ok env d5 hopen5 hx)]
  generalize (CreateRecurringDonationTable env d5).2 = d6 at k6 ⊢
  dsimp only
  have k7 := (CreateContributionInfoIndex_keepsMeta env d6).1
  have k8 := (CreateActivityInfoIndex_keepsMeta env (CreateContributionInfoIndex env d6).2).1
  have k9 := (CreateRecurringDonationIndex_keepsMeta env
    (CreateActivityInfoIndex env (CreateContributionInfoIndex env d6).2).2).1
  generalize (CreateRecurringDonationIndex env
    (CreateActivityInfoIndex env (CreateContributionInfoIndex env d6).2).2).2 = d9 at k9 ⊢
  have hmeta9 : d9.store.metaTable = self.db_.store.metaTable :=
    k9.trans (k8.trans (k7.trans (k6.1.trans (k5.1.trans (k4.1.trans (k3.1.trans
      (k2.1.trans hm1)))))))
  rw [EnsureCurrentVersion_too_new E env d9 (by rw [compat_of_keepsMeta _ _ hmeta9]; exact hnew)]
  simp [hE, hE0]

/-- For every store at version 1 that is not too new, in every environment,
`EnsureCurrentVersion` is `MigrateV2toV3` followed by the write of version 3:
`MigrateV1toV2` is not called. -/
theorem EnsureCurrentVersion_from_version_1 (E : Enums) (env : Env) (db : Database)
    (hcompat : GetCompatibleVersionNumber db ≤ GetCurrentVersion)
    (hv : GetVersionNumber db = 1) :
    EnsureCurrentVersion E env db =
      (E.INIT_OK, SetVersionNumber env 3 (MigrateV2toV3 env db).2) := by
  unfold EnsureCurrentVersion
  rw [if_neg (not_lt.mpr hcompat)]
  simp only [hv, GetCurrentVersion, kCurrentVersionNumber]
  norm_num

/-! ## `Init` step by step -/

theorem match_pair {β : Type} (p : Bool × Database) (F G : Database → β) :
    (match p with
      | (false, d) => F d
      | (true, d) => G d) = if p.1 = false then F p.2 else G p.2 := by
  obtain ⟨b, d⟩ := p
  cases b <;> rfl

theorem tables_chain {β : Type} (env : Env) (d : Database) (F G : Database → β) :
    (match CreatePublisherInfoTable env d with
      | (false, db) => F db
      | (true, db) =>
        match CreateContributionInfoTable env db with
        | (false, db) => F db
        | (true, db) =>
          match CreateActivityInfoTable env db with
          | (false, db) => F db
          | (true, db) =>
            match CreateMediaPublisherInfoTable env db with
            | (false, db) => F db
            | (true, db) =>
              match CreateRecurringDonationTable env db with
              | (false, db) => F db
              | (true, db) => G db) =
      if (createAllTables env d).1 = false then F (createAllTables env d).2
      else G (createAllTables env d).2 := by
  unfold createAllTables
  cases h2 : CreatePublisherInfoTable env d with
  | mk ok2 d2 =>
  cases ok2
  · rfl
  dsimp only
  cases h3 : CreateContributionInfoTable env d2 with
  | mk ok3 d3 =>
  cases ok3
  · rfl
  dsimp only
  cases h4 : CreateActivityInfoTable env d3 with
  | mk ok4 d4 =>
  cases ok4
  · rfl
  dsimp only
  cases h5 : CreateMediaPublisherInfoTable env d4 with
  | mk ok5 d5 =>
  cases ok5
  · rfl
  dsimp only
  cases h6 : CreateRecurringDonationTable env d5 with
  | mk ok6 d6 =>
  cases ok6 <;> rfl

/-- `Init` on an uninitialized handle, written with its steps named. -/
theorem Init_eq (E : Enums) (env : Env) (self : PublisherInfoDatabase)
    (hinit : self.initialized_ = false) :
    Init E env self =
      if !(env.open_ok && !self.db_.is_open) then (false, self)
      else if !env.begin_ok then (false, { self with db_ := { self.db_ with is_open := true } })
      else if (initMeta env self).1 = false then
        (false, { self with db_ := rollbackTo self.db_.store (initMeta env self).2 })
      else if (initTables env self).1 = false then
        (false, { self with db_ := rollbackTo self.db_.store (initTables env self).2 })
      else if (initVersionCheck E env self).1 ≠ E.INIT_OK then
        (decide ((initVersionCheck E env self).1 ≠ 0),
          { self with db_ := rollbackTo self.db_.store (initVersionCheck E env self).2 })
      else if !env.commit_ok then
        (false, { self with db_ := rollbackTo self.db_.store (initVersionCheck E env self).2 })
      else
        (true,
          { db_ := { (initVersionCheck E env self).2 with
              transaction_nesting := (initVersionCheck E env self).2.transaction_nesting - 1 }
            initialized_ := true }) := by
  unfold Init
  simp only [hinit, Bool.false_eq_true, if_false]
  split
  · rfl
  split
  · rfl
  refine (match_pair _ _ _).trans ?_
  have hM : meta_table_Init env GetCurrentVersion kCompatibleVersionNumber
      { is_open := true, foreign_keys := self.db_.foreign_keys, transaction_nesting := self.db_.transaction_nesting + 1, store := self.db_.store } = initMeta env self := rfl
  rw [hM]
  split
  · rfl
  refine (tables_chain env _ _ _).trans ?_
  have hT : createAllTables env (initMeta env self).2 = initTables env self := rfl
  rw [hT]
  split
  · rfl
  rfl

/-- C14, the claim as stated fails: on a closed handle over an empty file, when only
the commit fails (or only the begin of the transaction), the open, the meta-table
initialization, the five table creations and the version check all succeed, yet
`Init` commits nothing and leaves the handle uninitialized. -/
theorem commit_or_begin_failure_blocks_Init :
    (Env.commitFails.open_ok && !(closedOn Store.empty).db_.is_open) = true ∧
    (initMeta Env.commitFails (closedOn Store.empty)).1 = true ∧
    (initTables Env.commitFails (closedOn Store.empty)).1 = true ∧
    (initVersionCheck upstreamEnums Env.commitFails (closedOn Store.empty)).1
      = upstreamEnums.INIT_OK ∧
    (Init upstreamEnums Env.commitFails (closedOn Store.empty)).2.initialized_ = false ∧
    (Init upstreamEnums Env.commitFails (closedOn Store.empty)).2.db_.store = Store.empty ∧
    (Env.beginFails.open_ok && !(closedOn Store.empty).db_.is_open) = true ∧
    (initMeta Env.beginFails (closedOn Store.empty)).1 = true ∧
    (initTables Env.beginFails (closedOn Store.empty)).1 = true ∧
    (initVersionCheck upstreamEnums Env.beginFails (closedOn Store.empty)).1
      = upstreamEnums.INIT_OK ∧
    (Init upstreamEnums Env.beginFails (closedOn Store.empty)).2.initialized_ = false ∧
    (Init upstreamEnums Env.beginFails (closedOn Store.empty)).2.db_.store = Store.empty := by
  decide

/-- C14 (amended): on an uninitialized handle `Init` marks the store initialized if
and only if the open, the begin of the transaction, the meta-table initialization,
the five table creations, the version check and the commit all succeed; it then
returns `true` and the committed file content is the one the version check left.
On a failure of any of them nothing is committed (the file content is the one
before the call) and the store stays uninitialized.  The results of the index
creations are not among the conditions. -/
theorem Init_commits_iff_steps_succeed (E : Enums) (env : Env) (self : PublisherInfoDatabase)
    (hinit : self.initialized_ = false) :
    ((Init E env self).2.initialized_ = true ↔ initSucceeds E env self = true) ∧
    (initSucceeds E env self = true →
      Init E env self =
        (true,
          { db_ := { (initVersionCheck E env self).2 with
              transaction_nesting := (initVersionCheck E env self).2.transaction_nesting - 1 }
            initialized_ := true })) ∧
    (initSucceeds E env self = false →
      (Init E env self).2.db_.store = self.db_.store ∧
      (Init E env self).2.initialized_ = false) := by
  rw [Init_eq E env self hinit]
  unfold initSucceeds
  split_ifs with h1 h2 h3 h4 h5 h6 <;> simp_all [rollbackTo]
  · intro ho hc
    rcases h1 with h1 | h1
    · rw [h1] at ho; exact absurd ho (by decide)
    · rw [h1] at hc; exact absurd hc (by decide)

/-- C14 (amended), instance: a closed handle over an empty file, nothing failing. -/
theorem Init_commits_iff_steps_succeed_witness :
    (closedOn Store.empty).initialized_ = false ∧
    Init upstreamEnums Env.ideal (closedOn Store.empty) = (true, readyOn freshStore) :=
  ⟨by decide,
   ((Init_commits_iff_steps_succeed upstreamEnums Env.ideal (closedOn Store.empty)
      (by decide)).2.1 (by decide)).trans (by decide)⟩

/-! ## The version after `EnsureCurrentVersion` -/

theorem SetVersionNumber_version_cases (env : Env) (v : Int) (d : Database) :
    GetVersionNumber (SetVersionNumber env v d) = v ∨
    SetVersionNumber env v d = d := by
  unfold SetVersionNumber
  have hc := run_cases env metaSetSql (setVersionEffect v) d
  generalize Database.run env metaSetSql (setVersionEffect v) d = res at hc ⊢
  rcases hc with ⟨_, he⟩ | ⟨_, he⟩
  · left
    unfold setVersionEffect at he
    cases hm : d.store.metaTable with
    | none => simp [hm] at he
    | some m =>
      simp only [hm, Option.some.injEq] at he
      rw [← he]
      simp [GetVersionNumber, Database.withStore]
  · right; exact he

theorem version_of_keepsMeta (d d' : Database) (h : d'.store.metaTable = d.store.metaTable) :
    GetVersionNumber d' = GetVersionNumber d := by
  simp [GetVersionNumber, h]

/-- The shape of `EnsureCurrentVersion` on a store that is not too new: for a stored
version 1 or 2 it is `MigrateV2toV3` followed by the one write of the current
version; for any other stored version it does nothing. -/
theorem EnsureCurrentVersion_shape (E : Enums) (env : Env) (db : Database)
    (hcompat : GetCompatibleVersionNumber db ≤ GetCurrentVersion) :
    ((GetVersionNumber db = 1 ∨ GetVersionNumber db = 2) →
      EnsureCurrentVersion E env db =
        (E.INIT_OK, SetVersionNumber env GetCurrentVersion (MigrateV2toV3 env db).2)) ∧
    (GetVersionNumber db ≠ 1 → GetVersionNumber db ≠ 2 →
      EnsureCurrentVersion E env db = (E.INIT_OK, db)) := by
  unfold EnsureCurrentVersion
  rw [if_neg (not_lt.mpr hcompat)]
  constructor
  · rintro (hv | hv) <;>
      (simp only [hv, GetCurrentVersion, kCurrentVersionNumber]; norm_num)
  · intro h1 h2
    simp [h1, h2]

/-- C16: when `EnsureCurrentVersion` does not report too-new, a stored version 1 or
2 is written exactly once — the result is one `SetVersionNumber` of the current
version on a state whose `meta` table is still the one before the call — and it ends
equal to the current version 3 when that write goes through; for every other stored
version no migration step runs and nothing, the stored version included, changes. -/
theorem version_written_once_or_untouched (E : Enums) (env : Env) (db : Database)
    (hcompat : GetCompatibleVersionNumber db ≤ GetCurrentVersion) :
    ((GetVersionNumber db = 1 ∨ GetVersionNumber db = 2) →
      (∃ d, d.store.metaTable = db.store.metaTable ∧
        (EnsureCurrentVersion E env db).2 = SetVersionNumber env GetCurrentVersion d) ∧
      (db.is_open = true → env.exec_ok metaSetSql = true →
        GetVersionNumber (EnsureCurrentVersion E env db).2 = 3)) ∧
    (GetVersionNumber db ≠ 1 → GetVersionNumber db ≠ 2 →
      EnsureCurrentVersion E env db = (E.INIT_OK, db)) := by
  have hs := EnsureCurrentVersion_shape E env db hcompat
  refine ⟨?_, hs.2⟩
  intro hv
  have h3 := MigrateV2toV3_keepsMeta env db
  rw [hs.1 hv]
  refine ⟨⟨(MigrateV2toV3 env db).2, h3.1, rfl⟩, ?_⟩
  intro hopen hexec
  obtain ⟨m, hm⟩ : ∃ m, db.store.metaTable = some m := by
    cases h : db.store.metaTable with
    | none => simp [GetVersionNumber, h] at hv
    | some m => exact ⟨m, rfl⟩
  exact SetVersionNumber_version env 3 _ m (h3.2.trans hopen) hexec (h3.1.trans hm)

/-- C16, instances: the version-2 store ends at version 3; a store at version 0
(no `meta` row) is left as it is. -/
theorem version_written_once_or_untouched_witness :
    GetCompatibleVersionNumber (openOn version2StoreWithoutActivity) ≤ GetCurrentVersion ∧
    GetVersionNumber (EnsureCurrentVersion upstreamEnums Env.ideal
      (openOn version2StoreWithoutActivity)).2 = 3 ∧
    EnsureCurrentVersion upstreamEnums Env.ideal (openOn Store.empty)
      = (upstreamEnums.INIT_OK, openOn Store.empty) :=
  ⟨by decide,
   ((version_written_once_or_untouched upstreamEnums Env.ideal
      (openOn version2StoreWithoutActivity) (by decide)).1 (by decide)).2 (by decide) (by decide),
   (version_written_once_or_untouched upstreamEnums Env.ideal (openOn Store.empty)
      (by decide)).2 (by decide) (by decide)⟩

/-- C17: for every stored version, every environment and so every outcome of the
migration steps, the stored version after `EnsureCurrentVersion` is at least the
stored version before it. -/
theorem stored_version_never_lowered (E : Enums) (env : Env) (db : Database) :
    GetVersionNumber db ≤ GetVersionNumber (EnsureCurrentVersion E env db).2 := by
  by_cases hnew : GetCompatibleVersionNumber db > GetCurrentVersion
  · rw [EnsureCurrentVersion_too_new E env db hnew]
  · have hs := EnsureCurrentVersion_shape E env db (not_lt.mp hnew)
    by_cases hv : GetVersionNumber db = 1 ∨ GetVersionNumber db = 2
    · rw [hs.1 hv]
      have h3 := version_of_keepsMeta _ _ (MigrateV2toV3_keepsMeta env db).1
      rcases SetVersionNumber_version_cases env GetCurrentVersion (MigrateV2toV3 env db).2 with
        h | h
      · simp only at h ⊢
        rw [h]
        rcases hv with hv | hv <;> (rw [hv]; decide)
      · simp only at h ⊢
        rw [h, h3]
    · rw [hs.2 (fun h => hv (Or.inl h)) (fun h => hv (Or.inr h))]

theorem createAllTables_keepsMeta (env : Env) : KeepsMeta (createAllTables env) := by
  intro db
  exact keepsMeta_andThen _ _ (CreatePublisherInfoTable_keepsMeta env)
    (keepsMeta_andThen _ _ (CreateContributionInfoTable_keepsMeta env)
      (keepsMeta_andThen _ _ (CreateActivityInfoTable_keepsMeta env)
        (keepsMeta_andThen _ _ (CreateMediaPublisherInfoTable_keepsMeta env)
          (CreateRecurringDonationTable_keepsMeta env)))) db

theorem createAllIndexes_keepsMeta (env : Env) (db : Database) :
    (createAllIndexes env db).store.metaTable = db.store.metaTable ∧
    (createAllIndexes env db).is_open = db.is_open := by
  unfold createAllIndexes
  have k7 := CreateContributionInfoIndex_keepsMeta env db
  have k8 := CreateActivityInfoIndex_keepsMeta env (CreateContributionInfoIndex env db).2
  have k9 := CreateRecurringDonationIndex_keepsMeta env
    (CreateActivityInfoIndex env (CreateContributionInfoIndex env db).2).2
  exact ⟨k9.1.trans (k8.1.trans k7.1), k9.2.trans (k8.2.trans k7.2)⟩

/-- The compatible version seen by the version check of `Init` is at most the
current version when that of the file is. -/
theorem initVersionCheck_compat (env : Env) (self : PublisherInfoDatabase)
    (hcompat : GetCompatibleVersionNumber self.db_ ≤ GetCurrentVersion) :
    GetCompatibleVersionNumber (createAllIndexes env (initTables env self).2)
      ≤ GetCurrentVersion := by
  have h0 : GetCompatibleVersionNumber (initBegun self) ≤ GetCurrentVersion := hcompat
  have h1 := meta_table_Init_compat env (initBegun self) h0
  rw [compat_of_keepsMeta _ _ (createAllIndexes_keepsMeta env _).1]
  unfold initTables
  rw [compat_of_keepsMeta _ _ (createAllTables_keepsMeta env _).1]
  exact h1

/-- C18: whenever the stored compatible version is at most the current version,
`EnsureCurrentVersion` returns `INIT_OK`, in every environment and so whatever
`MigrateV1toV2` and `MigrateV2toV3` return; hence `Init`, once its open, begin,
meta-table initialization, table creations and commit succeed, returns `true` and
marks the store initialized whether or not a migration step failed. -/
theorem failed_migration_never_fails_Init (E : Enums) (env : Env)
    (self : PublisherInfoDatabase) (hinit : self.initialized_ = false)
    (ho : (env.open_ok && !self.db_.is_open) = true) (hb : env.begin_ok = true)
    (hm : (initMeta env self).1 = true) (ht : (initTables env self).1 = true)
    (hc : env.commit_ok = true)
    (hcompat : GetCompatibleVersionNumber self.db_ ≤ GetCurrentVersion) :
    (∀ db, GetCompatibleVersionNumber db ≤ GetCurrentVersion →
      (EnsureCurrentVersion E env db).1 = E.INIT_OK) ∧
    (Init E env self).1 = true ∧ (Init E env self).2.initialized_ = true := by
  refine ⟨fun db h => EnsureCurrentVersion_ok E env db h, ?_⟩
  have hv : (initVersionCheck E env self).1 = E.INIT_OK :=
    EnsureCurrentVersion_ok E env _ (initVersionCheck_compat env self hcompat)
  rw [Init_eq E env self hinit]
  simp [ho, hb, hm, ht, hc, hv]

/-- C18, instance: opening the version-1 store, where `MigrateV2toV3` fails at the
state in which `Init` runs it, and `Init` still returns `true` and initializes. -/
theorem failed_migration_never_fails_Init_witness :
    (closedOn version1Store).initialized_ = false ∧
    GetCompatibleVersionNumber (closedOn version1Store).db_ ≤ GetCurrentVersion ∧
    (MigrateV2toV3 Env.ideal
      (createAllIndexes Env.ideal (initTables Env.ideal (closedOn version1Store)).2)).1 = false ∧
    ((Init upstreamEnums Env.ideal (closedOn version1Store)).1 = true ∧
      (Init upstreamEnums Env.ideal (closedOn version1Store)).2.initialized_ = true) :=
  ⟨by decide, by decide, by decide,
   (failed_migration_never_fails_Init upstreamEnums Env.ideal (closedOn version1Store)
      (by decide) (by decide) (by decide) (by decide) (by decide) (by decide) (by decide)).2⟩

/-! ## Migration from version 1 through `Init` -/

/-- C13, evaluation at the failing input: opening the version-1 store (whose
`activity_info` has no `reconcile_stamp` column and holds one row) in an environment
where nothing fails.  `Init` succeeds and stores version 3, but the schema is not
the fresh one: `activity_info_old` remains, and the activity row is in it and not in
`activity_info`, which is empty. -/
theorem opening_version_1_store_differs_from_fresh :
    (Init upstreamEnums Env.ideal (closedOn version1Store)).1 = true ∧
    GetVersionNumber (Init upstreamEnums Env.ideal (closedOn version1Store)).2.db_ = 3 ∧
    (Init upstreamEnums Env.ideal (closedOn version1Store)).2.db_.store.activity_info
      = some { columns := activityColumns, activity_unique := true, rows := [] } ∧
    (Init upstreamEnums Env.ideal (closedOn version1Store)).2.db_.store.activity_info_old
      = version1Store.activity_info ∧
    version1Store.activity_info.map (fun t => t.rows) = some [activityA] ∧
    freshStore.activity_info_old = none := by
  decide

/-! ## Repeated activity writes -/

/-- The rows of `activity_info` after `INSERT OR REPLACE` of the row of `R`. -/
theorem replaceActivityEffect_rows (info : PublisherInfo) (d d' : Database) (t : ActivityTable)
    (ht : d.store.activity_info = some t) (h : replaceActivityEffect info d = some d') :
    d'.store.activity_info = some { t with
      rows := (if t.activity_unique then
          t.rows.filter (fun r => activityKey r != activityKey (activityRowOf info))
        else t.rows) ++ [activityRowOf info] } ∧
    d'.store.publisher_info = d.store.publisher_info := by
  unfold replaceActivityEffect at h
  rw [ht] at h
  dsimp only at h
  split at h
  · simp only [Option.some.injEq] at h
    subst h
    exact ⟨rfl, rfl⟩
  · simp at h

/-- The activity table after one `InsertOrUpdateActivityInfo` on an initialized
handle: either unchanged (a statement failed) or the rows with the key of the record
removed and the row of the record appended; the latter when the call returns `true`. -/
theorem InsertOrUpdateActivityInfo_rows (E : Enums) (env : Env) (R : PublisherInfo)
    (self : PublisherInfoDatabase) (t : ActivityTable) (hinit : self.initialized_ = true)
    (ht : self.db_.store.activity_info = some t) :
    (InsertOrUpdateActivityInfo E env R self).2.initialized_ = true ∧
    ∃ rows, (InsertOrUpdateActivityInfo E env R self).2.db_.store.activity_info
        = some { t with rows := rows } ∧
      (rows = t.rows ∨
        rows = (if t.activity_unique then
            t.rows.filter (fun r => activityKey r != activityKey (activityRowOf R))
          else t.rows) ++ [activityRowOf R]) ∧
      ((InsertOrUpdateActivityInfo E env R self).1 = true →
        rows = (if t.activity_unique then
            t.rows.filter (fun r => activityKey r != activityKey (activityRowOf R))
          else t.rows) ++ [activityRowOf R]) := by
  have hI := Init_of_initialized E env self hinit
  simp only [InsertOrUpdateActivityInfo, hI]
  have hc1 := run_cases env ignorePublisherSql (ignorePublisherEffect R) self.db_
  generalize Database.run env ignorePublisherSql (ignorePublisherEffect R) self.db_ = r1 at hc1 ⊢
  obtain ⟨ok1, d1⟩ := r1
  rcases hc1 with ⟨hok, he⟩ | ⟨hok, he⟩
  · simp only at hok he
    subst hok
    dsimp only
    have ha := (ignorePublisherEffect_spec R _ _ he).2.2.1
    have ht1 : d1.store.activity_info = some t := ha.trans ht
    refine ⟨hinit, ?_⟩
    have hc2 := run_cases env replaceActivitySql (replaceActivityEffect R) d1
    generalize Database.run env replaceActivitySql (replaceActivityEffect R) d1 = r2 at hc2 ⊢
    obtain ⟨ok2, d2⟩ := r2
    rcases hc2 with ⟨hok2, he2⟩ | ⟨hok2, he2⟩
    · simp only at hok2 he2
      subst hok2
      exact ⟨_, (replaceActivityEffect_rows R d1 d2 t ht1 he2).1, Or.inr rfl, fun _ => rfl⟩
    · simp only at hok2 he2
      subst hok2 he2
      exact ⟨t.rows, ht1, Or.inl rfl, fun h => by simp at h⟩
  · simp only at hok he
    subst hok he
    exact ⟨hinit, t.rows, ht, Or.inl rfl, fun h => by simp at h⟩

theorem nodup_keys_replace (rows : List ActivityRow) (row : ActivityRow)
    (h : (rows.map activityKey).Nodup) :
    ((rows.filter (fun r => activityKey r != activityKey row) ++ [row]).map activityKey).Nodup := by
  rw [List.map_append, List.nodup_append]
  refine ⟨(List.filter_sublist rows).map activityKey |>.nodup h, by simp, ?_⟩
  intro k hk hk'
  simp only [List.map_cons, List.map_nil, List.mem_singleton] at hk'
  subst hk'
  simp only [List.mem_map, List.mem_filter] at hk
  obtain ⟨r, ⟨_, hne⟩, heq⟩ := hk
  simp [heq] at hne

/-- Through any sequence of `InsertOrUpdateActivityInfo` calls on an initialized
handle whose activity table declares `activity_unique` and holds no duplicate key,
the table keeps both properties, and a row whose key none of the calls carries
stays in the table. -/
theorem activity_writes_invariant (E : Enums) (env : Env) : ∀ (Rs : List PublisherInfo)
    (self : PublisherInfoDatabase) (t : ActivityTable), self.initialized_ = true →
    self.db_.store.activity_info = some t → t.activity_unique = true →
    (t.rows.map activityKey).Nodup →
    (runWrites E env (Rs.map Write.activityInfo) self).initialized_ = true ∧
    ∃ t', (runWrites E env (Rs.map Write.activityInfo) self).db_.store.activity_info = some t' ∧
      t'.activity_unique = true ∧ (t'.rows.map activityKey).Nodup ∧
      ∀ r ∈ t.rows, (∀ R ∈ Rs, activityKey (activityRowOf R) ≠ activityKey r) → r ∈ t'.rows := by
  intro Rs
  induction Rs with
  | nil =>
    intro self t hinit ht hu hnd
    exact ⟨hinit, t, ht, hu, hnd, fun r hr _ => hr⟩
  | cons R Rs ih =>
    intro self t hinit ht hu hnd
    obtain ⟨hinit1, rows, hrows, hcase, _⟩ := InsertOrUpdateActivityInfo_rows E env R self t hinit ht
    have hnd1 : (rows.map activityKey).Nodup := by
      rcases hcase with h | h
      · rw [h]; exact hnd
      · rw [h, hu]; exact nodup_keys_replace t.rows (activityRowOf R) hnd
    have hkeep : ∀ r ∈ t.rows, activityKey (activityRowOf R) ≠ activityKey r → r ∈ rows := by
      intro r hr hne
      rcases hcase with h | h
      · rw [h]; exact hr
      · rw [h, hu]
        simp only [if_true, List.mem_append, List.mem_filter, List.mem_singleton]
        left
        refine ⟨hr, ?_⟩
        simpa using fun e => hne e.symm
    obtain ⟨hinitF, t', ht', hu', hnd', hpers⟩ :=
      ih (InsertOrUpdateActivityInfo E env R self).2 { t with rows := rows } hinit1 hrows hu hnd1
    simp only [List.map_cons, runWrites_cons, Write.run]
    refine ⟨hinitF, t', ht', hu', hnd', ?_⟩
    intro r hr hall
    apply hpers r (hkeep r hr (hall R (List.mem_cons_self _ _)))
    intro R' hR'
    exact hall R' (List.mem_cons_of_mem _ hR')

/-- What the stored row carries when the values of the record are stored as given. -/
theorem activityRowOf_of_storedAsGiven (R : PublisherInfo) (h : R.storedAsGiven) :
    activityKey (activityRowOf R) = (R.id, R.month, R.year, R.reconcile_stamp) ∧
    (activityRowOf R).duration = R.duration ∧ (activityRowOf R).score = R.score ∧
    (activityRowOf R).percent = R.percent ∧ (activityRowOf R).weight = R.weight := by
  obtain ⟨hd, hp, hm, hy, hs, hsc, hw⟩ := h
  unfold fitsInt32 at hd hp hm hy
  unfold fitsInt64 at hs
  have e1 : toInt64 (toInt32 R.duration) = R.duration := by unfold toInt64 toInt32; omega
  have e2 : toInt64 (toInt32 R.percent) = R.percent := by unfold toInt64 toInt32; omega
  have e3 : toInt32 R.month = R.month := by unfold toInt32; omega
  have e4 : toInt32 R.year = R.year := by unfold toInt32; omega
  have e5 : toInt64 R.reconcile_stamp = R.reconcile_stamp := by unfold toInt64; omega
  simp only [activityKey, activityRowOf, e1, e2, e3, e4, e5, hsc, hw, and_self]

/-- C11 (as stated, refuted): on the fresh schema, a call whose record has a NaN
score leaves a row with score 0, a call whose record has the negative zero as weight
leaves a row with weight +0, and a call whose record has duration 2^31 leaves a row
with duration -2^31: the row does not carry these values of the call. -/
theorem stored_row_differs_from_written_values :
    ((runWrites upstreamEnums Env.ideal
        [Write.activityInfo { recordA with score := quietNaN }]
        (readyOn freshStore)).db_.store.activity_info.map
        (fun t => t.rows.map (fun r => r.score))) = some [{ bits := 0 }] ∧
    quietNaN ≠ { bits := 0 } ∧
    ((runWrites upstreamEnums Env.ideal
        [Write.activityInfo { recordA with weight := negativeZero }]
        (readyOn freshStore)).db_.store.activity_info.map
        (fun t => t.rows.map (fun r => r.weight))) = some [{ bits := 0 }] ∧
    negativeZero ≠ { bits := 0 } ∧
    ((runWrites upstreamEnums Env.ideal
        [Write.activityInfo { recordA with duration := 2147483648 }]
        (readyOn freshStore)).db_.store.activity_info.map
        (fun t => t.rows.map (fun r => r.duration))) = some [-2147483648] := by
  decide

/-- C11 (amended): after any sequence of `InsertOrUpdateActivityInfo` calls on an
initialized store whose `activity_info` has the schema the store creates (the
constraint `activity_unique`, no duplicate key to start with), `activity_info` holds
at most one row per (publisher_id, month, year, reconcile_stamp); for every call that
succeeded and was not followed by a call with the same key, the row stored for its
record is in the table and is the only row with that key; and when the values of the
record are stored as given (duration, percent, month and year `int` values, the
reconcile stamp an `int64_t` value, score and weight neither NaN nor the negative
zero), the row with the key of the record carries the duration, score, percent and
weight of that call. -/
theorem activity_latest_write_wins (E : Enums) (env : Env) (Rs : List PublisherInfo)
    (self : PublisherInfoDatabase) (t : ActivityTable) (hinit : self.initialized_ = true)
    (ht : self.db_.store.activity_info = some t) (hu : t.activity_unique = true)
    (hnd : (t.rows.map activityKey).Nodup) :
    ∃ t', (runWrites E env (Rs.map Write.activityInfo) self).db_.store.activity_info = some t' ∧
      (t'.rows.map activityKey).Nodup ∧
      ∀ pre R post, Rs = pre ++ R :: post →
        (InsertOrUpdateActivityInfo E env R
          (runWrites E env (pre.map Write.activityInfo) self)).1 = true →
        (∀ R' ∈ post, activityKey (activityRowOf R') ≠ activityKey (activityRowOf R)) →
        activityRowOf R ∈ t'.rows ∧
        (∀ r ∈ t'.rows, activityKey r = activityKey (activityRowOf R) → r = activityRowOf R) ∧
        (R.storedAsGiven →
          ∀ r ∈ t'.rows,
            (r.publisher_id, r.month, r.year, r.reconcile_stamp)
              = (R.id, R.month, R.year, R.reconcile_stamp) →
            r.duration = R.duration ∧ r.score = R.score ∧ r.percent = R.percent ∧
            r.weight = R.weight) := by
  obtain ⟨_, t', ht', _, hnd', _⟩ := activity_writes_invariant E env Rs self t hinit ht hu hnd
  refine ⟨t', ht', hnd', ?_⟩
  intro pre R post hRs hok hpost
  subst hRs
  -- the state before the call of R
  obtain ⟨hinitP, tp, htp, hup, hndp, _⟩ :=
    activity_writes_invariant E env pre self t hinit ht hu hnd
  -- the call of R
  obtain ⟨hinit1, rows, hrows, _, hsucc⟩ :=
    InsertOrUpdateActivityInfo_rows E env R _ tp hinitP htp
  have hmem : activityRowOf R ∈ rows := by
    rw [hsucc hok]; simp
  have hnd1 : (rows.map activityKey).Nodup := by
    rw [hsucc hok, hup]; exact nodup_keys_replace tp.rows (activityRowOf R) hndp
  -- the calls after it
  obtain ⟨_, tf, htf, _, _, hpers⟩ :=
    activity_writes_invariant E env post _ { tp with rows := rows } hinit1 hrows hup hnd1
  have hfinal : runWrites E env ((pre ++ R :: post).map Write.activityInfo) self =
      runWrites E env (post.map Write.activityInfo)
        (InsertOrUpdateActivityInfo E env R
          (runWrites E env (pre.map Write.activityInfo) self)).2 := by
    simp [runWrites, List.foldl_append, Write.run]
  rw [hfinal, htf] at ht'
  cases ht'
  have hin : activityRowOf R ∈ t'.rows := hpers _ hmem hpost
  have huniq : ∀ r ∈ t'.rows, activityKey r = activityKey (activityRowOf R) →
      r = activityRowOf R :=
    fun r hr hk => List.inj_on_of_nodup_map hnd' hr hin hk
  refine ⟨hin, huniq, ?_⟩
  intro hgiven r hr hk
  obtain ⟨hkey, hvals⟩ := activityRowOf_of_storedAsGiven R hgiven
  have hre : r = activityRowOf R := huniq r hr (hk.trans hkey.symm)
  rw [hre]
  exact hvals

/-- C11 (amended), instance: on the fresh schema, writing duration 120 and then
duration 200 for (`a.com`, 3, 2020, 1000) leaves one row, with duration 200. -/
theorem activity_latest_write_wins_witness :
    (readyOn freshStore).initialized_ = true ∧
    (runWrites upstreamEnums Env.ideal
      ([recordA, { recordA with duration := 200 }].map Write.activityInfo)
      (readyOn freshStore)).db_.store.activity_info
      = some { columns := activityColumns, activity_unique := true,
               rows := [activityRowOf { recordA with duration := 200 }] } ∧
    (activityRowOf { recordA with duration := 200 }).duration = 200 ∧
    ∃ t', (runWrites upstreamEnums Env.ideal
        ([recordA, { recordA with duration := 200 }].map Write.activityInfo)
        (readyOn freshStore)).db_.store.activity_info = some t' ∧
      (t'.rows.map activityKey).Nodup ∧
      ∀ r ∈ t'.rows,
        (r.publisher_id, r.month, r.year, r.reconcile_stamp) = ("a.com", 3, 2020, 1000) →
        r.duration = 200 :=
  ⟨by decide, by decide, by decide,
   (activity_latest_write_wins upstreamEnums Env.ideal [recordA, { recordA with duration := 200 }]
      (readyOn freshStore) { columns := activityColumns, activity_unique := true, rows := [] }
      (by decide) (by decide) (by decide) (by decide)).imp
     (fun _ h => ⟨h.1, h.2.1, fun r hr hk =>
       ((h.2.2 [recordA] { recordA with duration := 200 } [] rfl (by decide)
          (fun _ hR => absurd hR (List.not_mem_nil _))).2.2 (by decide) r hr hk).1⟩)⟩

/-! ## `Init` and the rows of `publisher_info` -/

theorem run_keepsPublishers (env : Env) (sql : String) (effect : Database → Option Database)
    (h : EffectKeepsPublishers effect) : KeepsPublishers (Database.run env sql effect) := by
  intro db rows hp
  rcases run_cases env sql effect db with ⟨_, he⟩ | ⟨_, he⟩
  · exact h db _ rows he hp
  · rw [he]; exact hp

theorem keepsPublishers_andThen (f g : Database → Bool × Database) (hf : KeepsPublishers f)
    (hg : KeepsPublishers g) :
    KeepsPublishers (fun db => match f db with
      | (false, d) => (false, d)
      | (true, d) => g d) := by
  intro db rows hp
  have h1 := hf db rows hp
  dsimp only
  cases hr : f db with
  | mk ok d =>
    rw [hr] at h1
    cases ok
    · exact h1
    · exact hg d rows h1

theorem runScript_keepsPublishers (env : Env)
    (script : List (String × (Database → Option Database)))
    (h : ∀ p ∈ script, EffectKeepsPublishers p.2) :
    KeepsPublishers (Database.runScript env script) := by
  induction script with
  | nil => intro db rows hp; exact hp
  | cons p rest ih =>
    obtain ⟨sql, effect⟩ := p
    intro db rows hp
    have h1 := run_keepsPublishers env sql effect (h (sql, effect) (List.mem_cons_self _ _))
      db rows hp
    have h2 := ih (fun q hq => h q (List.mem_cons_of_mem _ hq))
    simp only [Database.runScript]
    cases hr : Database.run env sql effect db with
    | mk ok d =>
      rw [hr] at h1
      cases ok
      · exact h1
      · exact h2 d rows h1

theorem createIndexEffect_keepsPublishers (name table : String) :
    EffectKeepsPublishers (createIndexEffect name table) := by
  intro d d' rows h hp
  unfold createIndexEffect at h
  split at h
  · split at h <;> (simp only [Option.some.injEq] at h; subst h; exact hp)
  · simp at h

theorem createPublisherInfoEffect_keepsPublishers :
    EffectKeepsPublishers createPublisherInfoEffect := by
  intro d d' rows h hp
  unfold createPublisherInfoEffect at h
  rw [hp] at h
  simp at h

theorem createContributionInfoEffect_keepsPublishers :
    EffectKeepsPublishers createContributionInfoEffect := by
  intro d d' rows h hp
  unfold createContributionInfoEffect at h
  split at h <;> simp only [Option.some.injEq, reduceCtorEq] at h
  subst h; exact hp

theorem createActivityInfoEffect_keepsPublishers :
    EffectKeepsPublishers createActivityInfoEffect := by
  intro d d' rows h hp
  unfold createActivityInfoEffect at h
  split at h <;> simp only [Option.some.injEq, reduceCtorEq] at h
  subst h; exact hp

theorem createMediaPublisherInfoEffect_keepsPublishers :
    EffectKeepsPublishers createMediaPublisherInfoEffect := by
  intro d d' rows h hp
  unfold createMediaPublisherInfoEffect at h
  split at h <;> simp only [Option.some.injEq, reduceCtorEq] at h
  subst h; exact hp

theorem createRecurringDonationEffect_keepsPublishers :
    EffectKeepsPublishers createRecurringDonationEffect := by
  intro d d' rows h hp
  unfold createRecurringDonationEffect at h
  split at h <;> simp only [Option.some.injEq, reduceCtorEq] at h
  subst h; exact hp

theorem CreatePublisherInfoTable_keepsPublishers (env : Env) :
    KeepsPublishers (CreatePublisherInfoTable env) := by
  intro db rows hp
  unfold CreatePublisherInfoTable
  split
  · exact hp
  · exact run_keepsPublishers env _ _ createPublisherInfoEffect_keepsPublishers db rows hp

theorem CreateContributionInfoTable_keepsPublishers (env : Env) :
    KeepsPublishers (CreateContributionInfoTable env) := by
  intro db rows hp
  unfold CreateContributionInfoTable
  split
  · exact hp
  · exact run_keepsPublishers env _ _ createContributionInfoEffect_keepsPublishers db rows hp

theorem CreateActivityInfoTable_keepsPublishers (env : Env) :
    KeepsPublishers (CreateActivityInfoTable env) := by
  intro db rows hp
  unfold CreateActivityInfoTable
  split
  · exact hp
  · exact run_keepsPublishers env _ _ createActivityInfoEffect_keepsPublishers db rows hp

theorem CreateMediaPublisherInfoTable_keepsPublishers (env : Env) :
    KeepsPublishers (CreateMediaPublisherInfoTable env) := by
  intro db rows hp
  unfold CreateMediaPublisherInfoTable
  split
  · exact hp
  · exact run_keepsPublishers env _ _ createMediaPublisherInfoEffect_keepsPublishers db rows hp

theorem CreateRecurringDonationTable_keepsPublishers (env : Env) :
    KeepsPublishers (CreateRecurringDonationTable env) := by
  intro db rows hp
  unfold CreateRecurringDonationTable
  split
  · exact hp
  · exact run_keepsPublishers env _ _ createRecurringDonationEffect_keepsPublishers db rows hp

theorem createAllTables_keepsPublishers (env : Env) : KeepsPublishers (createAllTables env) :=
  keepsPublishers_andThen _ _ (CreatePublisherInfoTable_keepsPublishers env)
    (keepsPublishers_andThen _ _ (CreateContributionInfoTable_keepsPublishers env)
      (keepsPublishers_andThen _ _ (CreateActivityInfoTable_keepsPublishers env)
        (keepsPublishers_andThen _ _ (CreateMediaPublisherInfoTable_keepsPublishers env)
          (CreateRecurringDonationTable_keepsPublishers env))))

theorem createAllIndexes_keepsPublishers (env : Env) (db : Database)
    (rows : List PublisherRow) (hp : db.store.publisher_info = some rows) :
    (createAllIndexes env db).store.publisher_info = some rows := by
  unfold createAllIndexes
  exact run_keepsPublishers env _ _ (createIndexEffect_keepsPublishers _ _) _ rows
    (run_keepsPublishers env _ _ (createIndexEffect_keepsPublishers _ _) _ rows
      (run_keepsPublishers env _ _ (createIndexEffect_keepsPublishers _ _) _ rows hp))

theorem migrateV2toV3Script_keepsPublishers :
    ∀ p ∈ migrateV2toV3Script, EffectKeepsPublishers p.2 := by
  have hfk : ∀ b, EffectKeepsPublishers (foreignKeysEffect b) := by
    intro b d d' rows h hp
    unfold foreignKeysEffect at h
    split at h <;> (simp only [Option.some.injEq] at h; subst h; exact hp)
  have hcopy : EffectKeepsPublishers copyActivityEffect := by
    intro d d' rows h hp
    unfold copyActivityEffect at h
    split at h
    · split at h
      · dsimp only at h
        split at h
        · simp at h
        · split at h <;> simp only [Option.some.injEq, reduceCtorEq] at h
          subst h; exact hp
      · simp at h
    · simp at h
  have hvisits : EffectKeepsPublishers setVisitsEffect := by
    intro d d' rows h hp
    unfold setVisitsEffect at h
    split at h
    · split at h <;> simp only [Option.some.injEq, reduceCtorEq] at h
      subst h; exact hp
    · simp at h
  have hdrop : EffectKeepsPublishers dropActivityInfoOldEffect := by
    intro d d' rows h hp
    unfold dropActivityInfoOldEffect at h
    split at h <;> simp only [Option.some.injEq, reduceCtorEq] at h
    subst h; exact hp
  intro p hp
  simp only [migrateV2toV3Script, List.mem_cons, List.mem_singleton, List.not_mem_nil,
    or_false] at hp
  rcases hp with rfl | rfl | rfl | rfl | rfl
  · exact hfk false
  · exact hcopy
  · exact hvisits
  · exact hdrop
  · exact hfk true

theorem renameActivityInfoEffect_keepsPublishers :
    EffectKeepsPublishers renameActivityInfoEffect := by
  intro d d' rows h hp
  unfold renameActivityInfoEffect at h
  split at h <;> simp only [Option.some.injEq, reduceCtorEq] at h
  subst h; exact hp

theorem MigrateV2toV3_keepsPublishers (env : Env) : KeepsPublishers (MigrateV2toV3 env) := by
  intro db rows hp
  unfold MigrateV2toV3
  split
  · exact keepsPublishers_andThen _ _
      (run_keepsPublishers env _ _ renameActivityInfoEffect_keepsPublishers)
      (keepsPublishers_andThen _ _ (CreateActivityInfoTable_keepsPublishers env)
        (keepsPublishers_andThen _ _
          (run_keepsPublishers env _ _ (createIndexEffect_keepsPublishers _ _))
          (runScript_keepsPublishers env _ migrateV2toV3Script_keepsPublishers))) db rows hp
  · exact hp

theorem SetVersionNumber_keepsPublishers (env : Env) (v : Int) (db : Database)
    (rows : List PublisherRow) (hp : db.store.publisher_info = some rows) :
    (SetVersionNumber env v db).store.publisher_info = some rows := by
  unfold SetVersionNumber
  refine run_keepsPublishers env _ _ ?_ db rows hp
  intro d d' rows h hp
  unfold setVersionEffect at h
  split at h <;> simp only [Option.some.injEq, reduceCtorEq] at h
  subst h; exact hp

theorem EnsureCurrentVersion_keepsPublishers (E : Enums) (env : Env) (db : Database)
    (rows : List PublisherRow) (hp : db.store.publisher_info = some rows) :
    (EnsureCurrentVersion E env db).2.store.publisher_info = some rows := by
  by_cases hnew : GetCompatibleVersionNumber db > GetCurrentVersion
  · rw [EnsureCurrentVersion_too_new E env db hnew]
    exact hp
  · have hs := EnsureCurrentVersion_shape E env db (not_lt.mp hnew)
    by_cases hv : GetVersionNumber db = 1 ∨ GetVersionNumber db = 2
    · rw [hs.1 hv]
      exact SetVersionNumber_keepsPublishers env _ _ rows
        (MigrateV2toV3_keepsPublishers env db rows hp)
    · rw [hs.2 (fun h => hv (Or.inl h)) (fun h => hv (Or.inr h))]
      exact hp

theorem meta_table_Init_keepsPublishers (env : Env) (v c : Int) :
    KeepsPublishers (meta_table_Init env v c) := by
  intro db rows hp
  unfold meta_table_Init
  split
  · split
    · exact hp
    · exact hp
  · exact hp

/-- The rows of an existing `publisher_info` table are the same after `Init`, whatever
`Init` returns. -/
theorem Init_keepsPublishers (E : Enums) (env : Env) (self : PublisherInfoDatabase)
    (rows : List PublisherRow) (hp : self.db_.store.publisher_info = some rows) :
    (Init E env self).2.db_.store.publisher_info = some rows := by
  cases hinit : self.initialized_ with
  | true => rw [Init_of_initialized E env self hinit]; exact hp
  | false =>
    rw [Init_eq E env self hinit]
    have hv : (initVersionCheck E env self).2.store.publisher_info = some rows := by
      unfold initVersionCheck initTables initMeta
      exact EnsureCurrentVersion_keepsPublishers E env _ rows
        (createAllIndexes_keepsPublishers env _ rows
          (createAllTables_keepsPublishers env _ rows
            (meta_table_Init_keepsPublishers env _ _ _ rows hp)))
    split_ifs <;> first | exact hp | exact hv

/-! ## The publisher row next to an activity write -/

theorem ignorePublisherEffect_publishers (info : PublisherInfo) (d d' : Database)
    (h : ignorePublisherEffect info d = some d') :
    (d.store.hasPublisher info.id = true → d'.store.publisher_info = d.store.publisher_info) ∧
    (d.store.hasPublisher info.id = false →
      d'.store.publisher_info = d.store.publisher_info.map (fun rows => rows ++ [publisherRowOf info])) := by
  unfold ignorePublisherEffect at h
  cases hp : d.store.publisher_info with
  | none => simp [hp] at h
  | some rows =>
    simp only [hp] at h
    split at h
    · rename_i hany
      simp only [Option.some.injEq] at h
      subst h
      refine ⟨fun _ => hp, fun hno => ?_⟩
      simp [Store.hasPublisher, hp] at hno
      simp at hany
      obtain ⟨x, hx, hxe⟩ := hany
      exact absurd hxe (hno x hx)
    · simp only [Option.some.injEq] at h
      subst h
      refine ⟨fun hyes => ?_, fun _ => rfl⟩
      rename_i hany
      simp only [Store.hasPublisher, hp] at hyes
      exact absurd hyes hany

/-- The `publisher_info` table after `InsertOrUpdateActivityInfo`, compared with the
one in the state `self'` that the `Init` at the start of the call left. -/
theorem activity_write_publishers_after_Init (E : Enums) (env : Env) (R : PublisherInfo)
    (self self' : PublisherInfoDatabase) (hI : Init E env self = (true, self')) :
    (self'.db_.store.hasPublisher R.id = true →
      (InsertOrUpdateActivityInfo E env R self).2.db_.store.publisher_info
        = self'.db_.store.publisher_info) ∧
    (self'.db_.store.hasPublisher R.id = false →
      ((InsertOrUpdateActivityInfo E env R self).2.db_.store.publisher_info
          = self'.db_.store.publisher_info ∨
        (InsertOrUpdateActivityInfo E env R self).2.db_.store.publisher_info
          = self'.db_.store.publisher_info.map (fun rows => rows ++ [publisherRowOf R])) ∧
      ((InsertOrUpdateActivityInfo E env R self).1 = true →
        (InsertOrUpdateActivityInfo E env R self).2.db_.store.publisher_info
          = self'.db_.store.publisher_info.map (fun rows => rows ++ [publisherRowOf R]))) := by
  simp only [InsertOrUpdateActivityInfo, hI]
  have hc1 := run_cases env ignorePublisherSql (ignorePublisherEffect R) self'.db_
  generalize Database.run env ignorePublisherSql (ignorePublisherEffect R) self'.db_ = r1 at hc1 ⊢
  obtain ⟨ok1, d1⟩ := r1
  rcases hc1 with ⟨hok, he⟩ | ⟨hok, he⟩
  · simp only at hok he
    subst hok
    dsimp only
    have hp := ignorePublisherEffect_publishers R _ _ he
    have hc2 := run_cases env replaceActivitySql (replaceActivityEffect R) d1
    generalize Database.run env replaceActivitySql (replaceActivityEffect R) d1 = r2 at hc2 ⊢
    obtain ⟨ok2, d2⟩ := r2
    have h2 : d2.store.publisher_info = d1.store.publisher_info := by
      rcases hc2 with ⟨_, he2⟩ | ⟨_, he2⟩
      · simp only at he2
        unfold replaceActivityEffect at he2
        split at he2
        · split at he2 <;> simp at he2
          subst he2; rfl
        · simp at he2
      · simp only at he2
        rw [he2]
    exact ⟨fun hyes => h2.trans (hp.1 hyes),
      fun hno => ⟨Or.inr (h2.trans (hp.2 hno)), fun _ => h2.trans (hp.2 hno)⟩⟩
  · simp only at hok he
    subst hok he
    exact ⟨fun _ => rfl, fun _ => ⟨Or.inl rfl, fun h => by simp at h⟩⟩

/-- C12: for every record R and every handle, initialized or not, if `publisher_info`
already holds a row for R.id then `InsertOrUpdateActivityInfo(R)` leaves the whole
`publisher_info` table, and so that row's verified, excluded, name, url, provider
and favIcon, as it was, whatever metadata R carries and whatever fails.  When the
`Init` at the start of the call returns `true` and leaves a state `self'` (the handle
itself when it was initialized) without a row for R.id, the table is either unchanged
(a statement failed) or extended by the row built from R, and it is extended
whenever the call returns `true`. -/
theorem activity_write_keeps_existing_publisher (E : Enums) (env : Env) (R : PublisherInfo)
    (self : PublisherInfoDatabase) :
    (self.db_.store.hasPublisher R.id = true →
      (InsertOrUpdateActivityInfo E env R self).2.db_.store.publisher_info
        = self.db_.store.publisher_info) ∧
    (∀ self', Init E env self = (true, self') →
      self'.db_.store.hasPublisher R.id = false →
      ((InsertOrUpdateActivityInfo E env R self).2.db_.store.publisher_info
          = self'.db_.store.publisher_info ∨
        (InsertOrUpdateActivityInfo E env R self).2.db_.store.publisher_info
          = self'.db_.store.publisher_info.map (fun rows => rows ++ [publisherRowOf R])) ∧
      ((InsertOrUpdateActivityInfo E env R self).1 = true →
        (InsertOrUpdateActivityInfo E env R self).2.db_.store.publisher_info
          = self'.db_.store.publisher_info.map (fun rows => rows ++ [publisherRowOf R]))) := by
  refine ⟨?_, fun self' hI => (activity_write_publishers_after_Init E env R self self' hI).2⟩
  intro hyes
  obtain ⟨rows, hp⟩ : ∃ rows, self.db_.store.publisher_info = some rows := by
    cases h : self.db_.store.publisher_info with
    | none => simp [Store.hasPublisher, h] at hyes
    | some rows => exact ⟨rows, rfl⟩
  have hk := Init_keepsPublishers E env self rows hp
  cases hI : Init E env self with
  | mk ok self' =>
    rw [hI] at hk
    cases ok
    · simp only [InsertOrUpdateActivityInfo, hI]
      exact hk.trans hp.symm
    · have hyes' : self'.db_.store.hasPublisher R.id = true := by
        unfold Store.hasPublisher at hyes ⊢
        rw [hp] at hyes
        rw [hk]
        exact hyes
      exact ((activity_write_publishers_after_Init E env R self self' hI).1 hyes').trans
        (hk.trans hp.symm)

/-- C12, instance: a closed handle on a file where `a.com` has a verified row named
"Old"; an activity write whose record says unverified and "A" opens the store and
leaves that row as it was. -/
theorem activity_write_keeps_existing_publisher_witness :
    (closedOn { freshStore with
      publisher_info := some [{ publisherA with verified := true, name := "Old" }] }
      ).db_.store.hasPublisher recordA.id = true ∧
    (InsertOrUpdateActivityInfo upstreamEnums Env.ideal recordA
      (closedOn { freshStore with
        publisher_info := some [{ publisherA with verified := true, name := "Old" }] })).1
      = true ∧
    (InsertOrUpdateActivityInfo upstreamEnums Env.ideal recordA
      (closedOn { freshStore with
        publisher_info := some [{ publisherA with verified := true, name := "Old" }] })
      ).2.db_.store.publisher_info
      = some [{ publisherA with verified := true, name := "Old" }] :=
  ⟨by decide, by decide,
   (activity_write_keeps_existing_publisher upstreamEnums Env.ideal recordA
      (closedOn { freshStore with
        publisher_info := some [{ publisherA with verified := true, name := "Old" }] })).1
      (by decide)⟩

/-! ## The unfiltered list and the filtered list -/

theorem filter_eq_find_toList (publishers : List PublisherRow) (id : String)
    (h : (publishers.map (fun p => p.publisher_id)).Nodup) :
    publishers.filter (fun p => p.publisher_id == id)
      = (publishers.find? (fun p => p.publisher_id == id)).toList := by
  induction publishers with
  | nil => rfl
  | cons p ps ih =>
    simp only [List.map_cons, List.nodup_cons] at h
    by_cases hp : p.publisher_id = id
    · have hnone : ps.filter (fun q => q.publisher_id == id) = [] := by
        rw [List.filter_eq_nil_iff]
        intro q hq hqe
        apply h.1
        simp only [beq_iff_eq] at hqe
        rw [hp, ← hqe]
        exact List.mem_map_of_mem _ hq
      simp [List.filter_cons, List.find?_cons, hp, hnone]
    · simp [List.filter_cons, List.find?_cons, hp, ih h.2]

theorem joinRows_eq_filterMap (activity : List ActivityRow) (publishers : List PublisherRow)
    (h : (publishers.map (fun p => p.publisher_id)).Nodup) :
    joinRows activity publishers = activity.filterMap (joinOne publishers) := by
  unfold joinRows joinOne
  induction activity with
  | nil => rfl
  | cons a as ih =>
    rw [List.flatMap_cons, ih, filter_eq_find_toList publishers a.publisher_id h,
      List.filterMap_cons]
    cases publishers.find? (fun p => p.publisher_id == a.publisher_id) <;> simp

theorem specClauses_unset (E : Enums) (f : PublisherInfoFilter)
    (hE : E.FILTER_ALL ≠ E.FILTER_ALL_EXCEPT_EXCLUDED)
    (hid : f.id = "") (hmonth : f.month = E.ANY) (hyear : f.year ≤ 0)
    (hstamp : f.reconcile_stamp ≤ 0) (hdur : f.min_duration ≤ 0)
    (hex : f.excluded = E.FILTER_ALL) : specClauses E f = [] := by
  simp [specClauses, fieldClauses, exclusionClause, hid, hmonth, hex, hE, not_lt.mpr hyear,
    not_lt.mpr hstamp, not_lt.mpr hdur]

/-- C19: for a filter with no optional field set (empty id, month ANY, year,
reconcile_stamp and min_duration not positive, exclusion FILTER_ALL, no sort key)
and no limit, the built text is the bare join query ending in `WHERE 1 = 1`, no
parameter is bound, and `GetPublisherActivityList`, once its `Init` has returned
`true` and left the state `self'` (the handle itself when it was initialized),
appends one record for every `activity_info` row whose publisher_id has a
`publisher_info` row, in the order of the activity rows (the schema is the one the
store creates: publisher ids are a primary key). -/
theorem unfiltered_list_is_whole_join (E : Enums) (env : Env) (start limit : Int)
    (f : PublisherInfoFilter) (list : List PublisherInfo) (self self' : PublisherInfoDatabase)
    (t : ActivityTable) (publishers : List PublisherRow)
    (hE : E.FILTER_ALL ≠ E.FILTER_ALL_EXCEPT_EXCLUDED)
    (hid : f.id = "") (hmonth : f.month = E.ANY) (hyear : f.year ≤ 0)
    (hstamp : f.reconcile_stamp ≤ 0) (hdur : f.min_duration ≤ 0)
    (hex : f.excluded = E.FILTER_ALL) (hord : f.order_by = []) (hlimit : limit ≤ 0)
    (hI : Init E env self = (true, self')) (hopen : self'.db_.is_open = true)
    (hquery : env.exec_ok baseQuery = true)
    (ht : self'.db_.store.activity_info = some t)
    (hcols : migrateColumns.all (fun c => t.columns.contains c) = true)
    (hp : self'.db_.store.publisher_info = some publishers)
    (hkey : (publishers.map (fun p => p.publisher_id)).Nodup) :
    buildQuery E start limit f = baseQuery ∧
    (bindFilter E f).bound = [] ∧
    GetPublisherActivityList E env start limit f list self =
      (true, list ++ (t.rows.filterMap (joinOne publishers)).map readRow, self') := by
  have hcl := specClauses_unset E f hE hid hmonth hyear hstamp hdur hex
  have htext : buildQuery E start limit f = baseQuery := by
    unfold buildQuery queryBeforeLimit appendLimit
    rw [appendPredicates_eq, hcl, hord, if_neg (not_lt.mpr hlimit)]
    apply String.ext
    simp [String.join, String.data_append]
  have hbound : (bindFilter E f).bound = [] := by
    rw [bindFilter_eq, hcl]; rfl
  refine ⟨htext, hbound, ?_⟩
  unfold GetPublisherActivityList
  rw [hI]
  dsimp only
  have hrows : stepRows E env start limit f self'.db_ = t.rows.filterMap (joinOne publishers) := by
    unfold stepRows
    simp only [hopen, htext, hquery, Bool.and_self, if_true, ht, hp, hcols, hord, hcl, hbound,
      List.map_nil, scanActivity_unset f t hid]
    have hall : (joinRows t.rows publishers).filter (whereHolds [] []) = joinRows t.rows publishers := by
      rw [List.filter_eq_self]
      intro r _
      rfl
    rw [hall, joinRows_eq_filterMap _ _ hkey]
    unfold applyLimit
    rw [if_neg (not_lt.mpr hlimit)]
  rw [hrows]

/-- C19, instance: the store holding the publisher `b.com` and one activity row of
it; the unset filter returns that row's record. -/
theorem unfiltered_list_is_whole_join_witness :
    upstreamEnums.FILTER_ALL ≠ upstreamEnums.FILTER_ALL_EXCEPT_EXCLUDED ∧
    (GetPublisherActivityList upstreamEnums Env.ideal 0 0 emptyFilter []
      (readyOn storeWithB)).2.1
      = [readRow { ai := activityB, pi := { publisherA with publisher_id := "b.com" } }] :=
  ⟨by decide,
   (congrArg (fun x => x.2.1)
      (unfiltered_list_is_whole_join upstreamEnums Env.ideal 0 0 emptyFilter []
        (readyOn storeWithB) (readyOn storeWithB)
        { columns := activityColumns, activity_unique := true, rows := [activityB] }
        [{ publisherA with publisher_id := "b.com" }]
        (by decide) (by decide) (by decide) (by decide) (by decide) (by decide) (by decide)
        (by decide) (by decide) (by decide) (by decide) (by decide) (by decide) (by decide)
        (by decide) (by decide)).2.2).trans (by decide)⟩

theorem mem_applyLimit (start limit : Int) (rows : List JoinedRow) (r : JoinedRow)
    (h : r ∈ applyLimit start limit rows) : r ∈ rows := by
  unfold applyLimit at h
  split at h
  · split at h
    · exact List.mem_of_mem_drop (List.mem_of_mem_take h)
    · exact List.mem_of_mem_take h
  · exact h

theorem mem_joinRows_pi (activity : List ActivityRow) (publishers : List PublisherRow)
    (x : JoinedRow) (h : x ∈ joinRows activity publishers) : x.pi ∈ publishers := by
  unfold joinRows at h
  simp only [List.mem_flatMap, List.mem_map, List.mem_filter] at h
  obtain ⟨a, _, p, ⟨hp, _⟩, rfl⟩ := h
  exact hp

/-- A row the statement steps through satisfies the `WHERE` condition and is a row
of the join of the two tables. -/
theorem mem_stepRows (E : Enums) (env : Env) (start limit : Int) (f : PublisherInfoFilter)
    (db : Database) (hsort : env.sortKeepsRows) (r : JoinedRow)
    (h : r ∈ stepRows E env start limit f db) :
    whereHolds ((specClauses E f).map Prod.fst) (bindFilter E f).bound r = true ∧
    ∃ t publishers, db.store.activity_info = some t ∧ db.store.publisher_info = some publishers ∧
      r ∈ joinRows t.rows publishers := by
  unfold stepRows at h
  split at h
  · split at h
    · rename_i t publishers ht hp
      split at h
      · have hfil : r ∈ (joinRows (scanActivity f t) publishers).filter
            (whereHolds ((specClauses E f).map Prod.fst) (bindFilter E f).bound) := by
          dsimp only at h
          split at h
          · exact mem_applyLimit _ _ _ _ h
          · rename_i key _
            split at h
            · rename_i sorted hs
              exact hsort _ _ _ _ hs r (mem_applyLimit _ _ _ _ h)
            · simp at h
          · simp at h
        rw [List.mem_filter] at hfil
        refine ⟨hfil.2, t, publishers, ht, hp, ?_⟩
        have hj := hfil.1
        unfold joinRows at hj ⊢
        simp only [List.mem_flatMap] at hj ⊢
        obtain ⟨a, ha, hr⟩ := hj
        exact ⟨a, mem_scanActivity f t a ha, hr⟩
      · simp at h
    · simp at h
  · simp at h

theorem toInt32_of_fits (v : Int) (h : fitsInt32 v) : toInt32 v = v := by
  unfold fitsInt32 at h
  unfold toInt32
  omega

theorem toInt32_idem (v : Int) : toInt32 (toInt32 v) = toInt32 v := by
  unfold toInt32
  omega

/-- C20: every record `GetPublisherActivityList` returns satisfies the predicates the
filter sets: with month = m (not ANY) it has month m, with year = y > 0 it has year y,
and with exclusion FILTER_ALL_EXCEPT_EXCLUDED its excluded state is not EXCLUDED.  The
filter's month and year and the enumerator are `int` values, the stored excluded
states are `int` values (they were bound with `BindInt`), and the engine's sort
returns rows of the rows it was given. -/
theorem returned_records_satisfy_filter (E : Enums) (env : Env) (start limit : Int)
    (f : PublisherInfoFilter) (self : PublisherInfoDatabase)
    (hsort : env.sortKeepsRows)
    (hm : fitsInt32 f.month) (hy : fitsInt32 f.year) (hx : fitsInt32 E.EXCLUDED)
    (hstored : ∀ publishers, (Init E env self).2.db_.store.publisher_info = some publishers →
      ∀ p ∈ publishers, fitsInt32 p.excluded) :
    ∀ rec ∈ (GetPublisherActivityList E env start limit f [] self).2.1,
      (f.month ≠ E.ANY → rec.month = f.month) ∧
      (f.year > 0 → rec.year = f.year) ∧
      (f.excluded = E.FILTER_ALL_EXCEPT_EXCLUDED → rec.excluded ≠ E.EXCLUDED) := by
  intro rec hrec
  unfold GetPublisherActivityList at hrec
  cases hI : Init E env self with
  | mk ok self' =>
  rw [hI] at hrec hstored
  cases ok
  · simp at hrec
  simp only [List.nil_append, List.mem_map] at hrec
  obtain ⟨r, hr, rfl⟩ := hrec
  obtain ⟨hw, t, publishers, _, hp, hjoin⟩ := mem_stepRows E env start limit f _ hsort r hr
  rw [whereHolds_filter, List.all_eq_true] at hw
  refine ⟨?_, ?_, ?_⟩
  · intro hmonth
    have hc : (" AND ai.month = ?", BindValue.int f.month) ∈ specClauses E f := by
      simp [specClauses, fieldClauses, hmonth]
    have := hw _ hc
    rw [evalPredicate_month] at this
    simp only [BindValue.toSql, beq_iff_eq, SqlValue.integer.injEq] at this
    simp only [readRow, this, toInt32_idem, toInt32_of_fits _ hm]
  · intro hyear
    have hc : (" AND ai.year = ?", BindValue.int f.year) ∈ specClauses E f := by
      simp [specClauses, fieldClauses, hyear]
    have := hw _ hc
    rw [evalPredicate_year] at this
    simp only [BindValue.toSql, beq_iff_eq, SqlValue.integer.injEq] at this
    simp only [readRow, this, toInt32_idem, toInt32_of_fits _ hy]
  · intro hex
    have hc : (" AND pi.excluded != ?", BindValue.int E.EXCLUDED) ∈ specClauses E f := by
      simp [specClauses, exclusionClause, hex]
    have := hw _ hc
    rw [evalPredicate_not_excluded] at this
    simp only [BindValue.toSql, bne_iff_ne, ne_eq, SqlValue.integer.injEq,
      toInt32_of_fits _ hx] at this
    simp only [readRow, toInt32_of_fits _ (hstored publishers hp r.pi (mem_joinRows_pi _ _ r hjoin))]
    exact this

theorem returned_records_satisfy_filter_witness :
    (GetPublisherActivityList upstreamEnums Env.ideal 0 0 marchFilter []
        (readyOn storeWithTwoMonths)).2.1.length = 1 ∧
    ∀ rec ∈ (GetPublisherActivityList upstreamEnums Env.ideal 0 0 marchFilter []
        (readyOn storeWithTwoMonths)).2.1,
      (marchFilter.month ≠ upstreamEnums.ANY → rec.month = marchFilter.month) ∧
      (marchFilter.year > 0 → rec.year = marchFilter.year) ∧
      (marchFilter.excluded = upstreamEnums.FILTER_ALL_EXCEPT_EXCLUDED →
        rec.excluded ≠ upstreamEnums.EXCLUDED) :=
  ⟨by decide,
   returned_records_satisfy_filter upstreamEnums Env.ideal 0 0 marchFilter
     (readyOn storeWithTwoMonths)
     (fun _ _ _ _ h r hr => by
       simp only [Env.ideal, Option.some.injEq] at h
       exact h ▸ hr)
     (by decide) (by decide) (by decide)
     (fun publishers h p hp => by
       have h' : publishers = [{ publisherA with publisher_id := "b.com" }] := by
         have h0 : (Init upstreamEnums Env.ideal (readyOn storeWithTwoMonths)).2.db_.store.publisher_info
             = some [{ publisherA with publisher_id := "b.com" }] := by decide
         rw [h0] at h
         exact (Option.some.inj h).symm
       subst h'
       simp only [List.mem_singleton] at hp
       subst hp
       decide)⟩

/-- `INSERT OR REPLACE INTO publisher_info` is the deletion of the row followed by the
insertion of the new one. -/
theorem replacePublisherEffect_eq_delete_then_append (info : PublisherInfo) (d : Database) :
    replacePublisherEffect info d =
      (deletePublisherEffect info.id d).map (appendPublisherRow info) := by
  unfold replacePublisherEffect deletePublisherEffect appendPublisherRow
  cases h : d.store.publisher_info with
  | none => rfl
  | some rows => rfl

theorem hasPublisher_filter_self (rows : List PublisherRow) (id : String) :
    (rows.filter (fun r => r.publisher_id != id)).any (fun r => r.publisher_id == id) = false := by
  rw [Bool.eq_false_iff]
  intro h
  rw [List.any_eq_true] at h
  obtain ⟨r, hr, he⟩ := h
  rw [List.mem_filter] at hr
  simp only [beq_iff_eq] at he
  simp [he] at hr

theorem hasPublisher_filter_other (rows : List PublisherRow) (id other : String)
    (hne : other ≠ id) (h : rows.any (fun r => r.publisher_id == other) = true) :
    (rows.filter (fun r => r.publisher_id != id)).any (fun r => r.publisher_id == other) = true := by
  rw [List.any_eq_true] at h ⊢
  obtain ⟨r, hr, he⟩ := h
  refine ⟨r, ?_, he⟩
  rw [List.mem_filter]
  simp only [beq_iff_eq] at he
  exact ⟨hr, by simp [he, hne]⟩

theorem mem_rows_filter {α : Type} (o : Option (List α)) (key : α → String)
    (id other : String) :
    other ∈ (o.map (fun rows => rows.filter (fun r => key r != id))).elim []
        (fun rows => rows.map key) ↔
      other ≠ id ∧ other ∈ o.elim [] (fun rows => rows.map key) := by
  cases o with
  | none => simp
  | some rows =>
    simp only [Option.map_some', Option.elim, List.mem_map, List.mem_filter, bne_iff_ne, ne_eq]
    constructor
    · rintro ⟨r, ⟨hr, hne⟩, rfl⟩
      exact ⟨hne, r, hr, rfl⟩
    · rintro ⟨hne, r, hr, rfl⟩
      exact ⟨r, ⟨hr, hne⟩, rfl⟩

theorem mem_table_filter (o : Option ActivityTable) (id other : String) :
    other ∈ (o.map (fun t => { t with rows := t.rows.filter (fun r => r.publisher_id != id) })).elim []
        (fun t => t.rows.map (fun r => r.publisher_id)) ↔
      other ≠ id ∧ other ∈ o.elim [] (fun t => t.rows.map (fun r => r.publisher_id)) := by
  cases o with
  | none => simp
  | some t =>
    simp only [Option.map_some', Option.elim, List.mem_map, List.mem_filter, bne_iff_ne, ne_eq]
    constructor
    · rintro ⟨r, ⟨hr, hne⟩, rfl⟩
      exact ⟨hne, r, hr, rfl⟩
    · rintro ⟨hne, r, hr, rfl⟩
      exact ⟨r, ⟨hr, hne⟩, rfl⟩

/-- The dependent ids after the cascade: those of the store, the deleted id apart. -/
theorem mem_dependentIds_cascadeDelete (id other : String) (s : Store)
    (rows : Option (List PublisherRow)) :
    other ∈ ({ cascadeDelete id s with publisher_info := rows } : Store).dependentIds ↔
      other ≠ id ∧ other ∈ s.dependentIds := by
  unfold Store.dependentIds cascadeDelete
  have h1 := mem_table_filter s.activity_info id other
  have h2 := mem_rows_filter s.contribution_info (fun r => r.publisher_id) id other
  have h3 := mem_rows_filter s.media_publisher_info (fun r => r.publisher_id) id other
  have h4 := mem_rows_filter s.recurring_donation (fun r => r.publisher_id) id other
  simp only [List.mem_append] at h1 h2 h3 h4 ⊢
  rw [h1, h2, h3, h4, ← and_or_left, ← and_or_left, ← and_or_left]

/-- The rebuilt `activity_info` of `MigrateV2toV3` is created by the text
`activityInfoSql`: when that statement fails, so does the migration. -/
theorem MigrateV2toV3_runs_activityInfoSql (env : Env) (db : Database)
    (hfail : env.exec_ok activityInfoSql = false) : (MigrateV2toV3 env db).1 = false := by
  unfold MigrateV2toV3
  split
  · have hc := run_cases env "ALTER TABLE activity_info RENAME TO activity_info_old;"
      renameActivityInfoEffect db
    generalize Database.run env "ALTER TABLE activity_info RENAME TO activity_info_old;"
      renameActivityInfoEffect db = res at hc ⊢
    obtain ⟨ok, d1⟩ := res
    rcases hc with ⟨hok, he⟩ | ⟨hok, _⟩
    · simp only at hok he
      subst hok
      have hnone : d1.store.activity_info = none := by
        unfold renameActivityInfoEffect at he
        split at he
        · simp only [Option.some.injEq] at he
          rw [← he]
          rfl
        · simp at he
      have hcreate : CreateActivityInfoTable env d1 = (false, d1) := by
        unfold CreateActivityInfoTable Store.DoesTableExist Database.run
        simp [hnone, hfail]
      dsimp only
      rw [hcreate]
    · simp only at hok
      subst hok
      rfl
  · rfl

/-- C15 (as stated, refuted): the connection that `InsertOrUpdateActivityInfo (recordA)`
opened on an empty file does not enforce foreign keys (the engine's default, which
`Init` and the write leave as it is), and deleting the `publisher_info` row of `a.com`
on it leaves the `activity_info` row of `a.com` behind, an orphan. -/
theorem delete_without_enforcement_leaves_orphan :
    writtenOnce.foreign_keys = false ∧
    writtenOnce.store.hasPublisher "a.com" = true ∧
    writtenOnce.store.dependentIds = ["a.com"] ∧
    (deletePublisherEffect "a.com" writtenOnce).map
      (fun d => (d.store.hasPublisher "a.com", d.store.dependentIds)) =
      some (false, ["a.com"]) ∧
    (deletePublisherEffect "a.com" writtenOnce).map (fun d => decide d.store.noOrphans) =
      some false := by
  decide

/-- C15 (amended): the `CREATE TABLE` texts of `contribution_info`, `activity_info`,
`media_publisher_info` and `recurring_donation` each declare the foreign key on
`publisher_info (publisher_id)` with `ON DELETE CASCADE`, and `MigrateV2toV3` rebuilds
`activity_info` with that same text.  On a connection that enforces foreign keys,
deleting an existing `publisher_info` row succeeds, removes the row, leaves no row
with that publisher id in the four dependent tables, keeps the dependent rows of
every other publisher id, and keeps a store without orphans without orphans. -/
theorem delete_cascades_when_foreign_keys_enforced (id : String) (d : Database)
    (hfk : d.foreign_keys = true) (hrow : d.store.hasPublisher id = true) :
    (declaresCascade contributionInfoSql = true ∧ declaresCascade activityInfoSql = true ∧
      declaresCascade mediaPublisherInfoSql = true ∧
      declaresCascade recurringDonationSql = true) ∧
    (∀ env db, env.exec_ok activityInfoSql = false → (MigrateV2toV3 env db).1 = false) ∧
    ∃ d', deletePublisherEffect id d = some d' ∧
      d'.store.hasPublisher id = false ∧
      id ∉ d'.store.dependentIds ∧
      (∀ other, other ≠ id →
        (other ∈ d'.store.dependentIds ↔ other ∈ d.store.dependentIds)) ∧
      (d.store.noOrphans → d'.store.noOrphans) := by
  refine ⟨by decide, MigrateV2toV3_runs_activityInfoSql, ?_⟩
  have hrow' := hrow
  unfold Store.hasPublisher at hrow'
  cases hp : d.store.publisher_info with
  | none => rw [hp] at hrow'; simp at hrow'
  | some rows =>
    rw [hp] at hrow'
    have hdel : deletePublisherEffect id d = some (d.withStore
        { cascadeDelete id d.store with
          publisher_info := some (rows.filter (fun r => r.publisher_id != id)) }) := by
      unfold deletePublisherEffect
      rw [hp]
      simp only [hfk, hrow, Bool.and_self, if_true]
    refine ⟨_, hdel, ?_, ?_, ?_, ?_⟩
    · exact hasPublisher_filter_self rows id
    · intro hmem
      exact ((mem_dependentIds_cascadeDelete id id d.store _).mp hmem).1 rfl
    · intro other hne
      constructor
      · intro hmem
        exact ((mem_dependentIds_cascadeDelete id other d.store _).mp hmem).2
      · intro hmem
        exact (mem_dependentIds_cascadeDelete id other d.store _).mpr ⟨hne, hmem⟩
    · intro hno other hmem
      have hm := (mem_dependentIds_cascadeDelete id other d.store _).mp hmem
      have hh := hno other hm.2
      unfold Store.hasPublisher at hh
      rw [hp] at hh
      exact hasPublisher_filter_other rows id other hm.1 hh

theorem delete_cascades_when_foreign_keys_enforced_witness :
    writtenOnce.enforcing.foreign_keys = true ∧
    writtenOnce.enforcing.store.hasPublisher "a.com" = true ∧
    writtenOnce.enforcing.store.dependentIds = ["a.com"] ∧
    ((declaresCascade contributionInfoSql = true ∧ declaresCascade activityInfoSql = true ∧
      declaresCascade mediaPublisherInfoSql = true ∧
      declaresCascade recurringDonationSql = true) ∧
    (∀ env db, env.exec_ok activityInfoSql = false → (MigrateV2toV3 env db).1 = false) ∧
    ∃ d', deletePublisherEffect "a.com" writtenOnce.enforcing = some d' ∧
      d'.store.hasPublisher "a.com" = false ∧
      "a.com" ∉ d'.store.dependentIds ∧
      (∀ other, other ≠ "a.com" →
        (other ∈ d'.store.dependentIds ↔ other ∈ writtenOnce.enforcing.store.dependentIds)) ∧
      (writtenOnce.enforcing.store.noOrphans → d'.store.noOrphans)) :=
  ⟨rfl, by decide, by decide,
   delete_cascades_when_foreign_keys_enforced "a.com" writtenOnce.enforcing rfl (by decide)⟩

/-! ## Idempotent table creation -/

/-- A creation step of the form "return true when the table exists, else run the
`CREATE TABLE` statement", whose statement brings the table into existence, gives
the same state when run twice as when run once. -/
theorem create_twice (env : Env) (f : Database → Bool × Database) (P : Database → Bool)
    (sql : String) (effect : Database → Option Database)
    (hf : ∀ db, f db = if P db then (true, db) else db.run env sql effect)
    (heff : ∀ d d', effect d = some d' → P d' = true) (db : Database) :
    (f (f db).2).2 = (f db).2 ∧ ((f db).1 = true → f (f db).2 = (true, (f db).2)) := by
  by_cases hP : P db = true
  · have h1 : f db = (true, db) := by rw [hf, if_pos hP]
    rw [h1]
    exact ⟨by rw [h1], fun _ => h1⟩
  · have h1 : f db = db.run env sql effect := by rw [hf, if_neg hP]
    rcases run_cases env sql effect db with ⟨hok, he⟩ | ⟨hok, he⟩
    · have hP' : P (f db).2 = true := by rw [h1]; exact heff _ _ he
      have h2 : f (f db).2 = (true, (f db).2) := by rw [hf (f db).2, if_pos hP']
      exact ⟨by rw [h2], fun _ => h2⟩
    · rw [← h1] at hok he
      refine ⟨by rw [he]; exact he, fun h => ?_⟩
      rw [hok] at h
      exact absurd h (by decide)

/-- C24: each of the five table-creation operations returns success without running a
statement when its table exists (the result is `(true, db)` in every environment,
also one in which every statement fails), and running it twice leaves the same
schema and rows as running it once; after a successful run the second run returns
success and changes nothing. -/
theorem table_creation_idempotent (env : Env) (db : Database) :
    ((db.store.DoesTableExist "publisher_info" = true →
        ∀ env', CreatePublisherInfoTable env' db = (true, db)) ∧
      (db.store.DoesTableExist "contribution_info" = true →
        ∀ env', CreateContributionInfoTable env' db = (true, db)) ∧
      (db.store.DoesTableExist "activity_info" = true →
        ∀ env', CreateActivityInfoTable env' db = (true, db)) ∧
      (db.store.DoesTableExist "media_publisher_info" = true →
        ∀ env', CreateMediaPublisherInfoTable env' db = (true, db)) ∧
      (db.store.DoesTableExist "recurring_donation" = true →
        ∀ env', CreateRecurringDonationTable env' db = (true, db))) ∧
    ((CreatePublisherInfoTable env (CreatePublisherInfoTable env db).2).2
        = (CreatePublisherInfoTable env db).2 ∧
      (CreateContributionInfoTable env (CreateContributionInfoTable env db).2).2
        = (CreateContributionInfoTable env db).2 ∧
      (CreateActivityInfoTable env (CreateActivityInfoTable env db).2).2
        = (CreateActivityInfoTable env db).2 ∧
      (CreateMediaPublisherInfoTable env (CreateMediaPublisherInfoTable env db).2).2
        = (CreateMediaPublisherInfoTable env db).2 ∧
      (CreateRecurringDonationTable env (CreateRecurringDonationTable env db).2).2
        = (CreateRecurringDonationTable env db).2) ∧
    (((CreatePublisherInfoTable env db).1 = true →
        CreatePublisherInfoTable env (CreatePublisherInfoTable env db).2
          = (true, (CreatePublisherInfoTable env db).2)) ∧
      ((CreateContributionInfoTable env db).1 = true →
        CreateContributionInfoTable env (CreateContributionInfoTable env db).2
          = (true, (CreateContributionInfoTable env db).2)) ∧
      ((CreateActivityInfoTable env db).1 = true →
        CreateActivityInfoTable env (CreateActivityInfoTable env db).2
          = (true, (CreateActivityInfoTable env db).2)) ∧
      ((CreateMediaPublisherInfoTable env db).1 = true →
        CreateMediaPublisherInfoTable env (CreateMediaPublisherInfoTable env db).2
          = (true, (CreateMediaPublisherInfoTable env db).2)) ∧
      ((CreateRecurringDonationTable env db).1 = true →
        CreateRecurringDonationTable env (CreateRecurringDonationTable env db).2
          = (true, (CreateRecurringDonationTable env db).2))) := by
  have h1 := create_twice env (CreatePublisherInfoTable env)
    (fun d => d.store.DoesTableExist "publisher_info") publisherInfoSql createPublisherInfoEffect
    (fun _ => rfl)
    (by
      intro d d' h
      unfold createPublisherInfoEffect at h
      split at h <;> simp only [Option.some.injEq, reduceCtorEq] at h
      subst h
      simp [Store.DoesTableExist, Database.withStore]) db
  have h2 := create_twice env (CreateContributionInfoTable env)
    (fun d => d.store.DoesTableExist "contribution_info") contributionInfoSql
    createContributionInfoEffect (fun _ => rfl)
    (by
      intro d d' h
      unfold createContributionInfoEffect at h
      split at h <;> simp only [Option.some.injEq, reduceCtorEq] at h
      subst h
      simp [Store.DoesTableExist, Database.withStore]) db
  have h3 := create_twice env (CreateActivityInfoTable env)
    (fun d => d.store.DoesTableExist "activity_info") activityInfoSql createActivityInfoEffect
    (fun _ => rfl)
    (by
      intro d d' h
      unfold createActivityInfoEffect at h
      split at h <;> simp only [Option.some.injEq, reduceCtorEq] at h
      subst h
      simp [Store.DoesTableExist, Database.withStore]) db
  have h4 := create_twice env (CreateMediaPublisherInfoTable env)
    (fun d => d.store.DoesTableExist "media_publisher_info") mediaPublisherInfoSql
    createMediaPublisherInfoEffect (fun _ => rfl)
    (by
      intro d d' h
      unfold createMediaPublisherInfoEffect at h
      split at h <;> simp only [Option.some.injEq, reduceCtorEq] at h
      subst h
      simp [Store.DoesTableExist, Database.withStore]) db
  have h5 := create_twice env (CreateRecurringDonationTable env)
    (fun d => d.store.DoesTableExist "recurring_donation") recurringDonationSql
    createRecurringDonationEffect (fun _ => rfl)
    (by
      intro d d' h
      unfold createRecurringDonationEffect at h
      split at h <;> simp only [Option.some.injEq, reduceCtorEq] at h
      subst h
      simp [Store.DoesTableExist, Database.withStore]) db
  refine ⟨⟨?_, ?_, ?_, ?_, ?_⟩, ⟨h1.1, h2.1, h3.1, h4.1, h5.1⟩, ⟨h1.2, h2.2, h3.2, h4.2, h5.2⟩⟩
  · intro h env'; unfold CreatePublisherInfoTable; rw [if_pos h]
  · intro h env'; unfold CreateContributionInfoTable; rw [if_pos h]
  · intro h env'; unfold CreateActivityInfoTable; rw [if_pos h]
  · intro h env'; unfold CreateMediaPublisherInfoTable; rw [if_pos h]
  · intro h env'; unfold CreateRecurringDonationTable; rw [if_pos h]

/-- C24, instance: on an empty file the first `CreateActivityInfoTable` creates the
table and the second changes nothing; with every statement failing, the creation
on a file that has the table still succeeds. -/
theorem table_creation_idempotent_witness :
    (openOn freshStore).store.DoesTableExist "activity_info" = true ∧
    (CreateActivityInfoTable { Env.ideal with exec_ok := fun _ => false } (openOn freshStore)
      = (true, openOn freshStore)) ∧
    (CreateActivityInfoTable Env.ideal (openOn Store.empty)).1 = true ∧
    (CreateActivityInfoTable Env.ideal (openOn Store.empty)).2 ≠ openOn Store.empty ∧
    CreateActivityInfoTable Env.ideal (CreateActivityInfoTable Env.ideal (openOn Store.empty)).2
      = (true, (CreateActivityInfoTable Env.ideal (openOn Store.empty)).2) :=
  ⟨by decide,
   (table_creation_idempotent Env.ideal (openOn freshStore)).1.2.2.1 (by decide) _,
   by decide, by decide,
   (table_creation_idempotent Env.ideal (openOn Store.empty)).2.2.2.2.1 (by decide)⟩

/-! ## Removing a recurring donation -/

/-- C21: for every publisher key k, once the `Init` at the start of the call has
returned `true` and left the state `self'` (the handle itself when the store is
initialized), with the connection open, the `recurring_donation` table present and
the `DELETE` statement not failing, `RemoveRecurring(k)` returns success and leaves
`recurring_donation` equal to its previous rows minus the rows with publisher_id = k,
everything else as it was; when no row has publisher_id = k it returns success and
the whole state is unchanged. -/
theorem RemoveRecurring_removes_the_row (E : Enums) (env : Env) (k : String)
    (self self' : PublisherInfoDatabase) (rows : List RecurringRow)
    (hI : Init E env self = (true, self')) (hopen : self'.db_.is_open = true)
    (hexec : env.exec_ok removeRecurringSql = true)
    (ht : self'.db_.store.recurring_donation = some rows) :
    RemoveRecurring E env k self =
      (true, { self' with db_ := self'.db_.withStore { self'.db_.store with
        recurring_donation := some (rows.filter (fun r => r.publisher_id != k)) } }) ∧
    ((∀ r ∈ rows, r.publisher_id ≠ k) → RemoveRecurring E env k self = (true, self')) := by
  have hrun : RemoveRecurring E env k self =
      (true, { self' with db_ := self'.db_.withStore { self'.db_.store with
        recurring_donation := some (rows.filter (fun r => r.publisher_id != k)) } }) := by
    simp only [RemoveRecurring, hI, Database.run, hopen, hexec, Bool.and_self, if_true,
      removeRecurringEffect, ht]
  refine ⟨hrun, fun hno => ?_⟩
  rw [hrun]
  have hfil : rows.filter (fun r => r.publisher_id != k) = rows := by
    rw [List.filter_eq_self]
    intro r hr
    simpa using hno r hr
  rw [hfil, ← ht]
  rfl

/-- C21, instance: on a store holding one recurring donation, to `a.com`, removing
`b.com` succeeds and changes nothing, and removing `a.com` empties the table. -/
theorem RemoveRecurring_removes_the_row_witness :
    Init upstreamEnums Env.ideal (readyOn storeWithDonation) = (true, readyOn storeWithDonation) ∧
    RemoveRecurring upstreamEnums Env.ideal "b.com" (readyOn storeWithDonation)
      = (true, readyOn storeWithDonation) ∧
    (RemoveRecurring upstreamEnums Env.ideal "a.com"
      (readyOn storeWithDonation)).2.db_.store.recurring_donation = some [] :=
  ⟨by decide,
   (RemoveRecurring_removes_the_row upstreamEnums Env.ideal "b.com" (readyOn storeWithDonation)
      (readyOn storeWithDonation)
      [{ publisher_id := "a.com", amount := { bits := 5 }, added_date := 7 }]
      (by decide) (by decide) (by decide) (by decide)).2 (by decide),
   by decide⟩

/-! ## The rows after `MigrateV2toV3` -/

theorem run_true (env : Env) (sql : String) (effect : Database → Option Database)
    (db d : Database) (h : Database.run env sql effect db = (true, d)) : effect db = some d := by
  rcases run_cases env sql effect db with ⟨_, he⟩ | ⟨hok, _⟩
  · rw [h] at he; exact he
  · rw [h] at hok; simp at hok

/-- A successful `MigrateV2toV3` is the chain of its eight statements, each with its
effect. -/
theorem MigrateV2toV3_steps (env : Env) (db d' : Database)
    (h : MigrateV2toV3 env db = (true, d')) :
    ∃ d1 d2 d3 d4 d5 d6 d7,
      renameActivityInfoEffect db = some d1 ∧
      CreateActivityInfoTable env d1 = (true, d2) ∧
      createIndexEffect "activity_info_publisher_id_index" "activity_info" d2 = some d3 ∧
      foreignKeysEffect false d3 = some d4 ∧
      copyActivityEffect d4 = some d5 ∧
      setVisitsEffect d5 = some d6 ∧
      dropActivityInfoOldEffect d6 = some d7 ∧
      foreignKeysEffect true d7 = some d' := by
  unfold MigrateV2toV3 at h
  split at h
  · revert h
    cases h1 : Database.run env "ALTER TABLE activity_info RENAME TO activity_info_old;"
      renameActivityInfoEffect db with
    | mk ok1 d1 =>
    cases ok1
    · intro h; simp at h
    dsimp only
    cases h2 : CreateActivityInfoTable env d1 with
    | mk ok2 d2 =>
    cases ok2
    · intro h; simp at h
    dsimp only
    cases h3 : CreateActivityInfoIndex env d2 with
    | mk ok3 d3 =>
    cases ok3
    · intro h; simp at h
    dsimp only
    simp only [migrateV2toV3Script, Database.runScript]
    cases h4 : Database.run env "PRAGMA foreign_keys=off;" (foreignKeysEffect false) d3 with
    | mk ok4 d4 =>
    cases ok4
    · intro h; simp at h
    dsimp only
    generalize hsql : ("INSERT INTO activity_info (" ++
      ("publisher_id, " ++ "duration, " ++ "score, " ++ "percent, " ++ "weight, " ++
        "month, " ++ "year, " ++ "reconcile_stamp") ++ ") " ++ "SELECT " ++
      ("publisher_id, " ++ "duration, " ++ "score, " ++ "percent, " ++ "weight, " ++
        "month, " ++ "year, " ++ "reconcile_stamp") ++ " " ++ "FROM activity_info_old;") = copySql
    cases h5 : Database.run env copySql copyActivityEffect d4 with
    | mk ok5 d5 =>
    cases ok5
    · intro h; simp at h
    dsimp only
    cases h6 : Database.run env "UPDATE activity_info SET visits=5;" setVisitsEffect d5 with
    | mk ok6 d6 =>
    cases ok6
    · intro h; simp at h
    dsimp only
    cases h7 : Database.run env "DROP TABLE activity_info_old;" dropActivityInfoOldEffect d6 with
    | mk ok7 d7 =>
    cases ok7
    · intro h; simp at h
    dsimp only
    intro h8
    have h8' : Database.run env "PRAGMA foreign_keys=on;" (foreignKeysEffect true) d7 = (true, d') := by
      revert h8
      cases Database.run env "PRAGMA foreign_keys=on;" (foreignKeysEffect true) d7 with
      | mk ok8 d8 =>
      cases ok8
      · intro h; simp at h
      · intro h; simpa using h
    exact ⟨d1, d2, d3, d4, d5, d6, d7, run_true _ _ _ _ _ h1, h2,
      run_true _ _ _ _ _ h3, run_true _ _ _ _ _ h4, run_true _ _ _ _ _ h5,
      run_true _ _ _ _ _ h6, run_true _ _ _ _ _ h7, run_true _ _ _ _ _ h8'⟩
  · simp at h

/-- C26: when `MigrateV2toV3` succeeds on a store with an `activity_info` table, that
table had the eight copied columns and no `activity_info_old` stood in the way; the
new `activity_info` has the columns and the constraint of the current schema and
holds exactly one row per old row, in the same order, equal to it on publisher_id,
duration, score, percent, weight, month, year and reconcile_stamp, every row with
visits = 5; and `activity_info_old` no longer exists. -/
theorem MigrateV2toV3_copies_rows (env : Env) (db : Database) (told : ActivityTable)
    (hok : (MigrateV2toV3 env db).1 = true) (ht : db.store.activity_info = some told) :
    migrateColumns.all (fun c => told.columns.contains c) = true ∧
    (MigrateV2toV3 env db).2.store.activity_info =
      some { columns := activityColumns, activity_unique := true,
             rows := told.rows.map (fun r => { r with visits := 5 }) } ∧
    (MigrateV2toV3 env db).2.store.activity_info_old = none := by
  obtain ⟨d1, d2, d3, d4, d5, d6, d7, h1, h2, h3, h4, h5, h6, h7, h8⟩ :=
    MigrateV2toV3_steps env db _ (pair_of_fst_true _ hok)
  generalize (MigrateV2toV3 env db).2 = d' at h8 ⊢
  -- the renaming
  have e1 : d1.store.activity_info = none ∧ d1.store.activity_info_old = some told := by
    unfold renameActivityInfoEffect at h1
    rw [ht] at h1
    split at h1
    · rename_i t heq _
      simp only [Option.some.injEq] at h1 heq
      subst h1 heq
      exact ⟨rfl, rfl⟩
    · simp at h1
  -- the new table
  have e2 : d2.store.activity_info =
        some { columns := activityColumns, activity_unique := true, rows := [] } ∧
      d2.store.activity_info_old = some told := by
    unfold CreateActivityInfoTable at h2
    have hno : d1.store.DoesTableExist "activity_info" = false := by
      simp [Store.DoesTableExist, e1.1]
    rw [hno] at h2
    have he := run_true _ _ _ _ _ h2
    unfold createActivityInfoEffect at he
    rw [e1.1] at he
    simp only [Option.some.injEq] at he
    subst he
    exact ⟨rfl, e1.2⟩
  have e3 : d3.store.activity_info = d2.store.activity_info ∧
      d3.store.activity_info_old = d2.store.activity_info_old := by
    unfold createIndexEffect at h3
    split at h3
    · split at h3 <;> (simp only [Option.some.injEq] at h3; subst h3; exact ⟨rfl, rfl⟩)
    · simp at h3
  have e4 : d4.store = d3.store ∧ d4.foreign_keys = (d4.foreign_keys) := by
    unfold foreignKeysEffect at h4
    split at h4 <;> (simp only [Option.some.injEq] at h4; subst h4; exact ⟨rfl, rfl⟩)
  have a4 : d4.store.activity_info =
      some { columns := activityColumns, activity_unique := true, rows := [] } := by
    rw [e4.1, e3.1, e2.1]
  have o4 : d4.store.activity_info_old = some told := by rw [e4.1, e3.2, e2.2]
  -- the copy
  have e5 : migrateColumns.all (fun c => told.columns.contains c) = true ∧
      d5.store.activity_info =
        some { columns := activityColumns, activity_unique := true,
               rows := told.rows.map (fun r => { r with visits := 0 }) } ∧
      d5.store.activity_info_old = some told := by
    unfold copyActivityEffect at h5
    rw [a4, o4] at h5
    dsimp only at h5
    split at h5
    · rename_i hcols
      split at h5
      · simp at h5
      · split at h5
        · simp at h5
        · simp only [Option.some.injEq] at h5
          subst h5
          refine ⟨?_, by simp [Database.withStore], o4⟩
          rw [List.all_eq_true] at hcols ⊢
          intro c hc
          have := hcols c hc
          simp only [Bool.and_eq_true] at this
          exact this.2
    · simp at h5
  have e6 : d6.store.activity_info =
        some { columns := activityColumns, activity_unique := true,
               rows := told.rows.map (fun r => { r with visits := 5 }) } ∧
      d6.store.activity_info_old = some told := by
    unfold setVisitsEffect at h6
    rw [e5.2.1] at h6
    dsimp only at h6
    split at h6
    · simp only [Option.some.injEq] at h6
      subst h6
      refine ⟨?_, e5.2.2⟩
      simp [Database.withStore, List.map_map, Function.comp_def]
    · simp at h6
  have e7 : d7.store.activity_info = d6.store.activity_info ∧
      d7.store.activity_info_old = none := by
    unfold dropActivityInfoOldEffect at h7
    split at h7
    · simp only [Option.some.injEq] at h7
      subst h7
      exact ⟨rfl, rfl⟩
    · simp at h7
  have e8 : d'.store = d7.store := by
    unfold foreignKeysEffect at h8
    split at h8 <;> (simp only [Option.some.injEq] at h8; subst h8; rfl)
  exact ⟨e5.1, by rw [e8, e7.1, e6.1], by rw [e8, e7.2]⟩

/-- C26, instance: the version-2 store with one activity row of `a.com`; the migration
succeeds and the row comes back with visits = 5. -/
theorem MigrateV2toV3_copies_rows_witness :
    (MigrateV2toV3 Env.ideal (openOn version2Store)).1 = true ∧
    (MigrateV2toV3 Env.ideal (openOn version2Store)).2.store.activity_info =
      some { columns := activityColumns, activity_unique := true,
             rows := [{ activityA with reconcile_stamp := 1000, visits := 5 }] } ∧
    (MigrateV2toV3 Env.ideal (openOn version2Store)).2.store.activity_info_old = none :=
  ⟨by decide,
   (MigrateV2toV3_copies_rows Env.ideal (openOn version2Store) _ (by decide) rfl).2⟩

/-! ## `activity_info` exists when `Init` reaches the version check -/

theorem DoesTableExist_activity_info (s : Store) :
    s.DoesTableExist "activity_info" = s.activity_info.isSome := by
  simp [Store.DoesTableExist]

theorem run_keepsActivityTable (env : Env) (sql : String)
    (effect : Database → Option Database) (h : EffectKeepsActivityTable effect) :
    KeepsActivityTable (Database.run env sql effect) := by
  intro db hp
  rcases run_cases env sql effect db with ⟨_, he⟩ | ⟨_, he⟩
  · exact h db _ he hp
  · rw [he]; exact hp

theorem keepsActivityTable_andThen (f g : Database → Bool × Database)
    (hf : KeepsActivityTable f) (hg : KeepsActivityTable g) :
    KeepsActivityTable (fun db => match f db with
      | (false, d) => (false, d)
      | (true, d) => g d) := by
  intro db hp
  have h1 := hf db hp
  dsimp only
  cases hr : f db with
  | mk ok d =>
    rw [hr] at h1
    cases ok
    · exact h1
    · exact hg d h1

theorem runScript_keepsActivityTable (env : Env)
    (script : List (String × (Database → Option Database)))
    (h : ∀ p ∈ script, EffectKeepsActivityTable p.2) :
    KeepsActivityTable (Database.runScript env script) := by
  induction script with
  | nil => intro db hp; exact hp
  | cons p rest ih =>
    obtain ⟨sql, effect⟩ := p
    intro db hp
    have h1 := run_keepsActivityTable env sql effect (h (sql, effect) (List.mem_cons_self _ _))
      db hp
    have h2 := ih (fun q hq => h q (List.mem_cons_of_mem _ hq))
    simp only [Database.runScript]
    cases hr : Database.run env sql effect db with
    | mk ok d =>
      rw [hr] at h1
      cases ok
      · exact h1
      · exact h2 d h1

theorem createIndexEffect_keepsActivityTable (name table : String) :
    EffectKeepsActivityTable (createIndexEffect name table) := by
  intro d d' h hp
  unfold createIndexEffect at h
  split at h
  · split at h <;> (simp only [Option.some.injEq] at h; subst h; exact hp)
  · simp at h

theorem CreateContributionInfoTable_keepsActivityTable (env : Env) :
    KeepsActivityTable (CreateContributionInfoTable env) := by
  intro db hp
  unfold CreateContributionInfoTable
  split
  · exact hp
  · refine run_keepsActivityTable env _ _ ?_ db hp
    intro d d' h hp
    unfold createContributionInfoEffect at h
    split at h <;> simp only [Option.some.injEq, reduceCtorEq] at h
    subst h; exact hp

theorem CreateMediaPublisherInfoTable_keepsActivityTable (env : Env) :
    KeepsActivityTable (CreateMediaPublisherInfoTable env) := by
  intro db hp
  unfold CreateMediaPublisherInfoTable
  split
  · exact hp
  · refine run_keepsActivityTable env _ _ ?_ db hp
    intro d d' h hp
    unfold createMediaPublisherInfoEffect at h
    split at h <;> simp only [Option.some.injEq, reduceCtorEq] at h
    subst h; exact hp

theorem CreateRecurringDonationTable_keepsActivityTable (env : Env) :
    KeepsActivityTable (CreateRecurringDonationTable env) := by
  intro db hp
  unfold CreateRecurringDonationTable
  split
  · exact hp
  · refine run_keepsActivityTable env _ _ ?_ db hp
    intro d d' h hp
    unfold createRecurringDonationEffect at h
    split at h <;> simp only [Option.some.injEq, reduceCtorEq] at h
    subst h; exact hp

/-- After a successful `CreateActivityInfoTable` the table exists. -/
theorem CreateActivityInfoTable_exists (env : Env) (db d : Database)
    (h : CreateActivityInfoTable env db = (true, d)) : d.store.activity_info.isSome = true := by
  unfold CreateActivityInfoTable at h
  split at h
  · rename_i hex
    simp only [Prod.mk.injEq, true_and] at h
    subst h
    rw [DoesTableExist_activity_info] at hex
    exact hex
  · have he := run_true _ _ _ _ _ h
    unfold createActivityInfoEffect at he
    split at he <;> simp only [Option.some.injEq, reduceCtorEq] at he
    subst he
    rfl

/-- After the five table creations of `Init` succeeded, `activity_info` exists. -/
theorem createAllTables_activity_exists (env : Env) (db d : Database)
    (h : createAllTables env db = (true, d)) : d.store.activity_info.isSome = true := by
  unfold createAllTables at h
  revert h
  cases h1 : CreatePublisherInfoTable env db with
  | mk ok1 d1 =>
  cases ok1
  · intro h; simp at h
  dsimp only
  cases h2 : CreateContributionInfoTable env d1 with
  | mk ok2 d2 =>
  cases ok2
  · intro h; simp at h
  dsimp only
  cases h3 : CreateActivityInfoTable env d2 with
  | mk ok3 d3 =>
  cases ok3
  · intro h; simp at h
  dsimp only
  have e3 := CreateActivityInfoTable_exists env d2 d3 h3
  have e4 := CreateMediaPublisherInfoTable_keepsActivityTable env d3 e3
  cases h4 : CreateMediaPublisherInfoTable env d3 with
  | mk ok4 d4 =>
  rw [h4] at e4
  cases ok4
  · intro h; simp at h
  dsimp only
  intro h
  have e5 := CreateRecurringDonationTable_keepsActivityTable env d4 e4
  rw [h] at e5
  exact e5

theorem createAllIndexes_keepsActivityTable (env : Env) (db : Database)
    (hp : db.store.activity_info.isSome = true) :
    (createAllIndexes env db).store.activity_info.isSome = true := by
  unfold createAllIndexes
  exact run_keepsActivityTable env _ _ (createIndexEffect_keepsActivityTable _ _) _
    (run_keepsActivityTable env _ _ (createIndexEffect_keepsActivityTable _ _) _
      (run_keepsActivityTable env _ _ (createIndexEffect_keepsActivityTable _ _) _ hp))

theorem MigrateV1toV2_keepsActivityTable (env : Env) : KeepsActivityTable (MigrateV1toV2 env) := by
  intro db hp
  have hadd : EffectKeepsActivityTable addReconcileStampEffect := by
    intro d d' h hp
    unfold addReconcileStampEffect at h
    split at h
    · split at h <;> simp only [Option.some.injEq, reduceCtorEq] at h
      subst h; rfl
    · simp at h
  have hdrop : EffectKeepsActivityTable dropContributionInfoEffect := by
    intro d d' h hp
    unfold dropContributionInfoEffect at h
    split at h <;> simp only [Option.some.injEq, reduceCtorEq] at h
    subst h; exact hp
  have hscript : ∀ script : List (String × (Database → Option Database)),
      (∀ p ∈ script, EffectKeepsActivityTable p.2) →
      (match db.runScript env script with
        | (false, db) => (false, db)
        | (true, db) =>
          match CreateContributionInfoTable env db with
          | (false, db) => (false, db)
          | (true, db) =>
            match CreateContributionInfoIndex env db with
            | (false, db) => (false, db)
            | (true, db) =>
              match CreateRecurringDonationTable env db with
              | (false, db) => (false, db)
              | (true, db) => CreateRecurringDonationIndex env db).2.store.activity_info.isSome
          = true := by
    intro script hs
    exact keepsActivityTable_andThen _ _ (runScript_keepsActivityTable env script hs)
      (keepsActivityTable_andThen _ _ (CreateContributionInfoTable_keepsActivityTable env)
        (keepsActivityTable_andThen _ _
          (run_keepsActivityTable env _ _ (createIndexEffect_keepsActivityTable _ _))
          (keepsActivityTable_andThen _ _ (CreateRecurringDonationTable_keepsActivityTable env)
            (run_keepsActivityTable env _ _ (createIndexEffect_keepsActivityTable _ _))))) db hp
  unfold MigrateV1toV2
  apply hscript
  intro p hp
  split_ifs at hp <;> simp at hp
  all_goals first
    | (rcases hp with rfl | rfl
       · exact hadd
       · exact hdrop)
    | (subst hp; exact hadd)
    | (subst hp; exact hdrop)

/-- C30: whenever `Init` gets to `EnsureCurrentVersion`, that is after its five table
creations returned `true`, the database it hands over has the `activity_info` table,
and `MigrateV1toV2` would leave the table in place; `EnsureCurrentVersion` either
runs no migration or runs `MigrateV2toV3` on exactly that database, so the branch
"activity_info absent" of `MigrateV2toV3` is never taken from `Init`. -/
theorem activity_info_exists_at_migration (E : Enums) (env : Env)
    (self : PublisherInfoDatabase) (ht : (initTables env self).1 = true) :
    initVersionCheck E env self =
      EnsureCurrentVersion E env (createAllIndexes env (initTables env self).2) ∧
    (createAllIndexes env (initTables env self).2).store.DoesTableExist "activity_info" = true ∧
    (MigrateV1toV2 env (createAllIndexes env (initTables env self).2)).2.store.DoesTableExist
      "activity_info" = true ∧
    (initVersionCheck E env self =
        (E.INIT_TOO_NEW, createAllIndexes env (initTables env self).2) ∨
      initVersionCheck E env self =
        (E.INIT_OK, createAllIndexes env (initTables env self).2) ∨
      initVersionCheck E env self =
        (E.INIT_OK, SetVersionNumber env GetCurrentVersion
          (MigrateV2toV3 env (createAllIndexes env (initTables env self).2)).2)) := by
  have hex : (createAllIndexes env (initTables env self).2).store.activity_info.isSome = true :=
    createAllIndexes_keepsActivityTable env _
      (createAllTables_activity_exists env _ _ (pair_of_fst_true _ ht))
  refine ⟨rfl, ?_, ?_, ?_⟩
  · rw [DoesTableExist_activity_info]; exact hex
  · rw [DoesTableExist_activity_info]; exact MigrateV1toV2_keepsActivityTable env _ hex
  · unfold initVersionCheck
    generalize createAllIndexes env (initTables env self).2 = db
    by_cases hnew : GetCompatibleVersionNumber db > GetCurrentVersion
    · left; exact EnsureCurrentVersion_too_new E env db hnew
    · have hs := EnsureCurrentVersion_shape E env db (not_lt.mp hnew)
      by_cases hv : GetVersionNumber db = 1 ∨ GetVersionNumber db = 2
      · right; right; exact hs.1 hv
      · right; left; exact hs.2 (fun h => hv (Or.inl h)) (fun h => hv (Or.inr h))

/-- C30, instance: opening the version-2 store; the table creations succeed, the
database handed to the version check has `activity_info`, and the migration that
runs on it succeeds. -/
theorem activity_info_exists_at_migration_witness :
    (initTables Env.ideal (closedOn version2Store)).1 = true ∧
    (createAllIndexes Env.ideal (initTables Env.ideal (closedOn version2Store)).2
      ).store.DoesTableExist "activity_info" = true ∧
    (MigrateV2toV3 Env.ideal
      (createAllIndexes Env.ideal (initTables Env.ideal (closedOn version2Store)).2)).1 = true :=
  ⟨by decide,
   (activity_info_exists_at_migration upstreamEnums Env.ideal (closedOn version2Store)
      (by decide)).2.1,
   by decide⟩

/-! ## Filter fields that count as absent -/

theorem evalPredicate_ignores_year (clause : String) (p : Option BindValue) (r : JoinedRow)
    (v : Int) (h : clause ≠ " AND ai.year = ?") :
    evalPredicate clause p { r with ai := { r.ai with year := v } } = evalPredicate clause p r := by
  unfold evalPredicate
  cases p with
  | none => rfl
  | some p =>
    dsimp only
    split_ifs <;> rfl

theorem evalPredicate_ignores_stamp (clause : String) (p : Option BindValue) (r : JoinedRow)
    (v : Int) (h : clause ≠ " AND ai.reconcile_stamp = ?") :
    evalPredicate clause p { r with ai := { r.ai with reconcile_stamp := v } }
      = evalPredicate clause p r := by
  unfold evalPredicate
  cases p with
  | none => rfl
  | some p =>
    dsimp only
    split_ifs <;> rfl

theorem evalPredicate_ignores_duration (clause : String) (p : Option BindValue) (r : JoinedRow)
    (v : Int) (h : clause ≠ " AND ai.duration >= ?") :
    evalPredicate clause p { r with ai := { r.ai with duration := v } }
      = evalPredicate clause p r := by
  unfold evalPredicate
  cases p with
  | none => rfl
  | some p =>
    dsimp only
    split_ifs <;> rfl

/-- The `WHERE` condition gives the same answer on two rows on which every clause of
the filter does. -/
theorem whereHolds_congr (E : Enums) (f : PublisherInfoFilter) (r r' : JoinedRow)
    (h : ∀ c ∈ specClauses E f, evalPredicate c.1 (some c.2) r' = evalPredicate c.1 (some c.2) r) :
    whereHolds ((specClauses E f).map Prod.fst) (bindFilter E f).bound r' =
      whereHolds ((specClauses E f).map Prod.fst) (bindFilter E f).bound r := by
  rw [whereHolds_filter, whereHolds_filter, Bool.eq_iff_iff, List.all_eq_true, List.all_eq_true]
  constructor
  · intro H c hc
    rw [← h c hc]; exact H c hc
  · intro H c hc
    rw [h c hc]; exact H c hc

theorem no_year_clause (E : Enums) (f : PublisherInfoFilter) (h : f.year ≤ 0) :
    ∀ c ∈ specClauses E f, c.1 ≠ " AND ai.year = ?" := by
  intro c hc
  unfold specClauses fieldClauses exclusionClause at hc
  rw [if_neg (not_lt.mpr h)] at hc
  simp only [List.append_nil, List.mem_append] at hc
  rcases hc with (((hc | hc) | hc) | hc) | (hc | hc) <;>
    (split_ifs at hc <;> first | (simp at hc; done) | (simp at hc; subst hc; dsimp only; decide))

theorem no_stamp_clause (E : Enums) (f : PublisherInfoFilter) (h : f.reconcile_stamp ≤ 0) :
    ∀ c ∈ specClauses E f, c.1 ≠ " AND ai.reconcile_stamp = ?" := by
  intro c hc
  unfold specClauses fieldClauses exclusionClause at hc
  rw [if_neg (not_lt.mpr h)] at hc
  simp only [List.append_nil, List.mem_append] at hc
  rcases hc with (((hc | hc) | hc) | hc) | (hc | hc) <;>
    (split_ifs at hc <;> first | (simp at hc; done) | (simp at hc; subst hc; dsimp only; decide))

theorem no_duration_clause (E : Enums) (f : PublisherInfoFilter) (h : f.min_duration ≤ 0) :
    ∀ c ∈ specClauses E f, c.1 ≠ " AND ai.duration >= ?" := by
  intro c hc
  unfold specClauses fieldClauses exclusionClause at hc
  rw [if_neg (not_lt.mpr h)] at hc
  simp only [List.append_nil, List.mem_append] at hc
  rcases hc with (((hc | hc) | hc) | hc) | (hc | hc) <;>
    (split_ifs at hc <;> first | (simp at hc; done) | (simp at hc; subst hc; dsimp only; decide))

/-- C28: in `GetPublisherActivityList` the text is the base query followed by the
clauses of the fields that are set, and one parameter is bound per clause.  A filter
value year <= 0, reconcile_stamp <= 0 or min_duration <= 0 contributes no clause (so
no predicate in the text and no bound parameter), and the `WHERE` condition then
gives the same answer whatever the year, the reconcile stamp or the duration of a
row is: a filter with reconcile_stamp = 0 does not select the rows of stamp 0. -/
theorem nonpositive_fields_count_as_absent (E : Enums) (f : PublisherInfoFilter) :
    (appendPredicates E f baseQuery
        = baseQuery ++ String.join ((specClauses E f).map Prod.fst) ∧
      (bindFilter E f).bound = ((specClauses E f).map Prod.snd).enum) ∧
    (f.year ≤ 0 →
      (∀ c ∈ specClauses E f, c.1 ≠ " AND ai.year = ?") ∧
      ∀ (r : JoinedRow) (v : Int),
        whereHolds ((specClauses E f).map Prod.fst) (bindFilter E f).bound
            { r with ai := { r.ai with year := v } } =
          whereHolds ((specClauses E f).map Prod.fst) (bindFilter E f).bound r) ∧
    (f.reconcile_stamp ≤ 0 →
      (∀ c ∈ specClauses E f, c.1 ≠ " AND ai.reconcile_stamp = ?") ∧
      ∀ (r : JoinedRow) (v : Int),
        whereHolds ((specClauses E f).map Prod.fst) (bindFilter E f).bound
            { r with ai := { r.ai with reconcile_stamp := v } } =
          whereHolds ((specClauses E f).map Prod.fst) (bindFilter E f).bound r) ∧
    (f.min_duration ≤ 0 →
      (∀ c ∈ specClauses E f, c.1 ≠ " AND ai.duration >= ?") ∧
      ∀ (r : JoinedRow) (v : Int),
        whereHolds ((specClauses E f).map Prod.fst) (bindFilter E f).bound
            { r with ai := { r.ai with duration := v } } =
          whereHolds ((specClauses E f).map Prod.fst) (bindFilter E f).bound r) := by
  refine ⟨⟨appendPredicates_eq E f baseQuery, bindFilter_eq E f⟩, ?_, ?_, ?_⟩
  · intro h
    refine ⟨no_year_clause E f h, fun r v => whereHolds_congr E f _ _ ?_⟩
    intro c hc
    exact evalPredicate_ignores_year c.1 _ r v (no_year_clause E f h c hc)
  · intro h
    refine ⟨no_stamp_clause E f h, fun r v => whereHolds_congr E f _ _ ?_⟩
    intro c hc
    exact evalPredicate_ignores_stamp c.1 _ r v (no_stamp_clause E f h c hc)
  · intro h
    refine ⟨no_duration_clause E f h, fun r v => whereHolds_congr E f _ _ ?_⟩
    intro c hc
    exact evalPredicate_ignores_duration c.1 _ r v (no_duration_clause E f h c hc)

/-- C28, instance: the filter with no field set has reconcile_stamp = 0; on a store
with a row of stamp 0 and a row of stamp 1000 it returns both records, the text is
the base query and nothing is bound. -/
theorem nonpositive_fields_count_as_absent_witness :
    emptyFilter.reconcile_stamp ≤ 0 ∧
    buildQuery upstreamEnums 0 0 emptyFilter = baseQuery ∧
    (bindFilter upstreamEnums emptyFilter).bound = [] ∧
    ((GetPublisherActivityList upstreamEnums Env.ideal 0 0 emptyFilter []
        (readyOn storeWithTwoStamps)).2.1.map (fun rec => rec.reconcile_stamp)) = [0, 1000] ∧
    ∀ (r : JoinedRow) (v : Int),
      whereHolds ((specClauses upstreamEnums emptyFilter).map Prod.fst)
          (bindFilter upstreamEnums emptyFilter).bound
          { r with ai := { r.ai with reconcile_stamp := v } } =
        whereHolds ((specClauses upstreamEnums emptyFilter).map Prod.fst)
          (bindFilter upstreamEnums emptyFilter).bound r :=
  ⟨by decide, by decide, by decide, by decide,
   ((nonpositive_fields_count_as_absent upstreamEnums emptyFilter).2.2.1 (by decide)).2⟩

/-! ## The `visits` column -/

/-- The activity table after one `InsertOrUpdateActivityInfo`, compared with the one
in the state `self'` that the `Init` at the start of the call left: unchanged when a
statement failed, else the rows with the key of the record removed and the row of
the record appended. -/
theorem InsertOrUpdateActivityInfo_rows_after_Init (E : Enums) (env : Env) (R : PublisherInfo)
    (self self' : PublisherInfoDatabase) (t : ActivityTable)
    (hI : Init E env self = (true, self'))
    (ht : self'.db_.store.activity_info = some t) :
    ∃ rows, (InsertOrUpdateActivityInfo E env R self).2.db_.store.activity_info
        = some { t with rows := rows } ∧
      (rows = t.rows ∨
        rows = (if t.activity_unique then
            t.rows.filter (fun r => activityKey r != activityKey (activityRowOf R))
          else t.rows) ++ [activityRowOf R]) ∧
      ((InsertOrUpdateActivityInfo E env R self).1 = true →
        rows = (if t.activity_unique then
            t.rows.filter (fun r => activityKey r != activityKey (activityRowOf R))
          else t.rows) ++ [activityRowOf R]) := by
  simp only [InsertOrUpdateActivityInfo, hI]
  have hc1 := run_cases env ignorePublisherSql (ignorePublisherEffect R) self'.db_
  generalize Database.run env ignorePublisherSql (ignorePublisherEffect R) self'.db_ = r1 at hc1 ⊢
  obtain ⟨ok1, d1⟩ := r1
  rcases hc1 with ⟨hok, he⟩ | ⟨hok, he⟩
  · simp only at hok he
    subst hok
    dsimp only
    have ha := (ignorePublisherEffect_spec R _ _ he).2.2.1
    have ht1 : d1.store.activity_info = some t := ha.trans ht
    have hc2 := run_cases env replaceActivitySql (replaceActivityEffect R) d1
    generalize Database.run env replaceActivitySql (replaceActivityEffect R) d1 = r2 at hc2 ⊢
    obtain ⟨ok2, d2⟩ := r2
    rcases hc2 with ⟨hok2, he2⟩ | ⟨hok2, he2⟩
    · simp only at hok2 he2
      subst hok2
      exact ⟨_, (replaceActivityEffect_rows R d1 d2 t ht1 he2).1, Or.inr rfl, fun _ => rfl⟩
    · simp only at hok2 he2
      subst hok2 he2
      exact ⟨t.rows, ht1, Or.inl rfl, fun h => by simp at h⟩
  · simp only at hok he
    subst hok he
    exact ⟨t.rows, ht, Or.inl rfl, fun h => by simp at h⟩

/-- C29: the row `InsertOrUpdateActivityInfo` binds has visits = 0, the column
default, as its statement does not name the column.  After a successful call on the
table the store creates, the row of the record is in the table, every row with the
key of the record has visits = 0 (a replaced row loses the visits it had), and the
other rows are the ones from before.  `GetPublisherActivityList` does not read
visits back: its select list and predicates do not name the column, and neither
the `WHERE` condition nor the record built from a row depends on the row's visits. -/
theorem activity_write_resets_visits (E : Enums) (env : Env) (R : PublisherInfo)
    (self self' : PublisherInfoDatabase) (t : ActivityTable)
    (hI : Init E env self = (true, self'))
    (ht : self'.db_.store.activity_info = some t) (hu : t.activity_unique = true)
    (hok : (InsertOrUpdateActivityInfo E env R self).1 = true) :
    ((activityRowOf R).visits = 0 ∧
      countOccurrences "visits".toList replaceActivitySql.toList = 0) ∧
    (∃ t', (InsertOrUpdateActivityInfo E env R self).2.db_.store.activity_info = some t' ∧
      activityRowOf R ∈ t'.rows ∧
      (∀ r ∈ t'.rows, activityKey r = activityKey (activityRowOf R) → r.visits = 0) ∧
      (∀ r ∈ t'.rows, activityKey r ≠ activityKey (activityRowOf R) → r ∈ t.rows)) ∧
    (countOccurrences "visits".toList baseQuery.toList = 0 ∧
      (∀ (f : PublisherInfoFilter) c, c ∈ specClauses E f →
        countOccurrences "visits".toList c.1.toList = 0) ∧
      (∀ (r : JoinedRow) (v : Int), readRow { r with ai := { r.ai with visits := v } } = readRow r) ∧
      (∀ (predicates : List String) (bound : List (Nat × BindValue)) (r : JoinedRow) (v : Int),
        whereHolds predicates bound { r with ai := { r.ai with visits := v } }
          = whereHolds predicates bound r)) := by
  refine ⟨⟨rfl, by decide⟩, ?_, by decide, ?_, fun r v => rfl, ?_⟩
  · obtain ⟨rows, hrows, _, hsucc⟩ :=
      InsertOrUpdateActivityInfo_rows_after_Init E env R self self' t hI ht
    have hr := hsucc hok
    rw [hu] at hr
    simp only [if_true] at hr
    refine ⟨_, hrows, ?_, ?_, ?_⟩
    · rw [hr]; simp
    · intro r hmem hkey
      rw [hr] at hmem
      simp only [List.mem_append, List.mem_filter, List.mem_singleton] at hmem
      rcases hmem with ⟨_, hne⟩ | rfl
      · simp [hkey] at hne
      · rfl
    · intro r hmem hkey
      rw [hr] at hmem
      simp only [List.mem_append, List.mem_filter, List.mem_singleton] at hmem
      rcases hmem with ⟨hin, _⟩ | rfl
      · exact hin
      · exact absurd rfl hkey
  · intro f c hc
    unfold specClauses fieldClauses exclusionClause at hc
    simp only [List.mem_append] at hc
    rcases hc with ((((hc | hc) | hc) | hc) | hc) | (hc | hc) <;>
      (split_ifs at hc <;> first | (simp at hc; done) | (simp at hc; subst hc; dsimp only; decide))
  · intro predicates bound r v
    unfold whereHolds
    congr 1

/-- C29, instance: the store holds the row of key (`a.com`, 3, 2020, 1000) with
visits = 5; writing `recordA`, which has that key, leaves one row, with visits = 0. -/
theorem activity_write_resets_visits_witness :
    Init upstreamEnums Env.ideal (readyOn storeWithVisits) = (true, readyOn storeWithVisits) ∧
    (InsertOrUpdateActivityInfo upstreamEnums Env.ideal recordA (readyOn storeWithVisits)).1
      = true ∧
    ((InsertOrUpdateActivityInfo upstreamEnums Env.ideal recordA
      (readyOn storeWithVisits)).2.db_.store.activity_info.map
        (fun t => t.rows.map (fun r => (activityKey r, r.visits))))
      = some [(("a.com", 3, 2020, 1000), 0)] ∧
    ∃ t', (InsertOrUpdateActivityInfo upstreamEnums Env.ideal recordA
        (readyOn storeWithVisits)).2.db_.store.activity_info = some t' ∧
      activityRowOf recordA ∈ t'.rows ∧
      (∀ r ∈ t'.rows, activityKey r = activityKey (activityRowOf recordA) → r.visits = 0) ∧
      (∀ r ∈ t'.rows, activityKey r ≠ activityKey (activityRowOf recordA) →
        r ∈ [{ activityA with reconcile_stamp := 1000, visits := 5 }]) :=
  ⟨by decide, by decide, by decide,
   (activity_write_resets_visits upstreamEnums Env.ideal recordA (readyOn storeWithVisits)
      (readyOn storeWithVisits)
      { columns := activityColumns, activity_unique := true,
        rows := [{ activityA with reconcile_stamp := 1000, visits := 5 }] }
      (by decide) (by decide) (by decide) (by decide)).2.1⟩

/-! ## The connection's foreign-key setting through `Init` -/

theorem run_keepsConnection (env : Env) (sql : String) (effect : Database → Option Database)
    (h : EffectKeepsConnection effect) : KeepsConnection (Database.run env sql effect) := by
  intro db hn
  rcases run_cases env sql effect db with ⟨_, he⟩ | ⟨_, he⟩
  · exact h db _ he hn
  · rw [he]; exact ⟨rfl, rfl⟩

theorem keepsConnection_andThen (f g : Database → Bool × Database) (hf : KeepsConnection f)
    (hg : KeepsConnection g) :
    KeepsConnection (fun db => match f db with
      | (false, d) => (false, d)
      | (true, d) => g d) := by
  intro db hn
  have h1 := hf db hn
  dsimp only
  cases hr : f db with
  | mk ok d =>
    rw [hr] at h1
    cases ok
    · exact h1
    · have h2 := hg d (by rw [h1.2]; exact hn)
      exact ⟨h2.1.trans h1.1, h2.2.trans h1.2⟩

theorem runScript_keepsConnection (env : Env)
    (script : List (String × (Database → Option Database)))
    (h : ∀ p ∈ script, EffectKeepsConnection p.2) :
    KeepsConnection (Database.runScript env script) := by
  induction script with
  | nil => intro db _; exact ⟨rfl, rfl⟩
  | cons p rest ih =>
    obtain ⟨sql, effect⟩ := p
    intro db hn
    have h1 := run_keepsConnection env sql effect (h (sql, effect) (List.mem_cons_self _ _))
      db hn
    have h2 := ih (fun q hq => h q (List.mem_cons_of_mem _ hq))
    simp only [Database.runScript]
    cases hr : Database.run env sql effect db with
    | mk ok d =>
      rw [hr] at h1
      cases ok
      · exact h1
      · have h3 := h2 d (by rw [h1.2]; exact hn)
        exact ⟨h3.1.trans h1.1, h3.2.trans h1.2⟩

theorem createIndexEffect_keepsConnection (name table : String) :
    EffectKeepsConnection (createIndexEffect name table) := by
  intro d d' h _
  unfold createIndexEffect at h
  split at h
  · split at h <;> (simp only [Option.some.injEq] at h; subst h; exact ⟨rfl, rfl⟩)
  · simp at h

theorem CreatePublisherInfoTable_keepsConnection (env : Env) :
    KeepsConnection (CreatePublisherInfoTable env) := by
  intro db hn
  unfold CreatePublisherInfoTable
  split
  · exact ⟨rfl, rfl⟩
  · refine run_keepsConnection env _ _ ?_ db hn
    intro d d' h _
    unfold createPublisherInfoEffect at h
    split at h <;> simp only [Option.some.injEq, reduceCtorEq] at h
    subst h; exact ⟨rfl, rfl⟩

theorem CreateContributionInfoTable_keepsConnection (env : Env) :
    KeepsConnection (CreateContributionInfoTable env) := by
  intro db hn
  unfold CreateContributionInfoTable
  split
  · exact ⟨rfl, rfl⟩
  · refine run_keepsConnection env _ _ ?_ db hn
    intro d d' h _
    unfold createContributionInfoEffect at h
    split at h <;> simp only [Option.some.injEq, reduceCtorEq] at h
    subst h; exact ⟨rfl, rfl⟩

theorem CreateActivityInfoTable_keepsConnection (env : Env) :
    KeepsConnection (CreateActivityInfoTable env) := by
  intro db hn
  unfold CreateActivityInfoTable
  split
  · exact ⟨rfl, rfl⟩
  · refine run_keepsConnection env _ _ ?_ db hn
    intro d d' h _
    unfold createActivityInfoEffect at h
    split at h <;> simp only [Option.some.injEq, reduceCtorEq] at h
    subst h; exact ⟨rfl, rfl⟩

theorem CreateMediaPublisherInfoTable_keepsConnection (env : Env) :
    KeepsConnection (CreateMediaPublisherInfoTable env) := by
  intro db hn
  unfold CreateMediaPublisherInfoTable
  split
  · exact ⟨rfl, rfl⟩
  · refine run_keepsConnection env _ _ ?_ db hn
    intro d d' h _
    unfold createMediaPublisherInfoEffect at h
    split at h <;> simp only [Option.some.injEq, reduceCtorEq] at h
    subst h; exact ⟨rfl, rfl⟩

theorem CreateRecurringDonationTable_keepsConnection (env : Env) :
    KeepsConnection (CreateRecurringDonationTable env) := by
  intro db hn
  unfold CreateRecurringDonationTable
  split
  · exact ⟨rfl, rfl⟩
  · refine run_keepsConnection env _ _ ?_ db hn
    intro d d' h _
    unfold createRecurringDonationEffect at h
    split at h <;> simp only [Option.some.injEq, reduceCtorEq] at h
    subst h; exact ⟨rfl, rfl⟩

theorem createAllTables_keepsConnection (env : Env) : KeepsConnection (createAllTables env) :=
  keepsConnection_andThen _ _ (CreatePublisherInfoTable_keepsConnection env)
    (keepsConnection_andThen _ _ (CreateContributionInfoTable_keepsConnection env)
      (keepsConnection_andThen _ _ (CreateActivityInfoTable_keepsConnection env)
        (keepsConnection_andThen _ _ (CreateMediaPublisherInfoTable_keepsConnection env)
          (CreateRecurringDonationTable_keepsConnection env))))

theorem createAllIndexes_keepsConnection (env : Env) (db : Database)
    (hn : 1 ≤ db.transaction_nesting) :
    (createAllIndexes env db).foreign_keys = db.foreign_keys ∧
    (createAllIndexes env db).transaction_nesting = db.transaction_nesting := by
  unfold createAllIndexes
  have h1 := run_keepsConnection env contributionInfoIndexSql _
    (createIndexEffect_keepsConnection "contribution_info_publisher_id_index" "contribution_info")
    db hn
  have h2 := run_keepsConnection env activityInfoIndexSql _
    (createIndexEffect_keepsConnection "activity_info_publisher_id_index" "activity_info")
    (CreateContributionInfoIndex env db).2 (by rw [show (CreateContributionInfoIndex env db).2.transaction_nesting = db.transaction_nesting from h1.2]; exact hn)
  have h3 := run_keepsConnection env recurringDonationIndexSql _
    (createIndexEffect_keepsConnection "recurring_donation_publisher_id_index" "recurring_donation")
    (CreateActivityInfoIndex env (CreateContributionInfoIndex env db).2).2
    (by rw [show (CreateActivityInfoIndex env (CreateContributionInfoIndex env db).2).2.transaction_nesting = (CreateContributionInfoIndex env db).2.transaction_nesting from h2.2, show (CreateContributionInfoIndex env db).2.transaction_nesting = db.transaction_nesting from h1.2]; exact hn)
  exact ⟨h3.1.trans (h2.1.trans h1.1), h3.2.trans (h2.2.trans h1.2)⟩

theorem migrateV2toV3Script_keepsConnection :
    ∀ p ∈ migrateV2toV3Script, EffectKeepsConnection p.2 := by
  have hfk : ∀ b, EffectKeepsConnection (foreignKeysEffect b) := by
    intro b d d' h hn
    unfold foreignKeysEffect at h
    split at h
    · rename_i h0
      omega
    · simp only [Option.some.injEq] at h; subst h; exact ⟨rfl, rfl⟩
  have hcopy : EffectKeepsConnection copyActivityEffect := by
    intro d d' h _
    unfold copyActivityEffect at h
    split at h
    · split at h
      · dsimp only at h
        split at h
        · simp at h
        · split at h <;> simp only [Option.some.injEq, reduceCtorEq] at h
          subst h; exact ⟨rfl, rfl⟩
      · simp at h
    · simp at h
  have hvisits : EffectKeepsConnection setVisitsEffect := by
    intro d d' h _
    unfold setVisitsEffect at h
    split at h
    · split at h <;> simp only [Option.some.injEq, reduceCtorEq] at h
      subst h; exact ⟨rfl, rfl⟩
    · simp at h
  have hdrop : EffectKeepsConnection dropActivityInfoOldEffect := by
    intro d d' h _
    unfold dropActivityInfoOldEffect at h
    split at h <;> simp only [Option.some.injEq, reduceCtorEq] at h
    subst h; exact ⟨rfl, rfl⟩
  intro p hp
  simp only [migrateV2toV3Script, List.mem_cons, List.mem_singleton, List.not_mem_nil,
    or_false] at hp
  rcases hp with rfl | rfl | rfl | rfl | rfl
  · exact hfk false
  · exact hcopy
  · exact hvisits
  · exact hdrop
  · exact hfk true

theorem MigrateV2toV3_keepsConnection (env : Env) : KeepsConnection (MigrateV2toV3 env) := by
  intro db hn
  have hren : EffectKeepsConnection renameActivityInfoEffect := by
    intro d d' h _
    unfold renameActivityInfoEffect at h
    split at h <;> simp only [Option.some.injEq, reduceCtorEq] at h
    subst h; exact ⟨rfl, rfl⟩
  unfold MigrateV2toV3
  split
  · exact keepsConnection_andThen _ _ (run_keepsConnection env _ _ hren)
      (keepsConnection_andThen _ _ (CreateActivityInfoTable_keepsConnection env)
        (keepsConnection_andThen _ _
          (run_keepsConnection env _ _ (createIndexEffect_keepsConnection _ _))
          (runScript_keepsConnection env _ migrateV2toV3Script_keepsConnection))) db hn
  · exact ⟨rfl, rfl⟩

theorem SetVersionNumber_keepsConnection (env : Env) (v : Int) (db : Database)
    (hn : 1 ≤ db.transaction_nesting) :
    (SetVersionNumber env v db).foreign_keys = db.foreign_keys ∧
    (SetVersionNumber env v db).transaction_nesting = db.transaction_nesting := by
  unfold SetVersionNumber
  refine run_keepsConnection env _ _ ?_ db hn
  intro d d' h _
  unfold setVersionEffect at h
  split at h <;> simp only [Option.some.injEq, reduceCtorEq] at h
  subst h; exact ⟨rfl, rfl⟩

theorem EnsureCurrentVersion_keepsConnection (E : Enums) (env : Env) (db : Database)
    (hn : 1 ≤ db.transaction_nesting) :
    (EnsureCurrentVersion E env db).2.foreign_keys = db.foreign_keys ∧
    (EnsureCurrentVersion E env db).2.transaction_nesting = db.transaction_nesting := by
  by_cases hnew : GetCompatibleVersionNumber db > GetCurrentVersion
  · rw [EnsureCurrentVersion_too_new E env db hnew]
    exact ⟨rfl, rfl⟩
  · have hs := EnsureCurrentVersion_shape E env db (not_lt.mp hnew)
    by_cases hv : GetVersionNumber db = 1 ∨ GetVersionNumber db = 2
    · rw [hs.1 hv]
      have h1 := MigrateV2toV3_keepsConnection env db hn
      have h2 := SetVersionNumber_keepsConnection env GetCurrentVersion (MigrateV2toV3 env db).2
        (by rw [h1.2]; exact hn)
      exact ⟨h2.1.trans h1.1, h2.2.trans h1.2⟩
    · rw [hs.2 (fun h => hv (Or.inl h)) (fun h => hv (Or.inr h))]
      exact ⟨rfl, rfl⟩

theorem meta_table_Init_keepsConnection (env : Env) (v c : Int) :
    KeepsConnection (meta_table_Init env v c) := by
  intro db _
  unfold meta_table_Init
  split
  · split <;> exact ⟨rfl, rfl⟩
  · exact ⟨rfl, rfl⟩

/-- The foreign-key setting of the connection is the same after `Init` as before it,
whatever `Init` returns: `Init` issues no `PRAGMA` of its own, and the
`PRAGMA foreign_keys` statements of `MigrateV2toV3` run inside the transaction of
`Init`, where the engine ignores them. -/
theorem Init_keepsForeignKeys (E : Enums) (env : Env) (self : PublisherInfoDatabase) :
    (Init E env self).2.db_.foreign_keys = self.db_.foreign_keys := by
  cases hinit : self.initialized_ with
  | true => rw [Init_of_initialized E env self hinit]
  | false =>
    rw [Init_eq E env self hinit]
    have hb : 1 ≤ (initBegun self).transaction_nesting := by
      unfold initBegun; simp
    have hm := meta_table_Init_keepsConnection env GetCurrentVersion kCompatibleVersionNumber
      (initBegun self) hb
    have hm' : (initMeta env self).2.foreign_keys = self.db_.foreign_keys ∧
        1 ≤ (initMeta env self).2.transaction_nesting := by
      unfold initMeta
      exact ⟨hm.1, by rw [hm.2]; exact hb⟩
    have ht := createAllTables_keepsConnection env (initMeta env self).2 hm'.2
    have ht' : (initTables env self).2.foreign_keys = self.db_.foreign_keys ∧
        1 ≤ (initTables env self).2.transaction_nesting := by
      unfold initTables
      exact ⟨ht.1.trans hm'.1, by rw [ht.2]; exact hm'.2⟩
    have hi := createAllIndexes_keepsConnection env (initTables env self).2 ht'.2
    have hv := EnsureCurrentVersion_keepsConnection E env
      (createAllIndexes env (initTables env self).2) (by rw [hi.2]; exact ht'.2)
    have hv' : (initVersionCheck E env self).2.foreign_keys = self.db_.foreign_keys := by
      unfold initVersionCheck
      exact hv.1.trans (hi.1.trans ht'.1)
    split_ifs <;> first | rfl | exact hm'.1 | exact ht'.1 | exact hv'

/-! ## The dependent tables through `Init` -/

theorem run_keepsDependents (env : Env) (sql : String) (effect : Database → Option Database)
    (h : EffectKeepsDependents effect) : KeepsDependents (Database.run env sql effect) := by
  intro db
  rcases run_cases env sql effect db with ⟨_, he⟩ | ⟨_, he⟩
  · exact h db _ he
  · rw [he]

theorem keepsDependents_andThen (f g : Database → Bool × Database) (hf : KeepsDependents f)
    (hg : KeepsDependents g) :
    KeepsDependents (fun db => match f db with
      | (false, d) => (false, d)
      | (true, d) => g d) := by
  intro db
  have h1 := hf db
  dsimp only
  cases hr : f db with
  | mk ok d =>
    rw [hr] at h1
    cases ok
    · exact h1
    · exact (hg d).trans h1

theorem createIndexEffect_keepsDependents (name table : String) :
    EffectKeepsDependents (createIndexEffect name table) := by
  intro d d' h
  unfold createIndexEffect at h
  split at h
  · split at h <;> (simp only [Option.some.injEq] at h; subst h; rfl)
  · simp at h

theorem CreatePublisherInfoTable_keepsDependents (env : Env) :
    KeepsDependents (CreatePublisherInfoTable env) := by
  intro db
  unfold CreatePublisherInfoTable
  split
  · rfl
  · refine run_keepsDependents env _ _ ?_ db
    intro d d' h
    unfold createPublisherInfoEffect at h
    split at h <;> simp only [Option.some.injEq, reduceCtorEq] at h
    subst h; rfl

theorem CreateContributionInfoTable_keepsDependents (env : Env) :
    KeepsDependents (CreateContributionInfoTable env) := by
  intro db
  unfold CreateContributionInfoTable
  split
  · rfl
  · refine run_keepsDependents env _ _ ?_ db
    intro d d' h
    unfold createContributionInfoEffect at h
    split at h <;> simp only [Option.some.injEq, reduceCtorEq] at h
    rename_i hn
    subst h
    simp [Store.dependentRows, Database.withStore, hn]

theorem CreateActivityInfoTable_keepsDependents (env : Env) :
    KeepsDependents (CreateActivityInfoTable env) := by
  intro db
  unfold CreateActivityInfoTable
  split
  · rfl
  · refine run_keepsDependents env _ _ ?_ db
    intro d d' h
    unfold createActivityInfoEffect at h
    split at h <;> simp only [Option.some.injEq, reduceCtorEq] at h
    rename_i hn
    subst h
    simp [Store.dependentRows, Database.withStore, hn]

theorem CreateMediaPublisherInfoTable_keepsDependents (env : Env) :
    KeepsDependents (CreateMediaPublisherInfoTable env) := by
  intro db
  unfold CreateMediaPublisherInfoTable
  split
  · rfl
  · refine run_keepsDependents env _ _ ?_ db
    intro d d' h
    unfold createMediaPublisherInfoEffect at h
    split at h <;> simp only [Option.some.injEq, reduceCtorEq] at h
    rename_i hn
    subst h
    simp [Store.dependentRows, Database.withStore, hn]

theorem CreateRecurringDonationTable_keepsDependents (env : Env) :
    KeepsDependents (CreateRecurringDonationTable env) := by
  intro db
  unfold CreateRecurringDonationTable
  split
  · rfl
  · refine run_keepsDependents env _ _ ?_ db
    intro d d' h
    unfold createRecurringDonationEffect at h
    split at h <;> simp only [Option.some.injEq, reduceCtorEq] at h
    rename_i hn
    subst h
    simp [Store.dependentRows, Database.withStore, hn]

theorem createAllTables_keepsDependents (env : Env) : KeepsDependents (createAllTables env) :=
  keepsDependents_andThen _ _ (CreatePublisherInfoTable_keepsDependents env)
    (keepsDependents_andThen _ _ (CreateContributionInfoTable_keepsDependents env)
      (keepsDependents_andThen _ _ (CreateActivityInfoTable_keepsDependents env)
        (keepsDependents_andThen _ _ (CreateMediaPublisherInfoTable_keepsDependents env)
          (CreateRecurringDonationTable_keepsDependents env))))

theorem createAllIndexes_keepsDependents (env : Env) (db : Database) :
    (createAllIndexes env db).store.dependentRows = db.store.dependentRows := by
  unfold createAllIndexes
  have h1 := run_keepsDependents env contributionInfoIndexSql _
    (createIndexEffect_keepsDependents "contribution_info_publisher_id_index" "contribution_info")
    db
  have h2 := run_keepsDependents env activityInfoIndexSql _
    (createIndexEffect_keepsDependents "activity_info_publisher_id_index" "activity_info")
    (CreateContributionInfoIndex env db).2
  have h3 := run_keepsDependents env recurringDonationIndexSql _
    (createIndexEffect_keepsDependents "recurring_donation_publisher_id_index" "recurring_donation")
    (CreateActivityInfoIndex env (CreateContributionInfoIndex env db).2).2
  exact h3.trans (h2.trans h1)

theorem meta_table_Init_keepsDependents (env : Env) (v c : Int) :
    KeepsDependents (meta_table_Init env v c) := by
  intro db
  unfold meta_table_Init
  split
  · split <;> rfl
  · rfl

theorem meta_table_Init_version (env : Env) (db : Database)
    (h1 : GetVersionNumber db ≠ 1) (h2 : GetVersionNumber db ≠ 2) :
    GetVersionNumber (meta_table_Init env GetCurrentVersion kCompatibleVersionNumber db).2 ≠ 1 ∧
    GetVersionNumber (meta_table_Init env GetCurrentVersion kCompatibleVersionNumber db).2 ≠ 2 := by
  unfold meta_table_Init
  split
  · split
    · exact ⟨h1, h2⟩
    · simp [GetVersionNumber, Database.withStore, GetCurrentVersion, kCurrentVersionNumber]
  · exact ⟨h1, h2⟩

theorem EnsureCurrentVersion_keepsDependents (E : Enums) (env : Env) (db : Database)
    (h1 : GetVersionNumber db ≠ 1) (h2 : GetVersionNumber db ≠ 2) :
    (EnsureCurrentVersion E env db).2 = db := by
  by_cases hnew : GetCompatibleVersionNumber db > GetCurrentVersion
  · rw [EnsureCurrentVersion_too_new E env db hnew]
  · rw [(EnsureCurrentVersion_shape E env db (not_lt.mp hnew)).2 h1 h2]

/-- When no migration is due, the rows of the four dependent tables are the same after
`Init` as before it, whatever `Init` returns: a table it creates is empty, an index
it creates holds no row, and the transaction it abandons leaves the file as it was. -/
theorem Init_keepsDependents (E : Enums) (env : Env) (self : PublisherInfoDatabase)
    (h : self.noMigrationDue) :
    (Init E env self).2.db_.store.dependentRows = self.db_.store.dependentRows := by
  cases hinit : self.initialized_ with
  | true => rw [Init_of_initialized E env self hinit]
  | false =>
    rcases h with h | ⟨h1, h2⟩
    · rw [hinit] at h; cases h
    rw [Init_eq E env self hinit]
    have hm : (initMeta env self).2.store.dependentRows = self.db_.store.dependentRows :=
      meta_table_Init_keepsDependents env _ _ (initBegun self)
    have hvm := meta_table_Init_version env (initBegun self) h1 h2
    have ht : (initTables env self).2.store.dependentRows = self.db_.store.dependentRows :=
      (createAllTables_keepsDependents env (initMeta env self).2).trans hm
    have hi := createAllIndexes_keepsDependents env (initTables env self).2
    have hver : GetVersionNumber (createAllIndexes env (initTables env self).2)
        = GetVersionNumber (initMeta env self).2 :=
      (version_of_keepsMeta _ _ (createAllIndexes_keepsMeta env _).1).trans
        (version_of_keepsMeta _ _ (createAllTables_keepsMeta env _).1)
    have hv : (initVersionCheck E env self).2.store.dependentRows
        = self.db_.store.dependentRows := by
      unfold initVersionCheck
      rw [EnsureCurrentVersion_keepsDependents E env _ (by rw [hver]; exact hvm.1)
        (by rw [hver]; exact hvm.2)]
      exact hi.trans ht
    split_ifs <;> first | rfl | exact hv

/-! ## The frame of `InsertOrUpdatePublisherInfo` -/

/-- C27 (as stated, refuted): the first call on a handle that is not initialized yet,
over a file at version 2 in which `a.com` has a publisher row and an activity row.
`InsertOrUpdatePublisherInfo` for `a.com` starts with `Init`, which migrates the file:
the call succeeds on the class's own connection (foreign keys not enforced), and the
`activity_info` table is not the one from before the call: its row now carries
visits = 5, a column the table did not have, and the column `category` is gone.  The
rows of the three other dependent tables are the same. -/
theorem first_call_on_version_2_file_rewrites_activity :
    (closedOn version2Store).initialized_ = false ∧
    (closedOn version2Store).db_.foreign_keys = false ∧
    GetVersionNumber (closedOn version2Store).db_ = 2 ∧
    version2Store.hasPublisher "a.com" = true ∧
    (InsertOrUpdatePublisherInfo upstreamEnums Env.ideal recordA (closedOn version2Store)).1
      = true ∧
    version2Store.activity_info = some
      { columns := ["publisher_id", "duration", "score", "percent", "weight", "category",
                    "month", "year", "reconcile_stamp"]
        activity_unique := false
        rows := [{ activityA with reconcile_stamp := 1000 }] } ∧
    (InsertOrUpdatePublisherInfo upstreamEnums Env.ideal recordA
      (closedOn version2Store)).2.db_.store.activity_info = some
      { columns := activityColumns, activity_unique := true,
        rows := [{ activityA with reconcile_stamp := 1000, visits := 5 }] } ∧
    (InsertOrUpdatePublisherInfo upstreamEnums Env.ideal recordA
      (closedOn version2Store)).2.db_.store.dependentRows ≠ version2Store.dependentRows ∧
    (InsertOrUpdatePublisherInfo upstreamEnums Env.ideal recordA
      (closedOn version2Store)).2.db_.store.dependentRows.2 = version2Store.dependentRows.2 := by
  decide

/-- C27 (amended): on a connection that does not enforce foreign keys, as every
connection of the class, and when no migration is due (the handle is initialized, or
the version stored in the file is neither 1 nor 2), `InsertOrUpdatePublisherInfo(P)`
leaves every row of `activity_info`, `contribution_info`, `media_publisher_info` and
`recurring_donation` as it was before the call, the rows of P.id included, whatever
the call returns and whether or not the `Init` at its start had to open the file.
When the call succeeds, `publisher_info` keeps the rows of the other ids it had
before the call and holds the row built from P for P.id. -/
theorem publisher_replace_keeps_dependents (E : Enums) (env : Env) (P : PublisherInfo)
    (self : PublisherInfoDatabase) (hfk : self.db_.foreign_keys = false)
    (hdue : self.noMigrationDue) :
    (InsertOrUpdatePublisherInfo E env P self).2.db_.store.dependentRows
      = self.db_.store.dependentRows ∧
    (∀ rows, self.db_.store.publisher_info = some rows →
      (InsertOrUpdatePublisherInfo E env P self).1 = true →
      (InsertOrUpdatePublisherInfo E env P self).2.db_.store.publisher_info =
        some (rows.filter (fun r => r.publisher_id != P.id) ++ [publisherRowOf P])) := by
  have hI1 := Init_keepsDependents E env self hdue
  have hI2 := Init_keepsForeignKeys E env self
  have hI3 := fun rows => Init_keepsPublishers E env self rows
  rw [hfk] at hI2
  unfold InsertOrUpdatePublisherInfo
  cases hI : Init E env self with
  | mk ok self' =>
    rw [hI] at hI1 hI2 hI3
    dsimp only at hI1 hI2 hI3
    cases ok
    · exact ⟨hI1, fun _ _ h => by simp at h⟩
    · dsimp only
      have hc := run_cases env replacePublisherSql (replacePublisherEffect P) self'.db_
      generalize Database.run env replacePublisherSql (replacePublisherEffect P) self'.db_
        = res at hc ⊢
      obtain ⟨ok, d⟩ := res
      rcases hc with ⟨hok, he⟩ | ⟨hok, he⟩
      · simp only at hok he
        unfold replacePublisherEffect at he
        cases hp : self'.db_.store.publisher_info with
        | none => rw [hp] at he; simp at he
        | some rows' =>
          rw [hp] at he
          simp only [hI2, Bool.false_and, Bool.false_eq_true, if_false,
            Option.some.injEq] at he
          subst he
          refine ⟨hI1, fun rows hrows _ => ?_⟩
          have := hI3 rows hrows
          rw [hp] at this
          cases this
          rfl
      · simp only at hok he
        subst hok he
        exact ⟨hI1, fun _ _ h => by simp at h⟩

/-- C27 (amended), instance: the first call on a handle that is not initialized yet,
over a file at the current version in which `a.com` has a publisher row and one row in
each dependent table.  The call opens the file, succeeds, and the four rows are the
ones from before the call. -/
theorem publisher_replace_keeps_dependents_witness :
    (closedOn storeWithDependents).db_.foreign_keys = false ∧
    (closedOn storeWithDependents).noMigrationDue ∧
    (closedOn storeWithDependents).initialized_ = false ∧
    storeWithDependents.hasPublisher "a.com" = true ∧
    storeWithDependents.dependentIds = ["a.com", "a.com", "a.com", "a.com"] ∧
    (InsertOrUpdatePublisherInfo upstreamEnums Env.ideal recordA
      (closedOn storeWithDependents)).1 = true ∧
    (InsertOrUpdatePublisherInfo upstreamEnums Env.ideal recordA
      (closedOn storeWithDependents)).2.db_.store.publisher_info
      = some [publisherRowOf recordA] ∧
    (InsertOrUpdatePublisherInfo upstreamEnums Env.ideal recordA
      (closedOn storeWithDependents)).2.db_.store.dependentRows
      = storeWithDependents.dependentRows :=
  ⟨by decide, by decide, by decide, by decide, by decide, by decide, by decide,
   (publisher_replace_keeps_dependents upstreamEnums Env.ideal recordA
      (closedOn storeWithDependents) (by decide) (by decide)).1⟩

/-! ## Imported statistics -/

/-- One counter of `UpdateStats`: raised by the count when below it.  When the sum
does not wrap, the raised counter is not below the count any more. -/
theorem raised_counter_not_below (a s : Int) (ha : 0 ≤ a)
    (hsum : a + toUInt64 s < 18446744073709551616) :
    ¬ toUInt64 (a + s) < toUInt64 s := by
  unfold toUInt64 at *
  omega

/-- C25, the code at the failing input: with the ads-blocked counter at 5 and an
imported count whose conversion `uint64_t{...}` is 2^64 - 1 (the count -1 of a signed
field, or the largest value of an unsigned 64-bit field), the unsigned addition
wraps: one `UpdateStats` leaves the counter at 4 and a second one at 3, so the same
stats are counted twice, which the guard `ads_blocked < uint64_t{stats.adblock_count}`
is there to prevent according to the comment above it. -/
theorem UpdateStats_twice_differs_on_wrap :
    BraveProfileWriter.UpdateStats
        { adblock_count := -1, trackingProtection_count := 0, httpsEverywhere_count := 0 }
        { kAdsBlocked := 5, kTrackersBlocked := 0, kHttpsUpgrades := 0 }
      = { kAdsBlocked := 4, kTrackersBlocked := 0, kHttpsUpgrades := 0 } ∧
    BraveProfileWriter.UpdateStats
        { adblock_count := -1, trackingProtection_count := 0, httpsEverywhere_count := 0 }
        (BraveProfileWriter.UpdateStats
          { adblock_count := -1, trackingProtection_count := 0, httpsEverywhere_count := 0 }
          { kAdsBlocked := 5, kTrackersBlocked := 0, kHttpsUpgrades := 0 })
      = { kAdsBlocked := 3, kTrackersBlocked := 0, kHttpsUpgrades := 0 } ∧
    BraveProfileWriter.UpdateStats
        { adblock_count := 18446744073709551615, trackingProtection_count := 0,
          httpsEverywhere_count := 0 }
        { kAdsBlocked := 5, kTrackersBlocked := 0, kHttpsUpgrades := 0 }
      = { kAdsBlocked := 4, kTrackersBlocked := 0, kHttpsUpgrades := 0 } ∧
    BraveProfileWriter.UpdateStats
        { adblock_count := 18446744073709551615, trackingProtection_count := 0,
          httpsEverywhere_count := 0 }
        (BraveProfileWriter.UpdateStats
          { adblock_count := 18446744073709551615, trackingProtection_count := 0,
            httpsEverywhere_count := 0 }
          { kAdsBlocked := 5, kTrackersBlocked := 0, kHttpsUpgrades := 0 })
      = { kAdsBlocked := 3, kTrackersBlocked := 0, kHttpsUpgrades := 0 } := by
  decide

/-- Away from the wrap the guard works: for every value of the three counters and
every imported stats such that no counter that is raised (it is below the converted
imported count) is raised past 2^64 - 1, applying `UpdateStats` twice leaves the
counters equal to applying it once. -/
theorem UpdateStats_idempotent_without_wrap (stats : BraveStats) (prefs : Prefs)
    (ha : 0 ≤ prefs.kAdsBlocked) (ht : 0 ≤ prefs.kTrackersBlocked)
    (hh : 0 ≤ prefs.kHttpsUpgrades)
    (hsa : prefs.kAdsBlocked < toUInt64 stats.adblock_count →
      prefs.kAdsBlocked + toUInt64 stats.adblock_count < 18446744073709551616)
    (hst : prefs.kTrackersBlocked < toUInt64 stats.trackingProtection_count →
      prefs.kTrackersBlocked + toUInt64 stats.trackingProtection_count < 18446744073709551616)
    (hsh : prefs.kHttpsUpgrades < toUInt64 stats.httpsEverywhere_count →
      prefs.kHttpsUpgrades + toUInt64 stats.httpsEverywhere_count < 18446744073709551616) :
    BraveProfileWriter.UpdateStats stats (BraveProfileWriter.UpdateStats stats prefs)
      = BraveProfileWriter.UpdateStats stats prefs := by
  have ka := fun h => raised_counter_not_below _ _ ha (hsa h)
  have kt := fun h => raised_counter_not_below _ _ ht (hst h)
  have kh := fun h => raised_counter_not_below _ _ hh (hsh h)
  unfold BraveProfileWriter.UpdateStats
  dsimp only
  by_cases h1 : prefs.kAdsBlocked < toUInt64 stats.adblock_count <;>
    by_cases h2 : prefs.kTrackersBlocked < toUInt64 stats.trackingProtection_count <;>
    by_cases h3 : prefs.kHttpsUpgrades < toUInt64 stats.httpsEverywhere_count <;>
    simp [h1, h2, h3, ka, kt, kh]

/-- An instance away from the wrap: counters 10, 0, 7 and imported counts 25, 3, 2; the
first call gives 35, 3, 7 and the second call changes nothing. -/
theorem UpdateStats_idempotent_without_wrap_witness :
    BraveProfileWriter.UpdateStats
        { adblock_count := 25, trackingProtection_count := 3, httpsEverywhere_count := 2 }
        { kAdsBlocked := 10, kTrackersBlocked := 0, kHttpsUpgrades := 7 }
      = { kAdsBlocked := 35, kTrackersBlocked := 3, kHttpsUpgrades := 7 } ∧
    BraveProfileWriter.UpdateStats
        { adblock_count := 25, trackingProtection_count := 3, httpsEverywhere_count := 2 }
        (BraveProfileWriter.UpdateStats
          { adblock_count := 25, trackingProtection_count := 3, httpsEverywhere_count := 2 }
          { kAdsBlocked := 10, kTrackersBlocked := 0, kHttpsUpgrades := 7 })
      = BraveProfileWriter.UpdateStats
        { adblock_count := 25, trackingProtection_count := 3, httpsEverywhere_count := 2 }
        { kAdsBlocked := 10, kTrackersBlocked := 0, kHttpsUpgrades := 7 } :=
  ⟨by decide,
   UpdateStats_idempotent_without_wrap _ _ (by decide) (by decide) (by decide)
     (fun _ => by decide) (fun _ => by decide) (fun _ => by decide)⟩

/-! ## Media keys -/

theorem InsertOrUpdatePublisherInfo_mediaReady (E : Enums) (env : Env) (P : PublisherInfo)
    (self : PublisherInfoDatabase) (h : self.mediaReady) :
    (InsertOrUpdatePublisherInfo E env P self).2.mediaReady := by
  obtain ⟨hinit, hopen, hpub, hmed⟩ := h
  simp only [InsertOrUpdatePublisherInfo, Init_of_initialized E env self hinit]
  have hc := run_cases env replacePublisherSql (replacePublisherEffect P) self.db_
  have ho := run_keepsOpen env replacePublisherSql (replacePublisherEffect P) self.db_
    (replacePublisherEffect_keepsOpen P)
  generalize Database.run env replacePublisherSql (replacePublisherEffect P) self.db_ = res
    at hc ho ⊢
  obtain ⟨ok, d⟩ := res
  rcases hc with ⟨_, he⟩ | ⟨_, he⟩
  · simp only at he ho
    refine ⟨hinit, ho.trans hopen, ?_, ?_⟩
    · unfold replacePublisherEffect at he
      split at he
      · simp only [Option.some.injEq] at he
        subst he
        rfl
      · simp at he
    · unfold replacePublisherEffect at he
      split at he
      · simp only [Option.some.injEq] at he
        subst he
        dsimp only [Database.withStore]
        split
        · unfold cascadeDelete
          simpa using hmed
        · exact hmed
      · simp at he
  · simp only at he
    subst he
    exact ⟨hinit, hopen, hpub, hmed⟩

/-- The `publisher_info` rows after a publisher write that can run. -/
theorem InsertOrUpdatePublisherInfo_rows (E : Enums) (env : Env) (P : PublisherInfo)
    (self : PublisherInfoDatabase) (rows : List PublisherRow)
    (hinit : self.initialized_ = true) (hopen : self.db_.is_open = true)
    (hexec : env.exec_ok replacePublisherSql = true)
    (hp : self.db_.store.publisher_info = some rows) :
    (InsertOrUpdatePublisherInfo E env P self).1 = true ∧
    (InsertOrUpdatePublisherInfo E env P self).2.db_.store.publisher_info =
      some (rows.filter (fun r => r.publisher_id != P.id) ++ [publisherRowOf P]) := by
  simp only [InsertOrUpdatePublisherInfo, Init_of_initialized E env self hinit, Database.run,
    hopen, hexec, Bool.and_self, if_true, replacePublisherEffect, hp]
  exact ⟨trivial, rfl⟩

theorem InsertOrUpdateMediaPublisherInfo_mediaReady (E : Enums) (env : Env)
    (k id : String) (self : PublisherInfoDatabase) (h : self.mediaReady) :
    (InsertOrUpdateMediaPublisherInfo E env k id self).2.mediaReady ∧
    (InsertOrUpdateMediaPublisherInfo E env k id self).2.db_.store.publisher_info
      = self.db_.store.publisher_info := by
  obtain ⟨hinit, hopen, hpub, hmed⟩ := h
  simp only [InsertOrUpdateMediaPublisherInfo, Init_of_initialized E env self hinit]
  have hc := run_cases env replaceMediaSql (replaceMediaEffect k id) self.db_
  have ho := run_keepsOpen env replaceMediaSql (replaceMediaEffect k id) self.db_
    (replaceMediaEffect_keepsOpen k id)
  generalize Database.run env replaceMediaSql (replaceMediaEffect k id) self.db_ = res
    at hc ho ⊢
  obtain ⟨ok, d⟩ := res
  rcases hc with ⟨_, he⟩ | ⟨_, he⟩
  · simp only at he ho
    unfold replaceMediaEffect at he
    split at he
    · split at he
      · simp only [Option.some.injEq] at he
        subst he
        exact ⟨⟨hinit, hopen, hpub, rfl⟩, rfl⟩
      · simp at he
    · simp at he
  · simp only at he
    subst he
    exact ⟨⟨hinit, hopen, hpub, hmed⟩, rfl⟩

/-- The `media_publisher_info` rows after a media write that can run. -/
theorem InsertOrUpdateMediaPublisherInfo_rows (E : Enums) (env : Env) (k id : String)
    (self : PublisherInfoDatabase) (media : List MediaRow)
    (hinit : self.initialized_ = true) (hopen : self.db_.is_open = true)
    (hexec : env.exec_ok replaceMediaSql = true)
    (hm : self.db_.store.media_publisher_info = some media)
    (hfk : self.db_.store.hasPublisher id = true) :
    (InsertOrUpdateMediaPublisherInfo E env k id self).1 = true ∧
    (InsertOrUpdateMediaPublisherInfo E env k id self).2.db_.store.media_publisher_info =
      some (media.filter (fun r => r.media_key != k) ++ [{ media_key := k, publisher_id := id }]) := by
  simp only [InsertOrUpdateMediaPublisherInfo, Init_of_initialized E env self hinit, Database.run,
    hopen, hexec, Bool.and_self, if_true, replaceMediaEffect, hm, Database.fkAllows, hfk,
    Bool.or_true]
  exact ⟨trivial, rfl⟩

theorem filter_key_after_replace (media : List MediaRow) (k id : String) :
    (media.filter (fun r => r.media_key != k) ++
        [({ media_key := k, publisher_id := id } : MediaRow)]).filter
      (fun m => m.media_key == k) = [{ media_key := k, publisher_id := id }] := by
  rw [List.filter_append, List.filter_filter]
  have h : media.filter (fun a => (a.media_key == k && a.media_key != k)) = [] := by
    rw [List.filter_eq_nil_iff]
    intro a _
    cases hk : a.media_key == k <;> simp [bne, hk]
  rw [h]
  simp

theorem filter_id_after_replace (rows : List PublisherRow) (row : PublisherRow) :
    (rows.filter (fun r => r.publisher_id != row.publisher_id) ++ [row]).filter
      (fun p => p.publisher_id == row.publisher_id) = [row] := by
  rw [List.filter_append, List.filter_filter]
  have h : rows.filter (fun a => (a.publisher_id == row.publisher_id &&
      a.publisher_id != row.publisher_id)) = [] := by
    rw [List.filter_eq_nil_iff]
    intro a _
    cases hk : a.publisher_id == row.publisher_id <;> simp [bne, hk]
  rw [h]
  simp

/-- For a key that no row of `media_publisher_info` carries, `GetMediaPublisherInfo`
returns no record. -/
theorem GetMediaPublisherInfo_unknown_key (E : Enums) (env : Env) (blank : PublisherInfo)
    (k : String) (self : PublisherInfoDatabase)
    (h : ∀ self', Init E env self = (true, self') →
      ∀ media, self'.db_.store.media_publisher_info = some media →
        ∀ m ∈ media, m.media_key ≠ k) :
    (GetMediaPublisherInfo E env blank k self).1 = none := by
  unfold GetMediaPublisherInfo
  cases hI : Init E env self with
  | mk ok self' =>
    cases ok
    · rfl
    · dsimp only
      have hrows : mediaRows env k self'.db_ = [] := by
        unfold mediaRows
        split
        · split
          · rename_i media publishers hm _
            have hnone : media.filter (fun m => m.media_key == k) = [] := by
              rw [List.filter_eq_nil_iff]
              intro m hmem
              simpa using h self' hI media hm m hmem
            rw [hnone]
            rfl
          · rfl
        · rfl
      rw [hrows]
      rfl

/-- C22: on an initialized, open store with the `publisher_info` and
`media_publisher_info` tables, where the three statements involved do not fail: after
P1 and P2 are stored with `InsertOrUpdatePublisherInfo` and the media key k is written
for P1.id and then for P2.id, `media_publisher_info` holds exactly one row for k, the
one naming P2.id, and `GetMediaPublisherInfo(k)` returns a record equal to P2 in id,
name, url, favicon_url, provider, verified and excluded (an `int` value); and for a
key that no row of `media_publisher_info` carries, `GetMediaPublisherInfo` returns no
record, on any handle. -/
theorem media_key_maps_to_latest_publisher (E : Enums) (env : Env) (blank : PublisherInfo)
    (k : String) (P1 P2 : PublisherInfo) (self : PublisherInfoDatabase)
    (hready : self.mediaReady)
    (hx1 : env.exec_ok replacePublisherSql = true) (hx2 : env.exec_ok replaceMediaSql = true)
    (hx3 : env.exec_ok mediaPublisherQuery = true) (hex : fitsInt32 P2.excluded) :
    (∃ media,
      (runWrites E env [Write.publisherInfo P1, Write.publisherInfo P2,
        Write.mediaPublisherInfo k P1.id, Write.mediaPublisherInfo k P2.id] self
        ).db_.store.media_publisher_info = some media ∧
      media.filter (fun m => m.media_key == k) = [{ media_key := k, publisher_id := P2.id }]) ∧
    (∃ rec,
      (GetMediaPublisherInfo E env blank k
        (runWrites E env [Write.publisherInfo P1, Write.publisherInfo P2,
          Write.mediaPublisherInfo k P1.id, Write.mediaPublisherInfo k P2.id] self)).1
        = some rec ∧
      rec.id = P2.id ∧ rec.name = P2.name ∧ rec.url = P2.url ∧
      rec.favicon_url = P2.favicon_url ∧ rec.provider = P2.provider ∧
      rec.verified = P2.verified ∧ rec.excluded = P2.excluded) ∧
    (∀ (self0 : PublisherInfoDatabase) (k0 : String),
      (∀ self', Init E env self0 = (true, self') →
        ∀ media, self'.db_.store.media_publisher_info = some media →
          ∀ m ∈ media, m.media_key ≠ k0) →
      (GetMediaPublisherInfo E env blank k0 self0).1 = none) := by
  refine ⟨?_, ?_, fun self0 k0 h => GetMediaPublisherInfo_unknown_key E env blank k0 self0 h⟩ <;>
  · -- the four calls, one after the other
    have hfinal : runWrites E env [Write.publisherInfo P1, Write.publisherInfo P2,
        Write.mediaPublisherInfo k P1.id, Write.mediaPublisherInfo k P2.id] self =
      (InsertOrUpdateMediaPublisherInfo E env k P2.id
        (InsertOrUpdateMediaPublisherInfo E env k P1.id
          (InsertOrUpdatePublisherInfo E env P2
            (InsertOrUpdatePublisherInfo E env P1 self).2).2).2).2 := rfl
    rw [hfinal]
    have r1 := InsertOrUpdatePublisherInfo_mediaReady E env P1 self hready
    generalize (InsertOrUpdatePublisherInfo E env P1 self).2 = s1 at r1 ⊢
    obtain ⟨rows1, hrows1⟩ := Option.isSome_iff_exists.mp r1.2.2.1
    have r2 := InsertOrUpdatePublisherInfo_mediaReady E env P2 s1 r1
    have p2 := (InsertOrUpdatePublisherInfo_rows E env P2 s1 rows1 r1.1 r1.2.1 hx1 hrows1).2
    generalize (InsertOrUpdatePublisherInfo E env P2 s1).2 = s2 at r2 p2 ⊢
    obtain ⟨r3, p3⟩ := InsertOrUpdateMediaPublisherInfo_mediaReady E env k P1.id s2 r2
    generalize (InsertOrUpdateMediaPublisherInfo E env k P1.id s2).2 = s3 at r3 p3 ⊢
    obtain ⟨m3, hm3⟩ := Option.isSome_iff_exists.mp r3.2.2.2
    have hpub3 : s3.db_.store.publisher_info =
        some (rows1.filter (fun r => r.publisher_id != P2.id) ++ [publisherRowOf P2]) :=
      p3.trans p2
    have hhas : s3.db_.store.hasPublisher P2.id = true := by
      unfold Store.hasPublisher
      rw [hpub3]
      simp [publisherRowOf]
    have m4 := (InsertOrUpdateMediaPublisherInfo_rows E env k P2.id s3 m3 r3.1 r3.2.1 hx2 hm3
      hhas).2
    obtain ⟨r4, p4⟩ := InsertOrUpdateMediaPublisherInfo_mediaReady E env k P2.id s3 r3
    generalize (InsertOrUpdateMediaPublisherInfo E env k P2.id s3).2 = s4 at r4 p4 m4 ⊢
    have hkey := filter_key_after_replace m3 k P2.id
    first
    | exact ⟨_, m4, hkey⟩
    | (have hrows : mediaRows env k s4.db_ = [publisherRowOf P2] := by
         unfold mediaRows
         simp only [r4.2.1, hx3, Bool.and_self, if_true, m4, p4.trans hpub3, hkey,
           List.flatMap_cons, List.flatMap_nil, List.append_nil]
         exact filter_id_after_replace rows1 (publisherRowOf P2)
       refine ⟨readMediaRow blank (publisherRowOf P2), ?_, rfl, rfl, rfl, rfl, rfl, rfl, ?_⟩
       · unfold GetMediaPublisherInfo
         rw [Init_of_initialized E env s4 r4.1]
         dsimp only
         rw [hrows]
         rfl
       · show toInt32 (toInt32 P2.excluded) = P2.excluded
         rw [toInt32_idem, toInt32_of_fits _ hex])

/-! ## Recurring donations -/

/-- The `recurring_donation` table after one `InsertOrUpdateRecurringDonation` on an
initialized handle: unchanged when the statement failed, else the rows of the other
publishers followed by the row of the record. -/
theorem InsertOrUpdateRecurringDonation_rows (E : Enums) (env : Env) (info : RecurringDonation)
    (self : PublisherInfoDatabase) (rows : List RecurringRow)
    (hinit : self.initialized_ = true)
    (ht : self.db_.store.recurring_donation = some rows) :
    (InsertOrUpdateRecurringDonation E env info self).2.initialized_ = true ∧
    (InsertOrUpdateRecurringDonation E env info self).2.db_.store.publisher_info
      = self.db_.store.publisher_info ∧
    ∃ rows1, (InsertOrUpdateRecurringDonation E env info self).2.db_.store.recurring_donation
        = some rows1 ∧
      (rows1 = rows ∨
        rows1 = rows.filter (fun r => r.publisher_id != info.publisher_key)
          ++ [recurringRowOf info]) ∧
      ((InsertOrUpdateRecurringDonation E env info self).1 = true →
        rows1 = rows.filter (fun r => r.publisher_id != info.publisher_key)
          ++ [recurringRowOf info]) := by
  simp only [InsertOrUpdateRecurringDonation, Init_of_initialized E env self hinit]
  have hc := run_cases env replaceRecurringSql (replaceRecurringEffect info) self.db_
  generalize Database.run env replaceRecurringSql (replaceRecurringEffect info) self.db_ = res
    at hc ⊢
  obtain ⟨ok, d⟩ := res
  rcases hc with ⟨hok, he⟩ | ⟨hok, he⟩
  · simp only at hok he
    subst hok
    unfold replaceRecurringEffect at he
    rw [ht] at he
    dsimp only at he
    split at he
    · simp only [Option.some.injEq] at he
      subst he
      exact ⟨hinit, rfl, _, rfl, Or.inr rfl, fun _ => rfl⟩
    · simp at he
  · simp only at hok he
    subst hok he
    exact ⟨hinit, rfl, rows, ht, Or.inl rfl, fun h => by simp at h⟩

/-- The `recurring_donation` table after one `RemoveRecurring` on an initialized
handle: unchanged when the statement failed, else the rows of the other publishers. -/
theorem RemoveRecurring_rows (E : Enums) (env : Env) (key : String)
    (self : PublisherInfoDatabase) (rows : List RecurringRow)
    (hinit : self.initialized_ = true)
    (ht : self.db_.store.recurring_donation = some rows) :
    (RemoveRecurring E env key self).2.initialized_ = true ∧
    (RemoveRecurring E env key self).2.db_.store.publisher_info
      = self.db_.store.publisher_info ∧
    ∃ rows1, (RemoveRecurring E env key self).2.db_.store.recurring_donation = some rows1 ∧
      (rows1 = rows ∨ rows1 = rows.filter (fun r => r.publisher_id != key)) ∧
      ((RemoveRecurring E env key self).1 = true →
        rows1 = rows.filter (fun r => r.publisher_id != key)) := by
  simp only [RemoveRecurring, Init_of_initialized E env self hinit]
  have hc := run_cases env removeRecurringSql (removeRecurringEffect key) self.db_
  generalize Database.run env removeRecurringSql (removeRecurringEffect key) self.db_ = res
    at hc ⊢
  obtain ⟨ok, d⟩ := res
  rcases hc with ⟨hok, he⟩ | ⟨hok, he⟩
  · simp only at hok he
    subst hok
    unfold removeRecurringEffect at he
    rw [ht] at he
    simp only [Option.some.injEq] at he
    subst he
    exact ⟨hinit, rfl, _, rfl, Or.inr rfl, fun _ => rfl⟩
  · simp only at hok he
    subst hok he
    exact ⟨hinit, rfl, rows, ht, Or.inl rfl, fun h => by simp at h⟩

theorem nodup_ids_filter (rows : List RecurringRow) (key : String)
    (h : (rows.map (fun r => r.publisher_id)).Nodup) :
    ((rows.filter (fun r => r.publisher_id != key)).map (fun r => r.publisher_id)).Nodup :=
  ((List.filter_sublist rows).map (fun r => r.publisher_id)).nodup h

theorem nodup_ids_replace (rows : List RecurringRow) (row : RecurringRow)
    (h : (rows.map (fun r => r.publisher_id)).Nodup) :
    ((rows.filter (fun r => r.publisher_id != row.publisher_id) ++ [row]).map
      (fun r => r.publisher_id)).Nodup := by
  rw [List.map_append, List.nodup_append]
  refine ⟨nodup_ids_filter rows _ h, by simp, ?_⟩
  intro k hk hk'
  simp only [List.map_cons, List.map_nil, List.mem_singleton] at hk'
  subst hk'
  simp only [List.mem_map, List.mem_filter] at hk
  obtain ⟨r, ⟨_, hne⟩, heq⟩ := hk
  simp [heq] at hne

/-- One write on `recurring_donation`, on an initialized handle whose table holds no
publisher id twice: the handle stays initialized, `publisher_info` is untouched, the
table still holds no publisher id twice, and a row of another publisher id is in the
table after the call exactly when it was before. -/
theorem Write_run_recurring (E : Enums) (env : Env) (w : Write) (self : PublisherInfoDatabase)
    (rows : List RecurringRow) (hw : w.isRecurring = true)
    (hinit : self.initialized_ = true)
    (ht : self.db_.store.recurring_donation = some rows)
    (hnd : (rows.map (fun r => r.publisher_id)).Nodup) :
    (w.run E env self).2.initialized_ = true ∧
    (w.run E env self).2.db_.store.publisher_info = self.db_.store.publisher_info ∧
    ∃ rows1, (w.run E env self).2.db_.store.recurring_donation = some rows1 ∧
      (rows1.map (fun r => r.publisher_id)).Nodup ∧
      ∀ r, w.recurringKey ≠ some r.publisher_id → (r ∈ rows1 ↔ r ∈ rows) := by
  cases w with
  | recurringDonation info =>
    obtain ⟨h1, h2, rows1, h3, hcase, _⟩ :=
      InsertOrUpdateRecurringDonation_rows E env info self rows hinit ht
    refine ⟨h1, h2, rows1, h3, ?_, ?_⟩
    · rcases hcase with h | h
      · rw [h]; exact hnd
      · rw [h]; exact nodup_ids_replace rows (recurringRowOf info) hnd
    · intro r hne
      have hne' : info.publisher_key ≠ r.publisher_id := fun e => hne (by simp [Write.recurringKey, e])
      rcases hcase with h | h
      · rw [h]
      · rw [h]
        simp only [List.mem_append, List.mem_filter, List.mem_singleton, bne_iff_ne, ne_eq]
        constructor
        · rintro (⟨hin, _⟩ | rfl)
          · exact hin
          · exact absurd rfl hne'
        · intro hin
          exact Or.inl ⟨hin, fun e => hne' e.symm⟩
  | removeRecurring key =>
    obtain ⟨h1, h2, rows1, h3, hcase, _⟩ := RemoveRecurring_rows E env key self rows hinit ht
    refine ⟨h1, h2, rows1, h3, ?_, ?_⟩
    · rcases hcase with h | h
      · rw [h]; exact hnd
      · rw [h]; exact nodup_ids_filter rows key hnd
    · intro r hne
      have hne' : key ≠ r.publisher_id := fun e => hne (by simp [Write.recurringKey, e])
      rcases hcase with h | h
      · rw [h]
      · rw [h]
        simp only [List.mem_filter, bne_iff_ne, ne_eq]
        exact ⟨fun hin => hin.1, fun hin => ⟨hin, fun e => hne' e.symm⟩⟩
  | publisherInfo _ => simp [Write.isRecurring] at hw
  | activityInfo _ => simp [Write.isRecurring] at hw
  | contributionInfo _ => simp [Write.isRecurring] at hw
  | mediaPublisherInfo _ _ => simp [Write.isRecurring] at hw

/-- Through any sequence of writes on `recurring_donation`, on an initialized handle
whose table holds no publisher id twice. -/
theorem recurring_writes_invariant (E : Enums) (env : Env) : ∀ (ws : List Write)
    (self : PublisherInfoDatabase) (rows : List RecurringRow),
    (∀ w ∈ ws, w.isRecurring = true) → self.initialized_ = true →
    self.db_.store.recurring_donation = some rows →
    (rows.map (fun r => r.publisher_id)).Nodup →
    (runWrites E env ws self).initialized_ = true ∧
    (runWrites E env ws self).db_.store.publisher_info = self.db_.store.publisher_info ∧
    ∃ rows', (runWrites E env ws self).db_.store.recurring_donation = some rows' ∧
      (rows'.map (fun r => r.publisher_id)).Nodup ∧
      ∀ r, (∀ w ∈ ws, w.recurringKey ≠ some r.publisher_id) → (r ∈ rows' ↔ r ∈ rows) := by
  intro ws
  induction ws with
  | nil =>
    intro self rows _ hinit ht hnd
    exact ⟨hinit, rfl, rows, ht, hnd, fun r _ => Iff.rfl⟩
  | cons w ws ih =>
    intro self rows hrec hinit ht hnd
    obtain ⟨h1, h2, rows1, h3, hnd1, hkeep⟩ :=
      Write_run_recurring E env w self rows (hrec w (List.mem_cons_self _ _)) hinit ht hnd
    obtain ⟨hF, hP, rows', hT, hN, hpers⟩ :=
      ih (w.run E env self).2 rows1 (fun v hv => hrec v (List.mem_cons_of_mem _ hv)) h1 h3 hnd1
    rw [runWrites_cons]
    refine ⟨hF, hP.trans h2, rows', hT, hN, ?_⟩
    intro r hall
    exact (hpers r (fun v hv => hall v (List.mem_cons_of_mem _ hv))).trans
      (hkeep r (hall w (List.mem_cons_self _ _)))

theorem mem_recurring_join (donations : List RecurringRow) (publishers : List PublisherRow)
    (x : RecurringRow × PublisherRow)
    (h : x ∈ donations.flatMap (fun rd =>
      (publishers.filter (fun p => p.publisher_id == rd.publisher_id)).map (fun p => (rd, p)))) :
    x.1 ∈ donations ∧ x.2 ∈ publishers ∧ x.2.publisher_id = x.1.publisher_id := by
  simp only [List.mem_flatMap, List.mem_map, List.mem_filter, beq_iff_eq] at h
  obtain ⟨rd, hrd, p, ⟨hp, he⟩, rfl⟩ := h
  exact ⟨hrd, hp, he⟩

/-- The join of `recurring_donation` with `publisher_info` names no publisher twice
when neither table does. -/
theorem nodup_recurring_join (publishers : List PublisherRow)
    (hp : (publishers.map (fun p => p.publisher_id)).Nodup) :
    ∀ donations : List RecurringRow, (donations.map (fun r => r.publisher_id)).Nodup →
    ((donations.flatMap (fun rd =>
      (publishers.filter (fun p => p.publisher_id == rd.publisher_id)).map
        (fun p => (rd, p)))).map (fun x => x.2.publisher_id)).Nodup := by
  intro donations
  induction donations with
  | nil => intro _; simp
  | cons d ds ih =>
    intro hd
    simp only [List.map_cons, List.nodup_cons] at hd
    rw [List.flatMap_cons, List.map_append, List.nodup_append]
    refine ⟨?_, ih hd.2, ?_⟩
    · rw [List.map_map]
      exact ((List.filter_sublist publishers).map (fun p => p.publisher_id)).nodup hp
    · intro k hk hk'
      simp only [List.map_map, List.mem_map, List.mem_filter, Function.comp_apply,
        beq_iff_eq] at hk
      obtain ⟨p, ⟨_, hpe⟩, rfl⟩ := hk
      rw [List.mem_map] at hk'
      obtain ⟨x, hx, hxe⟩ := hk'
      obtain ⟨hx1, _, hx3⟩ := mem_recurring_join ds publishers x hx
      apply hd.1
      rw [List.mem_map]
      exact ⟨x.1, hx1, by rw [← hx3, hxe, hpe]⟩

/-- C23 (as stated, refuted): a donation to `a.com` whose amount is a NaN is
inserted with success, and the row that `recurring_donation` holds afterwards
carries the amount 0, not the amount of the insert: the NaN is bound as NULL and the
column `amount DOUBLE DEFAULT 0 NOT NULL` takes its default.  `GetRecurringDonations`
then lists `a.com` with weight 0.  An amount that is the negative zero is stored as
the positive zero in the same way. -/
theorem recurring_row_differs_from_nan_amount :
    (InsertOrUpdateRecurringDonation upstreamEnums Env.ideal
      { donationA with amount := quietNaN } (readyOn storeWithA)).1 = true ∧
    (InsertOrUpdateRecurringDonation upstreamEnums Env.ideal
      { donationA with amount := quietNaN } (readyOn storeWithA)).2.db_.store.recurring_donation
      = some [{ publisher_id := "a.com", amount := { bits := 0 }, added_date := 7 }] ∧
    (GetRecurringDonations upstreamEnums Env.ideal recordA []
      (InsertOrUpdateRecurringDonation upstreamEnums Env.ideal
        { donationA with amount := quietNaN } (readyOn storeWithA)).2).1.map
        (fun rec => (rec.id, rec.weight, rec.reconcile_stamp))
      = [("a.com", { bits := 0 }, 7)] ∧
    quietNaN.isNaN = true ∧ quietNaN ≠ { bits := 0 } ∧
    (InsertOrUpdateRecurringDonation upstreamEnums Env.ideal
      { donationA with amount := negativeZero } (readyOn storeWithA)).2.db_.store.recurring_donation
      = some [{ publisher_id := "a.com", amount := { bits := 0 }, added_date := 7 }] ∧
    negativeZero ≠ { bits := 0 } := by
  decide

/-- C23 (amended): after any sequence of `InsertOrUpdateRecurringDonation` and
`RemoveRecurring` calls on an initialized store whose `recurring_donation` and
`publisher_info` tables hold no publisher id twice (their primary keys),
`recurring_donation` holds at most one row per publisher_id; the row of every
successful insert that no later call on the same publisher follows is in the table,
with the amount of that insert when the amount is neither a NaN nor the negative
zero (the table holds 0 for those) and with its added_date; after a successful
removal that no later call on the same publisher follows the table has no row of
that publisher; and `GetRecurringDonations` lists no publisher twice, each record
with weight = amount and reconcile_stamp = added_date of the publisher's row. -/
theorem recurring_latest_insert_wins (E : Enums) (env : Env) (blank : PublisherInfo)
    (ws : List Write) (self : PublisherInfoDatabase) (rows : List RecurringRow)
    (publishers : List PublisherRow)
    (hinit : self.initialized_ = true) (hrec : ∀ w ∈ ws, w.isRecurring = true)
    (ht : self.db_.store.recurring_donation = some rows)
    (hnd : (rows.map (fun r => r.publisher_id)).Nodup)
    (hp : self.db_.store.publisher_info = some publishers)
    (hpk : (publishers.map (fun p => p.publisher_id)).Nodup) :
    ∃ rows', (runWrites E env ws self).db_.store.recurring_donation = some rows' ∧
      (rows'.map (fun r => r.publisher_id)).Nodup ∧
      (∀ pre info post, ws = pre ++ Write.recurringDonation info :: post →
        (InsertOrUpdateRecurringDonation E env info (runWrites E env pre self)).1 = true →
        (∀ w ∈ post, w.recurringKey ≠ some info.publisher_key) →
        recurringRowOf info ∈ rows' ∧
        (storedReal info.amount = info.amount → (recurringRowOf info).amount = info.amount) ∧
        (0 ≤ info.added_date → info.added_date < 9223372036854775808 →
          toUInt64 (recurringRowOf info).added_date = info.added_date)) ∧
      (∀ pre key post, ws = pre ++ Write.removeRecurring key :: post →
        (RemoveRecurring E env key (runWrites E env pre self)).1 = true →
        (∀ w ∈ post, w.recurringKey ≠ some key) →
        ∀ r ∈ rows', r.publisher_id ≠ key) ∧
      ((GetRecurringDonations E env blank [] (runWrites E env ws self)).1.map
        (fun rec => rec.id)).Nodup ∧
      ∀ rec ∈ (GetRecurringDonations E env blank [] (runWrites E env ws self)).1,
        ∃ r ∈ rows', r.publisher_id = rec.id ∧ rec.weight = r.amount ∧
          rec.reconcile_stamp = toUInt64 r.added_date := by
  obtain ⟨hinitF, hpF, rows', ht', hnd', _⟩ :=
    recurring_writes_invariant E env ws self rows hrec hinit ht hnd
  refine ⟨rows', ht', hnd', ?_, ?_, ?_, ?_⟩
  · intro pre info post hws hok hpost
    subst hws
    have hpre : ∀ w ∈ pre, w.isRecurring = true := fun w hw => hrec w (by simp [hw])
    have hpostR : ∀ w ∈ post, w.isRecurring = true := fun w hw => hrec w (by simp [hw])
    obtain ⟨hinitP, _, rowsP, htP, hndP, _⟩ :=
      recurring_writes_invariant E env pre self rows hpre hinit ht hnd
    obtain ⟨hinit1, _, rows1, hrows1, _, hsucc⟩ :=
      InsertOrUpdateRecurringDonation_rows E env info _ rowsP hinitP htP
    have hmem : recurringRowOf info ∈ rows1 := by rw [hsucc hok]; simp
    have hnd1 : (rows1.map (fun r => r.publisher_id)).Nodup := by
      rw [hsucc hok]; exact nodup_ids_replace rowsP (recurringRowOf info) hndP
    obtain ⟨_, _, rowsF, htF, _, hpers⟩ :=
      recurring_writes_invariant E env post _ rows1 hpostR hinit1 hrows1 hnd1
    have hfinal : runWrites E env (pre ++ Write.recurringDonation info :: post) self =
        runWrites E env post
          (InsertOrUpdateRecurringDonation E env info (runWrites E env pre self)).2 := by
      simp [runWrites, List.foldl_append, Write.run]
    rw [hfinal, htF] at ht'
    cases ht'
    refine ⟨(hpers _ hpost).mpr hmem, fun h => h, ?_⟩
    intro h0 h1
    show toUInt64 (toInt64 info.added_date) = info.added_date
    unfold toUInt64 toInt64
    omega
  · intro pre key post hws hok hpost
    subst hws
    have hpre : ∀ w ∈ pre, w.isRecurring = true := fun w hw => hrec w (by simp [hw])
    have hpostR : ∀ w ∈ post, w.isRecurring = true := fun w hw => hrec w (by simp [hw])
    obtain ⟨hinitP, _, rowsP, htP, hndP, _⟩ :=
      recurring_writes_invariant E env pre self rows hpre hinit ht hnd
    obtain ⟨hinit1, _, rows1, hrows1, _, hsucc⟩ := RemoveRecurring_rows E env key _ rowsP hinitP htP
    have hnd1 : (rows1.map (fun r => r.publisher_id)).Nodup := by
      rw [hsucc hok]; exact nodup_ids_filter rowsP key hndP
    obtain ⟨_, _, rowsF, htF, _, hpers⟩ :=
      recurring_writes_invariant E env post _ rows1 hpostR hinit1 hrows1 hnd1
    have hfinal : runWrites E env (pre ++ Write.removeRecurring key :: post) self =
        runWrites E env post (RemoveRecurring E env key (runWrites E env pre self)).2 := by
      simp [runWrites, List.foldl_append, Write.run]
    rw [hfinal, htF] at ht'
    cases ht'
    intro r hr he
    have hin : r ∈ rows1 := (hpers r (by rw [he]; exact hpost)).mp hr
    rw [hsucc hok] at hin
    simp [he] at hin
  · unfold GetRecurringDonations
    rw [Init_of_initialized E env _ hinitF]
    dsimp only
    unfold recurringRows
    split
    · rw [ht', hpF, hp]
      dsimp only
      rw [List.nil_append, List.map_map]
      exact nodup_recurring_join publishers hpk rows' hnd'
    · simp
  · intro rec hrecm
    unfold GetRecurringDonations at hrecm
    rw [Init_of_initialized E env _ hinitF] at hrecm
    dsimp only at hrecm
    unfold recurringRows at hrecm
    split at hrecm
    · rw [ht', hpF, hp] at hrecm
      dsimp only at hrecm
      rw [List.nil_append, List.mem_map] at hrecm
      obtain ⟨x, hx, rfl⟩ := hrecm
      obtain ⟨hx1, _, hx3⟩ := mem_recurring_join rows' publishers x hx
      exact ⟨x.1, hx1, hx3.symm, rfl, rfl⟩
    · simp at hrecm

/-- C22, instance: on the fresh schema, `a.com` and `b.com` are stored and the key
`youtube_x` is written for `a.com` and then for `b.com`; one row remains for the key
and the lookup returns the record of `b.com`; the key `vimeo_y` was never written. -/
theorem media_key_maps_to_latest_publisher_witness :
    (readyOn freshStore).mediaReady ∧
    (runWrites upstreamEnums Env.ideal [Write.publisherInfo recordA, Write.publisherInfo recordB,
        Write.mediaPublisherInfo "youtube_x" recordA.id,
        Write.mediaPublisherInfo "youtube_x" recordB.id] (readyOn freshStore)
      ).db_.store.media_publisher_info
      = some [{ media_key := "youtube_x", publisher_id := "b.com" }] ∧
    (GetMediaPublisherInfo upstreamEnums Env.ideal recordA "vimeo_y"
      (runWrites upstreamEnums Env.ideal [Write.publisherInfo recordA, Write.publisherInfo recordB,
        Write.mediaPublisherInfo "youtube_x" recordA.id,
        Write.mediaPublisherInfo "youtube_x" recordB.id] (readyOn freshStore))).1 = none ∧
    ∃ rec,
      (GetMediaPublisherInfo upstreamEnums Env.ideal recordA "youtube_x"
        (runWrites upstreamEnums Env.ideal [Write.publisherInfo recordA,
          Write.publisherInfo recordB, Write.mediaPublisherInfo "youtube_x" recordA.id,
          Write.mediaPublisherInfo "youtube_x" recordB.id] (readyOn freshStore))).1
        = some rec ∧
      rec.id = recordB.id ∧ rec.name = recordB.name ∧ rec.url = recordB.url ∧
      rec.favicon_url = recordB.favicon_url ∧ rec.provider = recordB.provider ∧
      rec.verified = recordB.verified ∧ rec.excluded = recordB.excluded :=
  ⟨⟨rfl, rfl, rfl, rfl⟩, by decide, by decide,
   (media_key_maps_to_latest_publisher upstreamEnums Env.ideal recordA "youtube_x" recordA
      recordB (readyOn freshStore) ⟨rfl, rfl, rfl, rfl⟩ (by decide) (by decide) (by decide)
      (by decide)).2.1⟩

/-- C23 (amended), instance: two successive donations to `a.com`, of amounts 5 and 9; one row
remains, with the second amount and date, and the list names `a.com` once. -/
theorem recurring_latest_insert_wins_witness :
    (runWrites upstreamEnums Env.ideal
        [Write.recurringDonation donationA,
         Write.recurringDonation { donationA with amount := { bits := 9 }, added_date := 8 }]
        (readyOn storeWithA)).db_.store.recurring_donation
      = some [{ publisher_id := "a.com", amount := { bits := 9 }, added_date := 8 }] ∧
    ((GetRecurringDonations upstreamEnums Env.ideal recordA []
        (runWrites upstreamEnums Env.ideal
          [Write.recurringDonation donationA,
           Write.recurringDonation { donationA with amount := { bits := 9 }, added_date := 8 }]
          (readyOn storeWithA))).1.map
        (fun rec => (rec.id, rec.weight, rec.reconcile_stamp)))
      = [("a.com", { bits := 9 }, 8)] ∧
    ∃ rows', (runWrites upstreamEnums Env.ideal
        [Write.recurringDonation donationA,
         Write.recurringDonation { donationA with amount := { bits := 9 }, added_date := 8 }]
        (readyOn storeWithA)).db_.store.recurring_donation = some rows' ∧
      (rows'.map (fun r => r.publisher_id)).Nodup :=
  ⟨by decide, by decide,
   (recurring_latest_insert_wins upstreamEnums Env.ideal recordA
      [Write.recurringDonation donationA,
       Write.recurringDonation { donationA with amount := { bits := 9 }, added_date := 8 }]
      (readyOn storeWithA) [] [publisherA] (by decide) (by decide) (by decide) (by decide)
      (by decide) (by decide)).imp (fun _ h => ⟨h.1, h.2.1⟩)⟩

end brave_rewards
